import Mathlib

/-!
# Carbon-aware KEDA operator: the scaling decision logic

A shallow embedding of the Go package `controllers` of the carbon-aware KEDA
operator (`max_replica_getter.go`, `carbon_forecast_fetcher.go`,
`requeue_duration.go`, `eco_mode_setter.go` and the decision part of
`carbonawarekedascaler_controller.go`), followed by theorems about it.

Conventions of the embedding:

* `int32` and `int64` values are integers; where Go arithmetic can wrap
  (`time.Duration` products, the `int32` difference in `getRequeueDuration`)
  the wrap is written out with `wrapInt64` and `wrapInt32`.
* A `time.Time` is its instant, in nanoseconds since the Unix epoch (UTC);
  a `time.Duration` is a number of nanoseconds.
* The clock is a parameter. `now` is the instant that `time.Now()` returns.
  `setEcoMode` reads the clock again when it calls `time.Until` for the wake
  delay of a custom window: that later reading is the parameter `later`. The
  other readings of one call are taken at `now`, and `Reconcile` calls
  `setEcoMode` with its own `now` for both.
* A `float64` is `Float64` below: NaN, the two infinities, or a finite value
  (a rational); only comparisons are used by the code.
* A Go function that can panic returns a `Run`; a Go `(value, error)` result
  is a pair whose second component is `none` for a nil error.
-/

namespace CarbonAware

/-! ## Go run-time values -/

/-- Outcome of running Go code: it finishes with a value or panics. -/
inductive Run (α : Type) where
  | done (a : α)
  | panic
deriving DecidableEq

/-- Sequencing of two computations that may panic. -/
def Run.bind {α β : Type} (r : Run α) (k : α → Run β) : Run β :=
  match r with
  | .done a => k a
  | .panic => .panic

/-- A `float64`: only its order matters to the code. -/
inductive Float64 where
  | nan
  | negInf
  | finite (q : ℚ)
  | posInf
deriving DecidableEq

namespace Float64

/-- The Go comparison `a < b` on `float64`; false when either side is NaN. -/
def lt : Float64 → Float64 → Bool
  | nan, _ => false
  | _, nan => false
  | finite a, finite b => decide (a < b)
  | negInf, negInf => false
  | negInf, _ => true
  | _, negInf => false
  | posInf, _ => false
  | finite _, posInf => true

/-- The Go comparison `a <= b` on `float64`; false when either side is NaN. -/
def le : Float64 → Float64 → Bool
  | nan, _ => false
  | _, nan => false
  | finite a, finite b => decide (a ≤ b)
  | negInf, _ => true
  | finite _, negInf => false
  | posInf, negInf => false
  | posInf, finite _ => false
  | _, posInf => true

/-- The Go comparison `a > b`. -/
def gt (a b : Float64) : Bool := lt b a

/-- The Go comparison `a >= b`. -/
def ge (a b : Float64) : Bool := le b a

/-- The conversion `float64(n)` of an `int32`, which is exact. -/
def ofInt32 (n : Int) : Float64 := finite (n : ℚ)

end Float64

/-- Reduction of an integer to the `int64` range, as Go arithmetic wraps. -/
def wrapInt64 (x : Int) : Int := (x + 2 ^ 63) % 2 ^ 64 - 2 ^ 63

/-- Reduction of an integer to the `int32` range, as Go arithmetic wraps. -/
def wrapInt32 (x : Int) : Int := (x + 2 ^ 31) % 2 ^ 32 - 2 ^ 31

/-! ## `time` -/

/-- An instant: nanoseconds since the Unix epoch. -/
abbrev Time := Int

/-- A `time.Duration`: nanoseconds, an `int64`. -/
abbrev Duration := Int

/-- The constant `time.Microsecond`. -/
def Microsecond : Duration := 1000

/-- The constant `time.Second`. -/
def Second : Duration := 1000000000

/-- The constant `time.Minute`. -/
def Minute : Duration := 60000000000

/-- The largest `time.Duration`. -/
def maxDuration : Duration := 2 ^ 63 - 1

/-- The smallest `time.Duration`. -/
def minDuration : Duration := -(2 ^ 63)

/-- The zero `time.Time`: 1 January of year 1, 00:00:00 UTC. -/
def zeroTime : Time := -62135596800 * Second

namespace Time

/-- The method `t.Add(d)`. -/
def Add (t : Time) (d : Duration) : Time := t + d

/-- The method `t.Sub(u)`: the difference, saturated to the `Duration` range. -/
def Sub (t u : Time) : Duration :=
  if t - u > maxDuration then maxDuration
  else if t - u < minDuration then minDuration
  else t - u

/-- The method `t.After(u)`. -/
def After (t u : Time) : Bool := decide (u < t)

/-- The method `t.Before(u)`. -/
def Before (t u : Time) : Bool := decide (t < u)

/-- The method `t.Equal(u)`. -/
def Equal (t u : Time) : Bool := decide (t = u)

/-- The method `t.IsZero()`. -/
def IsZero (t : Time) : Bool := decide (t = zeroTime)

/-- The method `t.Minute()` of a UTC time: the minute within the hour. -/
def Minute (t : Time) : Int := t / CarbonAware.Minute % 60

/-- The method `t.Day()` of a UTC time: the day of the month in the proleptic
Gregorian calendar, computed from the day number since the epoch. -/
def Day (t : Time) : Int :=
  let z := t / (86400 * Second) + 719468
  let era := z / 146097
  let doe := z - era * 146097
  let yoe := (doe - doe / 1460 + doe / 36524 - doe / 146096) / 365
  let doy := doe - (365 * yoe + yoe / 4 - yoe / 100)
  let mp := (5 * doy + 2) / 153
  doy - (153 * mp + 2) / 5 + 1

/-- The value `time.Date(t.Year(), t.Month(), t.Day(), 23, 59, 59, 0, time.UTC)`
for a UTC time `t`: the last whole second of the day of `t`. -/
def lastSecondOfDay (t : Time) : Time :=
  t / (86400 * Second) * (86400 * Second) + 86399 * Second

end Time

/-- The function `time.Until(t)`, the clock reading `now`. -/
def Until (now : Time) (t : Time) : Duration := Time.Sub t now

/-- The conversion `int(d.Minutes())` (also `uint(d.Minutes())` for `d ≥ 0`):
the number of whole minutes in `d`, truncated toward zero. `Minutes` computes
`float64(d / Minute) + float64(d % Minute) / 6e10`; the truncation of that sum
is `d / Minute` whenever `d` is a whole number of minutes, or lies within a
minute of zero, or is at most a day (the sum then stays below the next
integer); these are the only durations the theorems below evaluate it at. -/
def wholeMinutes (d : Duration) : Int := Int.tdiv d Minute

/-! ## API types (`api/v1alpha1`) and the forecast sample -/

/-- The type `CarbonIntensityConfig`: a band; `MaxReplicas` is a `*int32`. -/
structure CarbonIntensityConfig where
  CarbonIntensityThreshold : Int
  MaxReplicas : Option Int
deriving DecidableEq

/-- The type `CarbonForecast` (the unused `Location` is left out). -/
structure CarbonForecast where
  Timestamp : Time
  Duration : Int
  Value : Float64
deriving DecidableEq

/-! ## `max_replica_getter.go` -/

/-- What `sort.Slice` with the threshold comparison guarantees of the order it
leaves the slice in: a rearrangement of the input, ascending by threshold.
The order of bands with equal thresholds is not specified by Go. -/
def SortSliceContract (srt : List CarbonIntensityConfig → List CarbonIntensityConfig) : Prop :=
  ∀ l, (srt l).Perm l ∧
    (srt l).Sorted (fun a b => a.CarbonIntensityThreshold ≤ b.CarbonIntensityThreshold)

/-- The insertion sort that `sort.Slice` runs on slices of at most 12 elements:
an element moves left only past strictly larger thresholds. -/
def insertionSortLessFunc (configs : List CarbonIntensityConfig) : List CarbonIntensityConfig :=
  configs.insertionSort (fun a b => a.CarbonIntensityThreshold ≤ b.CarbonIntensityThreshold)

/-- The loop `for index, element := range configs` of `getMaxReplicas`, from
position `index` on, `rest` being the elements not yet visited; `none` when the
loop ends without returning. -/
def rangeConfigs (ci : Float64) (configs : List CarbonIntensityConfig) :
    Nat → List CarbonIntensityConfig → Option (Option Int)
  | _, [] => none
  | index, element :: rest =>
    let lowerBound : Float64 :=
      if index > 0 then
        match configs[index - 1]? with
        | some prev => Float64.ofInt32 prev.CarbonIntensityThreshold
        | none => Float64.ofInt32 0
      else Float64.ofInt32 0
    let upperBound : Float64 := Float64.ofInt32 element.CarbonIntensityThreshold
    if ci.gt lowerBound && ci.le upperBound then some element.MaxReplicas
    else rangeConfigs ci configs (index + 1) rest

/-- The function `getMaxReplicas`. `srt` is the order `sort.Slice` leaves the
slice in. The result is the returned `(*int32, error)` pair, or a panic
(indexing the last element of an empty slice), together with the caller's
slice after the call: the sort is in place. -/
def getMaxReplicas (srt : List CarbonIntensityConfig → List CarbonIntensityConfig)
    (forecast : Option CarbonForecast) (configs : List CarbonIntensityConfig) :
    Run (Option Int × Option String) × List CarbonIntensityConfig :=
  match forecast with
  | none => (.done (none, some "no forecast data"), configs)
  | some f =>
    let ci := f.Value
    let configs := srt configs
    match rangeConfigs ci configs 0 configs with
    | some maxReplicas => (.done (maxReplicas, none), configs)
    | none =>
      match configs.getLast? with
      | some last => (.done (last.MaxReplicas, none), configs)
      | none => (.panic, configs)

/-! ## `carbon_forecast_fetcher.go` -/

/-- The function `findCarbonForecast`: the first sample, in slice order, whose
window contains `t`, or nil. -/
def findCarbonForecast (cfs : List CarbonForecast) (t : Time) : Option CarbonForecast :=
  cfs.find? (fun cf =>
    (Time.Equal t cf.Timestamp || Time.After t cf.Timestamp) &&
      Time.Before t (Time.Add cf.Timestamp (wrapInt64 (cf.Duration * Minute))))

/-! ## `requeue_duration.go` -/

/-- The function `getRequeueDuration`; the `int32` remainder panics on a zero
interval. -/
def getRequeueDuration (now : Time) (interval : Int) : Run Duration :=
  if interval = 0 then .panic
  else
    let diff := wrapInt32 (interval - Int.tmod (Time.Minute now) interval)
    let nextMin := Time.Add now (wrapInt64 (diff * Minute))
    .done (Time.Sub nextMin now)

/-! ## `cronexpr` (third-party): a parsed recurrence expression -/

/-- A parsed `cronexpr.Expression`, given by its method `Next`: the earliest
firing strictly after the argument, or the zero time when there is none. -/
structure Expression where
  Next : Time → Time

/-- The method `expr.NextN(fromTime, n)`: up to `n` successive firings after
`fromTime`, stopping early when there is no further firing. -/
def Expression.NextN (expr : Expression) (fromTime : Time) : Nat → List Time
  | 0 => []
  | n + 1 =>
    let t := expr.Next fromTime
    if Time.IsZero t then [] else t :: Expression.NextN expr t n

/-! ## `eco_mode_setter.go` -/

/-- The type `Schedule`: a custom window, as two timestamps in text. -/
structure Schedule where
  StartTime : String
  EndTime : String
deriving DecidableEq

/-- The type `CarbonIntensityDuration`. -/
structure CarbonIntensityDuration where
  CarbonIntensityThreshold : Int
  OverrideEcoAfterDurationInMins : Int
deriving DecidableEq

/-- The type `EcoModeOff`. -/
structure EcoModeOff where
  MaxReplicas : Int
  CarbonIntensityDuration : CarbonIntensityDuration
  CustomSchedule : List Schedule
  RecurringSchedule : List String
deriving DecidableEq

/-- The text of `EcoModeStatus.DisableReason`, given by the format that built
it and the values formatted into it. -/
inductive DisableReason where
  /-- The empty string. -/
  | empty
  /-- Text `custom schedule from %s to %s`. -/
  | customSchedule (start stop : Time)
  /-- Text `recurring schedule "%s"`. -/
  | recurringSchedule (entry : String)
  /-- Text `carbon intensity >= threshold of %d for the last %s`. -/
  | carbonIntensity (threshold : Int) (duration : Duration)
  /-- Text `Disabling carbon awareness since maxReplicaCount of %d is less than
  what HPA desires %d`. -/
  | hpaDesires (maxReplicaCount desiredReplicas : Int)
  /-- The text `err.Error()` of an error. -/
  | error (msg : String)
deriving DecidableEq

/-- The type `EcoModeStatus`. -/
structure EcoModeStatus where
  IsDisabled : Bool
  DisableReason : DisableReason
  RequeueAfter : Duration
deriving DecidableEq

/-- The custom-schedule loop of `setEcoMode`. `parseTime` is
`time.Parse(time.RFC3339, ·)`. `now` is the value of `now := time.Now().UTC()`
read before the loop, which the window test uses; `later` is the reading of
the clock that `time.Until` takes when the wake delay is computed. The result
is `some` of the status and returned error when the loop returns from
`setEcoMode`, `none` when it runs to its end. -/
def customScheduleLoop (parseTime : String → Except String Time) (now later : Time)
    (ecoModeStatus : EcoModeStatus) : List Schedule → Option (EcoModeStatus × Option String)
  | [] => none
  | entry :: rest =>
    match parseTime entry.StartTime with
    | .error err => some (ecoModeStatus, some err)
    | .ok start =>
      match parseTime entry.EndTime with
      | .error err => some (ecoModeStatus, some err)
      | .ok stop =>
        if Time.After now start && Time.Before now stop then
          let duration := Until later (Time.Add stop (Microsecond * 1))
          some ({ IsDisabled := true
                  DisableReason := .customSchedule start stop
                  RequeueAfter := duration }, none)
        else customScheduleLoop parseTime now later ecoModeStatus rest

/-- The firings kept by the loop that cuts `nextn` at the first firing whose
day of the month differs from that of `now`. -/
def sameDayFirings (now : Time) (nextn : List Time) : List Time :=
  nextn.takeWhile (fun n => decide (Time.Day n = Time.Day now))

/-- The recurring-schedule loop of `setEcoMode`. `mustParse` is
`cronexpr.MustParse`, which panics (`none` here) on a malformed expression.
Taking the last element of an empty `nextn` panics. -/
def recurringScheduleLoop (mustParse : String → Option Expression) (now : Time) :
    List String → Run (Option (EcoModeStatus × Option String))
  | [] => .done none
  | entry :: rest =>
    match mustParse entry with
    | none => .panic
    | some expr =>
      let next := expr.Next now
      if Time.Sub next now ≤ Minute then
        let eod := Until now (Time.Add (Time.lastSecondOfDay now) (Second * 1))
        let nextn := expr.NextN now (wholeMinutes eod).toNat
        let nextn := sameDayFirings now nextn
        match nextn.getLast? with
        | none => .panic
        | some last =>
          let duration := Until now (Time.Add last (Minute + 1))
          .done (some ({ IsDisabled := true
                         DisableReason := .recurringSchedule entry
                         RequeueAfter := duration }, none))
      else recurringScheduleLoop mustParse now rest

/-- The counter `meetsThresholdCount` after the loop over
`i = 0, ..., bound - 1` of `setEcoMode`: the number of those `i` for which the
sample found for `now - i` minutes has a value `>= threshold`. -/
def meetsThresholdCount (forecast : List CarbonForecast) (now : Time)
    (carbonIntensityThreshold : Int) (bound : Nat) : Nat :=
  (List.range bound).countP (fun (i : Nat) =>
    let lookback := Time.Add now (wrapInt64 (-(i : Int) * Minute))
    match findCarbonForecast forecast lookback with
    | none => false
    | some currentForecast =>
      currentForecast.Value.ge (Float64.ofInt32 carbonIntensityThreshold))

/-- The carbon-intensity-duration block of `setEcoMode`. -/
def carbonIntensityDurationBlock (now : Time) (ecoModeStatus : EcoModeStatus)
    (configs : EcoModeOff) (forecast : List CarbonForecast) : EcoModeStatus :=
  if configs.CarbonIntensityDuration.OverrideEcoAfterDurationInMins > 0 then
    let carbonIntensityThreshold := configs.CarbonIntensityDuration.CarbonIntensityThreshold
    let overrideEcoAfterDuration : Duration :=
      wrapInt64 (configs.CarbonIntensityDuration.OverrideEcoAfterDurationInMins * Minute)
    let durationMins := wholeMinutes overrideEcoAfterDuration
    let count := meetsThresholdCount forecast now carbonIntensityThreshold
      (wholeMinutes overrideEcoAfterDuration).toNat
    if (count : Int) = durationMins then
      { ecoModeStatus with
        IsDisabled := true
        DisableReason := .carbonIntensity carbonIntensityThreshold overrideEcoAfterDuration }
    else ecoModeStatus
  else ecoModeStatus

/-- The function `setEcoMode`: the status after the call and the returned
error, or a panic. `now` is the clock as the function reads it with
`time.Now()`, `later` the reading that `time.Until` takes in the
custom-schedule branch. -/
def setEcoMode (parseTime : String → Except String Time)
    (mustParse : String → Option Expression) (now later : Time)
    (ecoModeStatus : EcoModeStatus) (configs : EcoModeOff)
    (forecast : List CarbonForecast) : Run (EcoModeStatus × Option String) :=
  match customScheduleLoop parseTime now later ecoModeStatus configs.CustomSchedule with
  | some returned => .done returned
  | none =>
    match recurringScheduleLoop mustParse now configs.RecurringSchedule with
    | .panic => .panic
    | .done (some returned) => .done returned
    | .done none => .done (carbonIntensityDurationBlock now ecoModeStatus configs forecast, none)

/-! ## `carbonawarekedascaler_controller.go` -/

/-- Whether the characters `substr` start the characters `s`. -/
def startsWithChars : List Char → List Char → Bool
  | _, [] => true
  | [], _ :: _ => false
  | c :: s, d :: substr => c == d && startsWithChars s substr

/-- Whether the characters `substr` occur in `s` as a block. -/
def containsChars : List Char → List Char → Bool
  | [], substr => substr.isEmpty
  | c :: s, substr => startsWithChars (c :: s) substr || containsChars s substr

/-- The function `strings.Contains`. -/
def stringsContains (s substr : String) : Bool := containsChars s.toList substr.toList

/-- The fields of `CarbonAwareKedaScalerSpec` that the decision reads (the
target reference and the forecast data source only select what is fetched). -/
structure CarbonAwareKedaScalerSpec where
  KedaTarget : String
  MaxReplicasByCarbonIntensity : List CarbonIntensityConfig
  EcoModeOff : EcoModeOff
deriving DecidableEq

/-- The zero value of the spec, which `Reconcile` works on when the Get of the
custom resource fails with an error other than NotFound. -/
def zeroSpec : CarbonAwareKedaScalerSpec :=
  { KedaTarget := ""
    MaxReplicasByCarbonIntensity := []
    EcoModeOff :=
      { MaxReplicas := 0
        CarbonIntensityDuration := ⟨0, 0⟩
        CustomSchedule := []
        RecurringSchedule := [] } }

/-- Answer of the API server to a Get. -/
inductive GetResult (α : Type) where
  | found (a : α)
  | notFound
  | failed
deriving DecidableEq

/-- What the API server and the forecast fetcher answer during one call of
`Reconcile`: the custom resource, the fetched forecast and fetch error, the
KEDA target, the HPA of a scaled object (its `Status.DesiredReplicas`), the
second Get of the target, and whether the Update succeeds. -/
structure Cluster where
  scaler : GetResult CarbonAwareKedaScalerSpec
  forecast : List CarbonForecast
  fetchErr : Option String
  target : GetResult Unit
  hpa : GetResult Int
  freshTarget : GetResult Unit
  updateOk : Bool

/-- The local variables of `Reconcile` once the current forecast is known. -/
structure Locals where
  ecoModeStatus : EcoModeStatus
  maxReplicaCount : Option Int
  requeueInterval : Int
  currentforecast : CarbonForecast
deriving DecidableEq

/-- The call `r.Update` on the KEDA target: the `Spec.MaxReplicaCount` written,
the eco mode status it was decided under, and whether the Update succeeded. -/
structure TargetUpdate where
  MaxReplicaCount : Option Int
  ecoModeStatus : EcoModeStatus
  succeeded : Bool
deriving DecidableEq

/-- What one call of `Reconcile` does: the Update of the target, if it gets
there, and how it ends: the returned `RequeueAfter` and whether the returned
error is non-nil, or a panic. -/
structure ReconcileResult where
  update : Option TargetUpdate
  exit : Run (Duration × Bool)
deriving DecidableEq

/-- The statement `return ctrl.Result{RequeueAfter: getRequeueDuration(now, requeueInterval)}, err`. -/
def returnRequeue (now : Time) (requeueInterval : Int) (update : Option TargetUpdate)
    (failed : Bool) : ReconcileResult :=
  { update := update
    exit := (getRequeueDuration now requeueInterval).bind (fun d => .done (d, failed)) }

/-- The assignments that every error branch of `Reconcile` makes: eco mode is
disabled with the error as reason and the cap is the default. -/
def disableOnError (now : Time) (requeueInterval : Int) (err : String)
    (configs : EcoModeOff) : Run (EcoModeStatus × Option Int) :=
  (getRequeueDuration now requeueInterval).bind (fun d =>
    .done ({ IsDisabled := true, DisableReason := .error err, RequeueAfter := d },
           some configs.MaxReplicas))

/-- The error branch after the fetch of the forecast. -/
def fetchStep (now : Time) (spec : CarbonAwareKedaScalerSpec) (fetchErr : Option String)
    (ecoModeStatus : EcoModeStatus) : Run (EcoModeStatus × Option Int) :=
  match fetchErr with
  | some err => disableOnError now 5 err spec.EcoModeOff
  | none => .done (ecoModeStatus, none)

/-- The block `if !ecoModeStatus.IsDisabled { err = setEcoMode(...) ... }`. -/
def ecoModeStep (parseTime : String → Except String Time)
    (mustParse : String → Option Expression) (now : Time) (spec : CarbonAwareKedaScalerSpec)
    (forecast : List CarbonForecast) (requeueInterval : Int)
    (ecoModeStatus : EcoModeStatus) (maxReplicaCount : Option Int) :
    Run (EcoModeStatus × Option Int) :=
  if !ecoModeStatus.IsDisabled then
    match setEcoMode parseTime mustParse now now ecoModeStatus spec.EcoModeOff forecast with
    | .panic => .panic
    | .done (_, some err) => disableOnError now requeueInterval err spec.EcoModeOff
    | .done (ecoModeStatus, none) => .done (ecoModeStatus, maxReplicaCount)
  else .done (ecoModeStatus, maxReplicaCount)

/-- The block `if !ecoModeStatus.IsDisabled { maxReplicaCount, err = getMaxReplicas(...) ... }`. -/
def maxReplicasStep (srt : List CarbonIntensityConfig → List CarbonIntensityConfig)
    (now : Time) (spec : CarbonAwareKedaScalerSpec) (currentforecast : CarbonForecast)
    (requeueInterval : Int) (ecoModeStatus : EcoModeStatus) (maxReplicaCount : Option Int) :
    Run (EcoModeStatus × Option Int) :=
  if !ecoModeStatus.IsDisabled then
    match (getMaxReplicas srt (some currentforecast) spec.MaxReplicasByCarbonIntensity).1 with
    | .panic => .panic
    | .done (_, some err) => disableOnError now requeueInterval err spec.EcoModeOff
    | .done (maxReplicas, none) => .done (ecoModeStatus, maxReplicas)
  else .done (ecoModeStatus, maxReplicaCount)

/-- The part of `Reconcile` from fetching the forecast up to the `switch`: the
fetch error branch, the current forecast (whose `Duration` is read even when
no sample was found: a nil dereference), `setEcoMode` and `getMaxReplicas`. -/
def evaluate (srt : List CarbonIntensityConfig → List CarbonIntensityConfig)
    (parseTime : String → Except String Time) (mustParse : String → Option Expression)
    (now : Time) (spec : CarbonAwareKedaScalerSpec) (forecast : List CarbonForecast)
    (fetchErr : Option String) (ecoModeStatus : EcoModeStatus) : Run Locals :=
  match fetchStep now spec fetchErr ecoModeStatus with
  | .panic => .panic
  | .done (ecoModeStatus, maxReplicaCount) =>
    match findCarbonForecast forecast now with
    | none => .panic
    | some currentforecast =>
      let requeueInterval : Int := if fetchErr.isSome then 5 else currentforecast.Duration
      match ecoModeStep parseTime mustParse now spec forecast requeueInterval
          ecoModeStatus maxReplicaCount with
      | .panic => .panic
      | .done (ecoModeStatus, maxReplicaCount) =>
        match maxReplicasStep srt now spec currentforecast requeueInterval
            ecoModeStatus maxReplicaCount with
        | .panic => .panic
        | .done (ecoModeStatus, maxReplicaCount) =>
          .done { ecoModeStatus := ecoModeStatus
                  maxReplicaCount := maxReplicaCount
                  requeueInterval := requeueInterval
                  currentforecast := currentforecast }

/-- The demand guard: eco mode is disabled when the cap is set and below what
the HPA desires. -/
def demandGuard (ecoModeStatus : EcoModeStatus) (maxReplicaCount : Option Int)
    (desiredReplicas : Int) : EcoModeStatus :=
  match maxReplicaCount with
  | some m =>
    if m < desiredReplicas then
      { ecoModeStatus with
        IsDisabled := true
        DisableReason := .hpaDesires m desiredReplicas }
    else ecoModeStatus
  | none => ecoModeStatus

/-- The statement `if ecoModeStatus.IsDisabled { maxReplicaCount = &...EcoModeOff.MaxReplicas }`. -/
def capForStatus (ecoModeStatus : EcoModeStatus) (maxReplicaCount : Option Int)
    (configs : EcoModeOff) : Option Int :=
  if ecoModeStatus.IsDisabled then some configs.MaxReplicas else maxReplicaCount

/-- The end of `Reconcile`, after the `switch`: the metrics dereference
`maxReplicaCount` (a panic when it is nil), then the normal return. -/
def finish (now : Time) (requeueInterval : Int) (maxReplicaCount : Option Int)
    (update : Option TargetUpdate) : ReconcileResult :=
  match maxReplicaCount with
  | none => { update := update, exit := .panic }
  | some _ => returnRequeue now requeueInterval update false

/-- The second Get of the target, the Update, and what follows it. -/
def updateTarget (now : Time) (c : Cluster) (requeueInterval : Int)
    (ecoModeStatus : EcoModeStatus) (maxReplicaCount : Option Int) : ReconcileResult :=
  match c.freshTarget with
  | .notFound => returnRequeue now requeueInterval none false
  | .failed => returnRequeue now requeueInterval none true
  | .found _ =>
    let update : TargetUpdate :=
      { MaxReplicaCount := maxReplicaCount
        ecoModeStatus := ecoModeStatus
        succeeded := c.updateOk }
    if c.updateOk then finish now requeueInterval maxReplicaCount (some update)
    else returnRequeue now requeueInterval (some update) true

/-- The `scaledobject` case of the `switch`. -/
def scaledObjectCase (now : Time) (spec : CarbonAwareKedaScalerSpec) (c : Cluster)
    (l : Locals) : ReconcileResult :=
  match c.target with
  | .notFound => returnRequeue now l.requeueInterval none false
  | .failed => returnRequeue now l.requeueInterval none true
  | .found _ =>
    match c.hpa with
    | .notFound => returnRequeue now l.requeueInterval none false
    | .failed => returnRequeue now l.requeueInterval none true
    | .found desiredReplicas =>
      let ecoModeStatus := demandGuard l.ecoModeStatus l.maxReplicaCount desiredReplicas
      let maxReplicaCount := capForStatus ecoModeStatus l.maxReplicaCount spec.EcoModeOff
      updateTarget now c l.requeueInterval ecoModeStatus maxReplicaCount

/-- The `scaledjob` case of the `switch`. -/
def scaledJobCase (now : Time) (spec : CarbonAwareKedaScalerSpec) (c : Cluster)
    (l : Locals) : ReconcileResult :=
  match c.target with
  | .notFound => returnRequeue now l.requeueInterval none false
  | .failed => returnRequeue now l.requeueInterval none true
  | .found _ =>
    let maxReplicaCount := capForStatus l.ecoModeStatus l.maxReplicaCount spec.EcoModeOff
    updateTarget now c l.requeueInterval l.ecoModeStatus maxReplicaCount

/-- The `switch` of `Reconcile` on the kind of KEDA target, and what follows. -/
def scaleTarget (now : Time) (spec : CarbonAwareKedaScalerSpec) (c : Cluster)
    (l : Locals) : ReconcileResult :=
  if stringsContains spec.KedaTarget "scaledobject" then scaledObjectCase now spec c l
  else if stringsContains spec.KedaTarget "scaledjob" then scaledJobCase now spec c l
  else finish now l.requeueInterval l.maxReplicaCount none

/-- The function `Reconcile`, with a forecast fetcher set. Logging, events,
metrics values and status conditions are left out: they do not feed back into
the decision. -/
def Reconcile (srt : List CarbonIntensityConfig → List CarbonIntensityConfig)
    (parseTime : String → Except String Time) (mustParse : String → Option Expression)
    (now : Time) (c : Cluster) : ReconcileResult :=
  let requeueInterval : Int := 5
  match getRequeueDuration now requeueInterval with
  | .panic => { update := none, exit := .panic }
  | .done initial =>
    let ecoModeStatus : EcoModeStatus :=
      { IsDisabled := false, DisableReason := .empty, RequeueAfter := initial }
    match c.scaler with
    | .notFound => returnRequeue now requeueInterval none false
    | scaler =>
      let spec := match scaler with
        | .found spec => spec
        | _ => zeroSpec
      match evaluate srt parseTime mustParse now spec c.forecast c.fetchErr ecoModeStatus with
      | .panic => { update := none, exit := .panic }
      | .done l => scaleTarget now spec c l

/-! ## Vocabulary of the statements and sample inputs -/

/-- The lower bound of band `i` of a list of bands: the threshold of band
`i - 1`, or 0 for the first band. -/
def lowerThreshold (bands : List CarbonIntensityConfig) : Nat → Int
  | 0 => 0
  | i + 1 =>
    match bands[i]? with
    | some prev => prev.CarbonIntensityThreshold
    | none => 0

/-- Intensity `v` selects band `i`, which is `e`: the lower bound of the band
is below `v` and `v` is at most the band's own threshold. -/
def SelectsBand (v : Float64) (bands : List CarbonIntensityConfig) (i : Nat)
    (e : CarbonIntensityConfig) : Prop :=
  bands[i]? = some e ∧
    Float64.lt (Float64.ofInt32 (lowerThreshold bands i)) v = true ∧
    Float64.le v (Float64.ofInt32 e.CarbonIntensityThreshold) = true

instance (v : Float64) (bands : List CarbonIntensityConfig) (i : Nat)
    (e : CarbonIntensityConfig) : Decidable (SelectsBand v bands i e) := by
  unfold SelectsBand
  infer_instance

/-- The bands of the unit test: thresholds 100, 90, 40 with caps 10, 20, 80. -/
def testConfigs : List CarbonIntensityConfig :=
  [⟨100, some 10⟩, ⟨90, some 20⟩, ⟨40, some 80⟩]

/-- A forecast sample of five minutes with the given intensity. -/
def sampleOf (v : ℚ) : CarbonForecast :=
  { Timestamp := 0, Duration := 5, Value := .finite v }

/-- The window of a custom-schedule entry, when both timestamps parse. -/
def windowOf (parseTime : String → Except String Time) (entry : Schedule) :
    Option (Time × Time) :=
  match parseTime entry.StartTime, parseTime entry.EndTime with
  | .ok start, .ok stop => some (start, stop)
  | _, _ => none

/-- The instant `now` lies strictly inside the window of the entry:
`start < now < end`. -/
def windowActive (parseTime : String → Except String Time) (now : Time)
    (entry : Schedule) : Bool :=
  match windowOf parseTime entry with
  | some (start, stop) => decide (start < now) && decide (now < stop)
  | none => false

/-- The status that the custom-schedule rule sets for a window, `later` being
the reading of the clock taken by `time.Until`. -/
def customScheduleStatus (later : Time) (start stop : Time) : EcoModeStatus :=
  { IsDisabled := true
    DisableReason := .customSchedule start stop
    RequeueAfter := Until later (Time.Add stop Microsecond) }

/-- A stand-in for `time.Parse(time.RFC3339, ·)` on the timestamps of the
sample policies; every other text is taken as malformed. -/
def parseSample : String → Except String Time
  | "2023-06-01T10:00:00Z" => .ok (1685613600 * Second)
  | "2023-06-01T11:00:00Z" => .ok (1685617200 * Second)
  | "2023-06-01T12:00:00Z" => .ok (1685620800 * Second)
  | s => .error ("cannot parse " ++ s)

/-- The expression `* * * * *`: it fires at every whole minute. -/
def everyMinute : Expression :=
  { Next := fun t => (t / Minute + 1) * Minute }

/-- A stand-in for `cronexpr.MustParse` that knows `* * * * *` only. -/
def mustParseSample : String → Option Expression
  | "* * * * *" => some everyMinute
  | _ => none

/-- The status of a fresh `&EcoModeStatus{}`, as the unit tests pass it. -/
def freshStatus : EcoModeStatus :=
  { IsDisabled := false, DisableReason := .empty, RequeueAfter := 0 }

/-- A policy with the single custom window 10:00 to 11:00 on 1 June 2023. -/
def morningWindowPolicy : EcoModeOff :=
  { MaxReplicas := 100
    CarbonIntensityDuration := ⟨0, 0⟩
    CustomSchedule := [⟨"2023-06-01T10:00:00Z", "2023-06-01T11:00:00Z"⟩]
    RecurringSchedule := [] }

/-- A policy with only an intensity-duration rule: threshold 50 over a number
of minutes. -/
def intensityPolicy (overrideEcoAfterDurationInMins : Int) : EcoModeOff :=
  { MaxReplicas := 100
    CarbonIntensityDuration := ⟨50, overrideEcoAfterDurationInMins⟩
    CustomSchedule := []
    RecurringSchedule := [] }

/-- The largest number of minutes whose `time.Duration` does not overflow. -/
def maxWholeMinutes : Int := 153722867

/-- A policy with the single recurring rule `* * * * *`. -/
def everyMinutePolicy : EcoModeOff :=
  { MaxReplicas := 100
    CarbonIntensityDuration := ⟨0, 0⟩
    CustomSchedule := []
    RecurringSchedule := ["* * * * *"] }

/-- The list of firings on the day of `now` that `setEcoMode` builds for an
active recurring rule. -/
def firingsToday (expr : Expression) (now : Time) : List Time :=
  sameDayFirings now
    (expr.NextN now
      (wholeMinutes (Until now (Time.Add (Time.lastSecondOfDay now) Second))).toNat)

/-- The status that the recurring rule sets for an entry whose last firing of
the day is `last`. -/
def recurringScheduleStatus (now : Time) (entry : String) (last : Time) : EcoModeStatus :=
  { IsDisabled := true
    DisableReason := .recurringSchedule entry
    RequeueAfter := Until now (Time.Add last (Minute + 1)) }

/-- A policy whose first custom entry is malformed and whose second is the
window 10:00 to 11:00 on 1 June 2023. -/
def malformedFirstPolicy : EcoModeOff :=
  { MaxReplicas := 100
    CarbonIntensityDuration := ⟨0, 0⟩
    CustomSchedule := [⟨"yesterday", "tomorrow"⟩,
      ⟨"2023-06-01T10:00:00Z", "2023-06-01T11:00:00Z"⟩]
    RecurringSchedule := [] }

/-- A forecast of one sample of value 90 that covers the whole of 1 June 2023. -/
def highDayForecast : List CarbonForecast :=
  [⟨1685577600 * Second, 1440, .finite 90⟩]

/-- A custom resource for a target of the given kind: one band with cap 9, the
default cap 100, no eco-mode-off rules. -/
def sampleSpec (kedaTarget : String) : CarbonAwareKedaScalerSpec :=
  { KedaTarget := kedaTarget
    MaxReplicasByCarbonIntensity := [⟨100, some 9⟩]
    EcoModeOff :=
      { MaxReplicas := 100
        CarbonIntensityDuration := ⟨0, 0⟩
        CustomSchedule := []
        RecurringSchedule := [] } }

/-- A cluster in which every call succeeds, a five-minute sample of intensity
50 starts at noon of 1 June 2023, and the HPA desires the given replicas. -/
def sampleCluster (kedaTarget : String) (desiredReplicas : Int) : Cluster :=
  { scaler := .found (sampleSpec kedaTarget)
    forecast := [⟨1685620800 * Second, 5, .finite 50⟩]
    fetchErr := none
    target := .found ()
    hpa := .found desiredReplicas
    freshTarget := .found ()
    updateOk := true }

/-- The local variables of `Reconcile` on `sampleCluster` at noon, before the
`switch`. -/
def sampleLocals : Locals :=
  { ecoModeStatus := { IsDisabled := false, DisableReason := .empty, RequeueAfter := 5 * Minute }
    maxReplicaCount := some 9
    requeueInterval := 5
    currentforecast := ⟨1685620800 * Second, 5, .finite 50⟩ }

/-- The window of a sample contains the instant `t`: the timestamp is at most
`t` and `t` is before the timestamp plus the duration in minutes. -/
def windowContains (cf : CarbonForecast) (t : Time) : Prop :=
  cf.Timestamp ≤ t ∧ t < cf.Timestamp + cf.Duration * Minute

instance (cf : CarbonForecast) (t : Time) : Decidable (windowContains cf t) := by
  unfold windowContains
  infer_instance

/-- The series of the unit test around `now`: seven samples of five minutes
starting fifteen minutes before `now`, with the values 80, 20, 10, 100, 80,
70, 60. -/
def testSeries (now : Time) : List CarbonForecast :=
  [⟨now - 15 * Minute, 5, .finite 80⟩, ⟨now - 10 * Minute, 5, .finite 20⟩,
   ⟨now - 5 * Minute, 5, .finite 10⟩, ⟨now, 5, .finite 100⟩,
   ⟨now + 5 * Minute, 5, .finite 80⟩, ⟨now + 10 * Minute, 5, .finite 70⟩,
   ⟨now + 15 * Minute, 5, .finite 60⟩]

/-- A stand-in for `time.Parse(time.RFC3339, ·)` that also knows the last
second of the year 9999. -/
def parseFarFuture : String → Except String Time
  | "2023-06-01T10:00:00Z" => .ok (1685613600 * Second)
  | "9999-12-31T23:59:59Z" => .ok (253402300799 * Second)
  | s => .error ("cannot parse " ++ s)

/-- A policy with one custom window, from 10:00 on 1 June 2023 to the end of
the year 9999. -/
def openEndedPolicy : EcoModeOff :=
  { MaxReplicas := 100
    CarbonIntensityDuration := ⟨0, 0⟩
    CustomSchedule := [⟨"2023-06-01T10:00:00Z", "9999-12-31T23:59:59Z"⟩]
    RecurringSchedule := [] }

/-- The month of a UTC time, counted in months since January of year 0 of the
proleptic Gregorian calendar. -/
def monthIndex (t : Time) : Int :=
  let z := t / (86400 * Second) + 719468
  let era := z / 146097
  let doe := z - era * 146097
  let yoe := (doe - doe / 1460 + doe / 36524 - doe / 146096) / 365
  let doy := doe - (365 * yoe + yoe / 4 - yoe / 100)
  let mp := (5 * doy + 2) / 153
  (yoe + era * 400) * 12 + mp + 2

/-- The day number, since the epoch, of the first day of the month with the
given index. -/
def firstOfMonth (k : Int) : Int :=
  let y := (k - 2) / 12
  let mp := (k - 2) % 12
  let era := y / 400
  let yoe := y - era * 400
  let doy := (153 * mp + 2) / 5
  let doe := yoe * 365 + yoe / 4 - yoe / 100 + doy
  era * 146097 + doe - 719468

/-- The expression `30 23 1 * *`: it fires at 23:30:00 on the first day of
every month. -/
def monthlyAt2330 : Expression :=
  { Next := fun t =>
      let firing : Int → Time := fun k =>
        firstOfMonth k * (86400 * Second) + (23 * 60 + 30) * Minute
      if t < firing (monthIndex t) then firing (monthIndex t)
      else firing (monthIndex t + 1) }

/-- A stand-in for `cronexpr.MustParse` that knows `30 23 1 * *` only. -/
def mustParseMonthly : String → Option Expression
  | "30 23 1 * *" => some monthlyAt2330
  | _ => none

/-- A policy with the single recurring rule `30 23 1 * *`. -/
def monthlyPolicy : EcoModeOff :=
  { MaxReplicas := 100
    CarbonIntensityDuration := ⟨0, 0⟩
    CustomSchedule := []
    RecurringSchedule := ["30 23 1 * *"] }

/-- A cluster in which every call succeeds, for a scaled object whose policy
has the custom window 10:00 to 11:00 on 1 June 2023; a five-minute sample of
intensity 50 starts at 10:30 and the HPA desires 5 replicas. -/
def windowCluster : Cluster :=
  { scaler := .found
      { KedaTarget := "scaledobjects.keda.sh"
        MaxReplicasByCarbonIntensity := [⟨100, some 9⟩]
        EcoModeOff := morningWindowPolicy }
    forecast := [⟨1685615400 * Second, 5, .finite 50⟩]
    fetchErr := none
    target := .found ()
    hpa := .found 5
    freshTarget := .found ()
    updateOk := true }

/-- The sample cluster after a failed fetch: the fetcher returns an error and
no samples. -/
def fetchFailedCluster : Cluster :=
  { sampleCluster "scaledobjects.keda.sh" 5 with
    forecast := []
    fetchErr := some "configmap not found" }

/-- A policy whose first custom entry is the window 10:00 to 11:00 on 1 June
2023 and whose second is malformed. -/
def malformedLastPolicy : EcoModeOff :=
  { MaxReplicas := 100
    CarbonIntensityDuration := ⟨0, 0⟩
    CustomSchedule := [⟨"2023-06-01T10:00:00Z", "2023-06-01T11:00:00Z"⟩,
      ⟨"yesterday", "tomorrow"⟩]
    RecurringSchedule := [] }

/-- A policy whose single recurrence string is malformed. -/
def malformedCronPolicy : EcoModeOff :=
  { MaxReplicas := 100
    CarbonIntensityDuration := ⟨0, 0⟩
    CustomSchedule := []
    RecurringSchedule := ["every now and then"] }

/-- The bands of the unit test in ascending order of threshold. -/
def testConfigsAscending : List CarbonIntensityConfig :=
  [⟨40, some 80⟩, ⟨90, some 20⟩, ⟨100, some 10⟩]

/-- The thresholds of a band list are pairwise distinct. -/
def DistinctThresholds (configs : List CarbonIntensityConfig) : Prop :=
  configs.Pairwise (fun a b => a.CarbonIntensityThreshold ≠ b.CarbonIntensityThreshold)

instance (configs : List CarbonIntensityConfig) : Decidable (DistinctThresholds configs) := by
  unfold DistinctThresholds
  infer_instance

/-- The intensity-duration rule fires: the block of `setEcoMode` for it
disables eco mode on a status that was enabled. -/
def intensityRuleFires (now : Time) (configs : EcoModeOff)
    (forecast : List CarbonForecast) : Bool :=
  (carbonIntensityDurationBlock now freshStatus configs forecast).IsDisabled

/-- The status that the intensity-duration rule leaves when it fires: only
`IsDisabled` and `DisableReason` are set. -/
def carbonIntensityStatus (ecoModeStatus : EcoModeStatus) (configs : EcoModeOff) :
    EcoModeStatus :=
  { ecoModeStatus with
    IsDisabled := true
    DisableReason := .carbonIntensity configs.CarbonIntensityDuration.CarbonIntensityThreshold
      (wrapInt64 (configs.CarbonIntensityDuration.OverrideEcoAfterDurationInMins * Minute)) }

/-- A policy whose single custom entry is malformed, with no other rule. -/
def malformedOnlyPolicy : EcoModeOff :=
  { MaxReplicas := 100
    CarbonIntensityDuration := ⟨0, 0⟩
    CustomSchedule := [⟨"yesterday", "tomorrow"⟩]
    RecurringSchedule := [] }

/-- A status as `Reconcile` passes it to `setEcoMode`: enabled, with the
default wake delay of five minutes. -/
def defaultDelayStatus : EcoModeStatus :=
  { IsDisabled := false, DisableReason := .empty, RequeueAfter := 5 * Minute }


/-- The status that an error branch of `Reconcile` sets: eco mode disabled
with the text of the error as reason. -/
def errorStatus (err : String) (requeueAfter : Duration) : EcoModeStatus :=
  { IsDisabled := true, DisableReason := .error err, RequeueAfter := requeueAfter }

/-- The status that the demand guard sets from `st` for a cap `m` below the
`desired` replicas. -/
def hpaDesiresStatus (st : EcoModeStatus) (m desired : Int) : EcoModeStatus :=
  { st with IsDisabled := true, DisableReason := .hpaDesires m desired }

/-- A cluster in which every call succeeds, for a scaled job whose policy has
the intensity-duration rule of threshold 50 over one minute; one sample of
value 90 covers the whole of 1 June 2023. -/
def intensityCluster : Cluster :=
  { scaler := .found
      { KedaTarget := "scaledjobs.keda.sh"
        MaxReplicasByCarbonIntensity := [⟨100, some 9⟩]
        EcoModeOff := intensityPolicy 1 }
    forecast := highDayForecast
    fetchErr := none
    target := .found ()
    hpa := .notFound
    freshTarget := .found ()
    updateOk := true }

/-- The sample cluster for a scaled job, with a fetcher that returns an error
together with the sample that covers noon. -/
def partialFetchCluster : Cluster :=
  { sampleCluster "scaledjobs.keda.sh" 5 with fetchErr := some "stale forecast" }

/-- A cluster in which every call succeeds, for a scaled object whose policy
has a single, malformed custom-schedule entry; a five-minute sample of
intensity 50 starts at noon of 1 June 2023 and the HPA desires 5 replicas. -/
def malformedCluster : Cluster :=
  { scaler := .found
      { KedaTarget := "scaledobjects.keda.sh"
        MaxReplicasByCarbonIntensity := [⟨100, some 9⟩]
        EcoModeOff := malformedOnlyPolicy }
    forecast := [⟨1685620800 * Second, 5, .finite 50⟩]
    fetchErr := none
    target := .found ()
    hpa := .found 5
    freshTarget := .found ()
    updateOk := true }

/-! # Theorems -/

/-! ## Supporting lemmas -/

theorem insertionSortLessFunc_contract : SortSliceContract insertionSortLessFunc := by
  intro l
  refine ⟨List.perm_insertionSort _ l, ?_⟩
  haveI : IsTotal CarbonIntensityConfig
      (fun a b => a.CarbonIntensityThreshold ≤ b.CarbonIntensityThreshold) :=
    ⟨fun a b => le_total _ _⟩
  haveI : IsTrans CarbonIntensityConfig
      (fun a b => a.CarbonIntensityThreshold ≤ b.CarbonIntensityThreshold) :=
    ⟨fun a b c hab hbc => le_trans hab hbc⟩
  exact List.sorted_insertionSort _ l

/-- The lower bound computed in the loop is the lower bound of the band. -/
theorem loop_lowerBound (configs : List CarbonIntensityConfig) (index : Nat) :
    (if index > 0 then
        match configs[index - 1]? with
        | some prev => Float64.ofInt32 prev.CarbonIntensityThreshold
        | none => Float64.ofInt32 0
      else Float64.ofInt32 0) = Float64.ofInt32 (lowerThreshold configs index) := by
  cases index with
  | zero => simp [lowerThreshold]
  | succ k =>
    simp only [lowerThreshold, Nat.succ_sub_one, Nat.zero_lt_succ, if_true, gt_iff_lt,
      Nat.add_sub_cancel]
    cases configs[k]? <;> rfl

/-- One step of the loop, with the lower bound in the vocabulary of the
statements. -/
theorem rangeConfigs_cons (ci : Float64) (configs : List CarbonIntensityConfig) (index : Nat)
    (element : CarbonIntensityConfig) (rest : List CarbonIntensityConfig) :
    rangeConfigs ci configs index (element :: rest) =
      if Float64.lt (Float64.ofInt32 (lowerThreshold configs index)) ci = true ∧
          Float64.le ci (Float64.ofInt32 element.CarbonIntensityThreshold) = true
      then some element.MaxReplicas
      else rangeConfigs ci configs (index + 1) rest := by
  rw [rangeConfigs]
  simp only [loop_lowerBound, Float64.gt, Bool.and_eq_true]

/-- The elements still to visit determine the element at the current index. -/
theorem drop_cons_getElem? {α : Type} (l : List α) (n : Nat) (a : α) (rest : List α)
    (h : l.drop n = a :: rest) : l[n]? = some a ∧ l.drop (n + 1) = rest := by
  constructor
  · have := List.getElem?_drop l n 0
    rw [h] at this
    simpa using this.symm
  · rw [← List.tail_drop, h, List.tail_cons]

/-- The loop returns the cap of the first band, from `index` on, that the
intensity selects. -/
theorem rangeConfigs_first (ci : Float64) (configs : List CarbonIntensityConfig) :
    ∀ (rest : List CarbonIntensityConfig) (index : Nat), configs.drop index = rest →
      ∀ (i : Nat) (e : CarbonIntensityConfig), index ≤ i → SelectsBand ci configs i e →
        (∀ j e', index ≤ j → j < i → ¬ SelectsBand ci configs j e') →
        rangeConfigs ci configs index rest = some e.MaxReplicas := by
  intro rest
  induction rest with
  | nil =>
    intro index hdrop i e hle hsel _
    have hlen : configs.length ≤ index := List.drop_eq_nil_iff.mp hdrop
    obtain ⟨hi, -⟩ := List.getElem?_eq_some.mp hsel.1
    omega
  | cons element rest ih =>
    intro index hdrop i e hle hsel hfirst
    obtain ⟨helem, hrest⟩ := drop_cons_getElem? configs index element rest hdrop
    rw [rangeConfigs_cons]
    by_cases hi : i = index
    · subst hi
      have he : e = element := by
        have := hsel.1
        rw [helem] at this
        exact (Option.some.inj this).symm
      subst he
      rw [if_pos ⟨hsel.2.1, hsel.2.2⟩]
    · have hlt : index < i := lt_of_le_of_ne hle (Ne.symm hi)
      have hno : ¬ SelectsBand ci configs index element := hfirst index element le_rfl hlt
      rw [if_neg (fun h => hno ⟨helem, h.1, h.2⟩)]
      exact ih (index + 1) hrest i e hlt hsel
        (fun j e' hj hji => hfirst j e' (by omega) hji)

/-- The loop falls through when the intensity selects no band from `index` on. -/
theorem rangeConfigs_none (ci : Float64) (configs : List CarbonIntensityConfig) :
    ∀ (rest : List CarbonIntensityConfig) (index : Nat), configs.drop index = rest →
      (∀ j e', index ≤ j → ¬ SelectsBand ci configs j e') →
      rangeConfigs ci configs index rest = none := by
  intro rest
  induction rest with
  | nil => intro index _ _; rfl
  | cons element rest ih =>
    intro index hdrop hno
    obtain ⟨helem, hrest⟩ := drop_cons_getElem? configs index element rest hdrop
    rw [rangeConfigs_cons, if_neg (fun h => hno index element le_rfl ⟨helem, h.1, h.2⟩)]
    exact ih (index + 1) hrest (fun j e' hj => hno j e' (by omega))

/-- A value strictly above a bound is not at most that bound. -/
theorem Float64.le_eq_false_of_lt (a b : Float64) (h : Float64.lt a b = true) :
    Float64.le b a = false := by
  cases a <;> cases b <;> simp_all [Float64.lt, Float64.le]

/-- The last band of an ascending rearrangement is a band of the original list
with the highest threshold. -/
theorem getLast?_sorted_max (srt : List CarbonIntensityConfig → List CarbonIntensityConfig)
    (hs : SortSliceContract srt) (configs : List CarbonIntensityConfig)
    (last : CarbonIntensityConfig) (hlast : (srt configs).getLast? = some last) :
    last ∈ configs ∧
      ∀ c ∈ configs, c.CarbonIntensityThreshold ≤ last.CarbonIntensityThreshold := by
  obtain ⟨hperm, hsorted⟩ := hs configs
  obtain ⟨ys, hys⟩ := List.getLast?_eq_some_iff.mp hlast
  have hmem : ∀ c, c ∈ configs ↔ c ∈ ys ∨ c = last := by
    intro c
    rw [← hperm.mem_iff, hys]
    simp
  refine ⟨(hmem last).mpr (Or.inr rfl), ?_⟩
  intro c hc
  rcases (hmem c).mp hc with hin | heq
  · rw [hys] at hsorted
    exact (List.pairwise_append.mp hsorted).2.2 c hin last (by simp)
  · rw [heq]

/-! ## The band resolver `getMaxReplicas` -/

/-- C1. For a non-nil forecast sample and a non-empty band list: if, in the
order the sort leaves the bands in (ascending by threshold), the intensity
selects some band (lower bound, the previous threshold or 0, strictly below
the intensity; the intensity at most the band's threshold), then
`getMaxReplicas` returns, with a nil error, the `MaxReplicas` of the first
such band. -/
theorem getMaxReplicas_first_selected_band
    (srt : List CarbonIntensityConfig → List CarbonIntensityConfig)
    (_hs : SortSliceContract srt) (f : CarbonForecast)
    (configs : List CarbonIntensityConfig) (_hne : configs ≠ [])
    (h : ∃ i e, SelectsBand f.Value (srt configs) i e) :
    ∃ i e, SelectsBand f.Value (srt configs) i e ∧
      (∀ j e', j < i → ¬ SelectsBand f.Value (srt configs) j e') ∧
      (getMaxReplicas srt (some f) configs).1 = .done (e.MaxReplicas, none) := by
  classical
  have hex : ∃ i, ∃ e, SelectsBand f.Value (srt configs) i e := h
  obtain ⟨e, he⟩ := Nat.find_spec hex
  refine ⟨Nat.find hex, e, he, ?_, ?_⟩
  · intro j e' hj hsel
    exact Nat.find_min hex hj ⟨e', hsel⟩
  · have hloop := rangeConfigs_first f.Value (srt configs) (srt configs) 0 rfl
      (Nat.find hex) e (Nat.zero_le _) he
      (fun j e' _ hj hsel => Nat.find_min hex hj ⟨e', hsel⟩)
    simp only [getMaxReplicas, hloop]

/-- C1, on the bands of the unit test (given as 100, 90, 40): the theorem
applies to intensity 67, and intensities 100, 30 and 67 yield the caps 10, 80
and 20. -/
theorem getMaxReplicas_first_selected_band_witness :
    (∃ i e, SelectsBand (sampleOf 67).Value (insertionSortLessFunc testConfigs) i e ∧
      (∀ j e', j < i → ¬ SelectsBand (sampleOf 67).Value (insertionSortLessFunc testConfigs) j e') ∧
      (getMaxReplicas insertionSortLessFunc (some (sampleOf 67)) testConfigs).1
        = .done (e.MaxReplicas, none)) ∧
    (getMaxReplicas insertionSortLessFunc (some (sampleOf 100)) testConfigs).1
      = .done (some 10, none) ∧
    (getMaxReplicas insertionSortLessFunc (some (sampleOf 30)) testConfigs).1
      = .done (some 80, none) ∧
    (getMaxReplicas insertionSortLessFunc (some (sampleOf 67)) testConfigs).1
      = .done (some 20, none) :=
  ⟨getMaxReplicas_first_selected_band insertionSortLessFunc insertionSortLessFunc_contract
      (sampleOf 67) testConfigs (by decide) ⟨1, ⟨90, some 20⟩, by decide⟩,
    by decide, by decide, by decide⟩

/-- C2. For a non-nil forecast sample whose intensity is strictly greater than
every band's threshold, and a non-empty band list, `getMaxReplicas` returns,
with a nil error, the `MaxReplicas` of a band whose threshold is the highest
of the list (the last band in the sorted order). -/
theorem getMaxReplicas_above_every_threshold
    (srt : List CarbonIntensityConfig → List CarbonIntensityConfig)
    (hs : SortSliceContract srt) (f : CarbonForecast)
    (configs : List CarbonIntensityConfig) (hne : configs ≠ [])
    (habove : ∀ c ∈ configs,
      Float64.gt f.Value (Float64.ofInt32 c.CarbonIntensityThreshold) = true) :
    ∃ c ∈ configs,
      (∀ c' ∈ configs, c'.CarbonIntensityThreshold ≤ c.CarbonIntensityThreshold) ∧
      (srt configs).getLast? = some c ∧
      (getMaxReplicas srt (some f) configs).1 = .done (c.MaxReplicas, none) := by
  obtain ⟨hperm, -⟩ := hs configs
  have hloop : rangeConfigs f.Value (srt configs) 0 (srt configs) = none := by
    apply rangeConfigs_none f.Value (srt configs) (srt configs) 0 rfl
    intro j e' _ hsel
    have hmem : e' ∈ configs := by
      obtain ⟨hj, hje⟩ := List.getElem?_eq_some.mp hsel.1
      exact hperm.mem_iff.mp (hje ▸ List.getElem_mem hj)
    have := Float64.le_eq_false_of_lt _ _ (habove e' hmem)
    rw [hsel.2.2] at this
    exact Bool.noConfusion this
  have hne' : srt configs ≠ [] := fun h0 => hne (by simpa [h0] using hperm.symm)
  obtain ⟨last, hlast⟩ : ∃ last, (srt configs).getLast? = some last := by
    cases hl : (srt configs).getLast? with
    | none => exact absurd (List.getLast?_eq_none_iff.mp hl) hne'
    | some last => exact ⟨last, rfl⟩
  obtain ⟨hin, hmax⟩ := getLast?_sorted_max srt hs configs last hlast
  refine ⟨last, hin, hmax, hlast, ?_⟩
  simp only [getMaxReplicas, hloop, hlast]

/-- C2, on the bands of the unit test: intensities 101 and 101010 are above
every threshold and yield the cap 10 of the band with threshold 100. -/
theorem getMaxReplicas_above_every_threshold_witness :
    (∃ c ∈ testConfigs,
      (∀ c' ∈ testConfigs, c'.CarbonIntensityThreshold ≤ c.CarbonIntensityThreshold) ∧
      (insertionSortLessFunc testConfigs).getLast? = some c ∧
      (getMaxReplicas insertionSortLessFunc (some (sampleOf 101)) testConfigs).1
        = .done (c.MaxReplicas, none)) ∧
    (getMaxReplicas insertionSortLessFunc (some (sampleOf 101)) testConfigs).1
      = .done (some 10, none) ∧
    (getMaxReplicas insertionSortLessFunc (some (sampleOf 101010)) testConfigs).1
      = .done (some 10, none) :=
  ⟨getMaxReplicas_above_every_threshold insertionSortLessFunc insertionSortLessFunc_contract
      (sampleOf 101) testConfigs (by decide) (by decide),
    by decide, by decide⟩

/-- C3. For every band list, empty or not, `getMaxReplicas` called with a nil
forecast sample returns an error and a nil `maxReplicas`; it does not panic
and leaves the band list as it was. -/
theorem getMaxReplicas_nil_forecast
    (srt : List CarbonIntensityConfig → List CarbonIntensityConfig)
    (configs : List CarbonIntensityConfig) :
    getMaxReplicas srt none configs = (.done (none, some "no forecast data"), configs) := by
  rfl

/-! ## The eco mode evaluator `setEcoMode` -/

/-- The custom-schedule loop runs to its end when every entry parses and no
window strictly contains `now`. -/
theorem customScheduleLoop_none (parseTime : String → Except String Time) (now later : Time)
    (ecoModeStatus : EcoModeStatus) (entries : List Schedule)
    (hparse : ∀ entry ∈ entries, (windowOf parseTime entry).isSome = true)
    (hno : ∀ entry ∈ entries, windowActive parseTime now entry = false) :
    customScheduleLoop parseTime now later ecoModeStatus entries = none := by
  induction entries with
  | nil => rfl
  | cons entry rest ih =>
    have hp := hparse entry (List.mem_cons_self _ _)
    have hn := hno entry (List.mem_cons_self _ _)
    have ih' := ih (fun e he => hparse e (List.mem_cons_of_mem _ he))
      (fun e he => hno e (List.mem_cons_of_mem _ he))
    unfold windowActive at hn
    unfold windowOf at hp hn
    rw [customScheduleLoop]
    cases hs : parseTime entry.StartTime with
    | error err => simp [hs] at hp
    | ok start =>
      cases he : parseTime entry.EndTime with
      | error err => simp [hs, he] at hp
      | ok stop =>
        simp only [hs, he] at hn
        simp only [Time.After, Time.Before, hn, ih']
        simp

/-- The custom-schedule loop returns the status of the first window, in list
order, that strictly contains `now`, when every entry before it parses. -/
theorem customScheduleLoop_first (parseTime : String → Except String Time) (now later : Time)
    (ecoModeStatus : EcoModeStatus) (before : List Schedule) (entry : Schedule)
    (after : List Schedule) (start stop : Time)
    (hparse : ∀ e ∈ before, (windowOf parseTime e).isSome = true)
    (hno : ∀ e ∈ before, windowActive parseTime now e = false)
    (hw : windowOf parseTime entry = some (start, stop))
    (hact : windowActive parseTime now entry = true) :
    customScheduleLoop parseTime now later ecoModeStatus (before ++ entry :: after)
      = some (customScheduleStatus later start stop, none) := by
  induction before with
  | nil =>
    unfold windowActive at hact
    rw [hw] at hact
    unfold windowOf at hw
    rw [List.nil_append, customScheduleLoop]
    cases hs : parseTime entry.StartTime with
    | error err => simp [hs] at hw
    | ok start' =>
      cases he : parseTime entry.EndTime with
      | error err => simp [hs, he] at hw
      | ok stop' =>
        simp only [hs, he, Option.some.injEq, Prod.mk.injEq] at hw
        obtain ⟨rfl, rfl⟩ := hw
        have hact' : (decide (start' < now) && decide (now < stop')) = true := hact
        simp only [Time.After, Time.Before, hact', if_true, customScheduleStatus, mul_one]
  | cons b rest ih =>
    have hp := hparse b (List.mem_cons_self _ _)
    have hn := hno b (List.mem_cons_self _ _)
    have ih' := ih (fun e he => hparse e (List.mem_cons_of_mem _ he))
      (fun e he => hno e (List.mem_cons_of_mem _ he))
    unfold windowActive at hn
    unfold windowOf at hp hn
    rw [List.cons_append, customScheduleLoop]
    cases hs : parseTime b.StartTime with
    | error err => simp [hs] at hp
    | ok start' =>
      cases he : parseTime b.EndTime with
      | error err => simp [hs, he] at hp
      | ok stop' =>
        simp only [hs, he] at hn
        simp only [Time.After, Time.Before, hn, ih']
        simp

/-- A list with an element satisfying `p` splits at the first such element. -/
theorem exists_first_true {α : Type} (p : α → Bool) (l : List α)
    (h : ∃ a ∈ l, p a = true) :
    ∃ before a after, l = before ++ a :: after ∧ p a = true ∧ ∀ b ∈ before, p b = false := by
  obtain ⟨a, ha⟩ := Option.isSome_iff_exists.mp (List.find?_isSome.mpr h)
  obtain ⟨hpa, as, bs, hl, hbefore⟩ := List.find?_eq_some.mp ha
  exact ⟨as, a, bs, hl, hpa, fun b hb => by simpa using hbefore b hb⟩

/-- The test `windowActive` says that the entry parses to a window with
`start < now < stop`. -/
theorem windowActive_iff (parseTime : String → Except String Time) (now : Time)
    (entry : Schedule) :
    windowActive parseTime now entry = true ↔
      ∃ start stop, windowOf parseTime entry = some (start, stop) ∧ start < now ∧ now < stop := by
  unfold windowActive
  cases hw : windowOf parseTime entry with
  | none => simp
  | some w =>
    obtain ⟨start, stop⟩ := w
    simp only [Bool.and_eq_true, decide_eq_true_eq, Option.some.injEq, Prod.mk.injEq]
    constructor
    · rintro ⟨h1, h2⟩
      exact ⟨start, stop, ⟨rfl, rfl⟩, h1, h2⟩
    · rintro ⟨s, t, ⟨rfl, rfl⟩, h1, h2⟩
      exact ⟨h1, h2⟩

/-- The intensity-duration block does nothing when the configured duration is
not positive. -/
theorem carbonIntensityDurationBlock_off (now : Time) (ecoModeStatus : EcoModeStatus)
    (configs : EcoModeOff) (forecast : List CarbonForecast)
    (hdur : configs.CarbonIntensityDuration.OverrideEcoAfterDurationInMins ≤ 0) :
    carbonIntensityDurationBlock now ecoModeStatus configs forecast = ecoModeStatus := by
  unfold carbonIntensityDurationBlock
  rw [if_neg (not_lt.mpr hdur)]

/-- C4. For every `now` and every policy whose custom-schedule timestamps all
parse, with no recurring rules and no intensity-duration rule, `setEcoMode` on
a status with `IsDisabled = false` returns a nil error, and the status has
`IsDisabled = true` exactly when some custom window has `start < now < stop`
strictly; otherwise (every window has `now ≤ start` or `stop ≤ now`) the
status is returned as it was. -/
theorem setEcoMode_custom_schedule_only
    (parseTime : String → Except String Time) (mustParse : String → Option Expression)
    (now later : Time) (ecoModeStatus : EcoModeStatus) (configs : EcoModeOff)
    (forecast : List CarbonForecast)
    (hparse : ∀ entry ∈ configs.CustomSchedule, (windowOf parseTime entry).isSome = true)
    (hrec : configs.RecurringSchedule = [])
    (hdur : configs.CarbonIntensityDuration.OverrideEcoAfterDurationInMins ≤ 0)
    (hst : ecoModeStatus.IsDisabled = false) :
    ∃ st, setEcoMode parseTime mustParse now later ecoModeStatus configs forecast = .done (st, none) ∧
      (st.IsDisabled = true ↔
        ∃ entry ∈ configs.CustomSchedule, ∃ start stop,
          windowOf parseTime entry = some (start, stop) ∧ start < now ∧ now < stop) ∧
      (st.IsDisabled = false → st = ecoModeStatus) := by
  by_cases hact : ∃ entry ∈ configs.CustomSchedule, windowActive parseTime now entry = true
  · obtain ⟨before, entry, after, hl, hentry, hbefore⟩ :=
      exists_first_true (windowActive parseTime now) _ hact
    obtain ⟨start, stop, hw, -, -⟩ := (windowActive_iff parseTime now entry).mp hentry
    have hloop := customScheduleLoop_first parseTime now later ecoModeStatus before entry after
      start stop (fun e he => hparse e (by rw [hl]; simp [he])) hbefore hw hentry
    refine ⟨customScheduleStatus later start stop, ?_, ?_, ?_⟩
    · simp only [setEcoMode, hl, hloop]
    · obtain ⟨e, he, hea⟩ := hact
      exact ⟨fun _ => ⟨e, he, (windowActive_iff parseTime now e).mp hea⟩, fun _ => rfl⟩
    · intro h
      simp [customScheduleStatus] at h
  · have hno : ∀ entry ∈ configs.CustomSchedule, windowActive parseTime now entry = false := by
      intro e he
      cases hv : windowActive parseTime now e with
      | false => rfl
      | true => exact absurd ⟨e, he, hv⟩ hact
    have hloop := customScheduleLoop_none parseTime now later ecoModeStatus _ hparse hno
    refine ⟨ecoModeStatus, ?_, ?_, fun _ => rfl⟩
    · simp only [setEcoMode, hloop, hrec, recurringScheduleLoop,
        carbonIntensityDurationBlock_off now ecoModeStatus configs forecast hdur]
    · constructor
      · intro h
        rw [hst] at h
        exact Bool.noConfusion h
      · rintro ⟨e, he, start, stop, hw, h1, h2⟩
        exact absurd ⟨e, he, (windowActive_iff parseTime now e).mpr ⟨start, stop, hw, h1, h2⟩⟩ hact

/-- C4, on the policy with the single window 10:00 to 11:00: the theorem
applies at 10:30, where eco mode is disabled, and at the boundary instant
10:00 and at 12:00 the status is left enabled. -/
theorem setEcoMode_custom_schedule_only_witness :
    (∃ st, setEcoMode parseSample mustParseSample (1685615400 * Second) (1685615400 * Second) freshStatus
        morningWindowPolicy [] = .done (st, none) ∧
      (st.IsDisabled = true ↔
        ∃ entry ∈ morningWindowPolicy.CustomSchedule, ∃ start stop,
          windowOf parseSample entry = some (start, stop) ∧
            start < 1685615400 * Second ∧ 1685615400 * Second < stop) ∧
      (st.IsDisabled = false → st = freshStatus)) ∧
    setEcoMode parseSample mustParseSample (1685615400 * Second) (1685615400 * Second) freshStatus
        morningWindowPolicy []
      = .done (customScheduleStatus (1685615400 * Second) (1685613600 * Second)
          (1685617200 * Second), none) ∧
    setEcoMode parseSample mustParseSample (1685613600 * Second) (1685613600 * Second) freshStatus
        morningWindowPolicy [] = .done (freshStatus, none) ∧
    setEcoMode parseSample mustParseSample (1685620800 * Second) (1685620800 * Second) freshStatus
        morningWindowPolicy [] = .done (freshStatus, none) :=
  ⟨setEcoMode_custom_schedule_only parseSample mustParseSample (1685615400 * Second) (1685615400 * Second)
      freshStatus morningWindowPolicy [] (by decide) rfl (by decide) rfl,
    by decide, by decide, by decide⟩

/-- Wrapping leaves a value of the `int64` range as it is. -/
theorem wrapInt64_eq_self (x : Int) (h1 : -(2 ^ 63) ≤ x) (h2 : x < 2 ^ 63) :
    wrapInt64 x = x := by
  unfold wrapInt64
  omega

/-- One pass of the look-back loop counts the minute exactly when a sample
covers it with a value at or above the threshold. -/
theorem lookback_counts_iff (forecast : List CarbonForecast) (t : Time) (threshold : Int) :
    (match findCarbonForecast forecast t with
      | none => false
      | some currentForecast => currentForecast.Value.ge (Float64.ofInt32 threshold)) = true ↔
    ∃ cf, findCarbonForecast forecast t = some cf ∧
      cf.Value.ge (Float64.ofInt32 threshold) = true := by
  cases findCarbonForecast forecast t with
  | none => simp
  | some cf => simp

/-- Within the range where a number of minutes fits in a `time.Duration`, the
intensity-duration block disables eco mode exactly when every one of the last
`D` whole minutes has a covering sample at or above the threshold. -/
theorem carbonIntensityDurationBlock_fires_iff (now : Time) (ecoModeStatus : EcoModeStatus)
    (configs : EcoModeOff) (forecast : List CarbonForecast)
    (hst : ecoModeStatus.IsDisabled = false)
    (hpos : 0 < configs.CarbonIntensityDuration.OverrideEcoAfterDurationInMins)
    (hmax : configs.CarbonIntensityDuration.OverrideEcoAfterDurationInMins ≤ maxWholeMinutes) :
    (carbonIntensityDurationBlock now ecoModeStatus configs forecast).IsDisabled = true ↔
      ∀ m : Nat, (m : Int) < configs.CarbonIntensityDuration.OverrideEcoAfterDurationInMins →
        ∃ cf, findCarbonForecast forecast (now - (m : Int) * Minute) = some cf ∧
          cf.Value.ge
            (Float64.ofInt32 configs.CarbonIntensityDuration.CarbonIntensityThreshold) = true := by
  obtain ⟨n, hn⟩ := Int.eq_ofNat_of_zero_le (le_of_lt hpos)
  unfold maxWholeMinutes at hmax
  have hw : wrapInt64 (configs.CarbonIntensityDuration.OverrideEcoAfterDurationInMins * Minute)
      = (n : Int) * Minute := by
    rw [hn] at hmax ⊢
    apply wrapInt64_eq_self <;> unfold Minute <;> omega
  have hm : wholeMinutes ((n : Int) * Minute) = n :=
    Int.mul_tdiv_cancel _ (by unfold Minute; decide)
  have hcount : meetsThresholdCount forecast now
      configs.CarbonIntensityDuration.CarbonIntensityThreshold n = n ↔
      ∀ m : Nat, m < n →
        ∃ cf, findCarbonForecast forecast (now - (m : Int) * Minute) = some cf ∧
          cf.Value.ge
            (Float64.ofInt32 configs.CarbonIntensityDuration.CarbonIntensityThreshold) = true := by
    unfold meetsThresholdCount
    conv_lhs => rhs; rw [← List.length_range n]
    rw [List.countP_eq_length]
    constructor
    · intro h m hmn
      have hlook : wrapInt64 (-(m : Int) * Minute) = -(m : Int) * Minute := by
        rw [hn] at hmax
        apply wrapInt64_eq_self <;> unfold Minute <;> omega
      have := (lookback_counts_iff forecast _ _).mp (h m (List.mem_range.mpr hmn))
      rw [hlook] at this
      simpa [Time.Add, sub_eq_add_neg] using this
    · intro h m hmn
      have hmn' := List.mem_range.mp hmn
      have hlook : wrapInt64 (-(m : Int) * Minute) = -(m : Int) * Minute := by
        rw [hn] at hmax
        apply wrapInt64_eq_self <;> unfold Minute <;> omega
      apply (lookback_counts_iff forecast _ _).mpr
      rw [hlook]
      simpa [Time.Add, sub_eq_add_neg] using h m hmn'
  unfold carbonIntensityDurationBlock
  rw [if_pos hpos]
  simp only [hw, hm, Int.toNat_ofNat, Nat.cast_inj]
  rw [hn]
  simp only [Nat.cast_lt]
  rw [← hcount]
  split
  · simp_all
  · simp_all

/-- C5, failing input. With a duration of 307445735 minutes the product with
`time.Minute` wraps to 26.290448384 s, which is zero whole minutes: the
look-back loop runs zero times and the count 0 equals the duration in minutes.
At noon of 1 June 2023, with a forecast whose single sample covers `now` only
and lies below the threshold 50, `setEcoMode` disables eco mode; the minute
`now` itself has no sample at or above the threshold. -/
theorem setEcoMode_duration_overflow :
    wrapInt64 (307445735 * Minute) = 26290448384 ∧
    wholeMinutes 26290448384 = 0 ∧
    (∀ cf, findCarbonForecast [⟨1685620800 * Second, 5, .finite 10⟩] (1685620800 * Second)
        = some cf → cf.Value.ge (Float64.ofInt32 50) = false) ∧
    setEcoMode parseSample mustParseSample (1685620800 * Second) (1685620800 * Second) freshStatus
        (intensityPolicy 307445735) [⟨1685620800 * Second, 5, .finite 10⟩]
      = .done ({ IsDisabled := true
                 DisableReason := .carbonIntensity 50 26290448384
                 RequeueAfter := 0 }, none) := by
  refine ⟨by decide, by decide, ?_, by decide⟩
  intro cf hcf
  have h : findCarbonForecast [⟨1685620800 * Second, 5, .finite 10⟩] (1685620800 * Second)
      = some ⟨1685620800 * Second, 5, .finite 10⟩ := by decide
  rw [h] at hcf
  cases hcf
  decide

/-- C6, failing input. At 23:59:30 UTC the rule `* * * * *` fires next at
00:00:00, thirty seconds away, so the rule is taken as active; the time to the
end of the day is thirty seconds, zero whole minutes, so `NextN` is asked for
zero firings and taking the last element of the empty list panics: eco mode
is not disabled, `setEcoMode` does not return. -/
theorem setEcoMode_recurring_end_of_day_panics :
    (mustParseSample "* * * * *").isSome = true ∧
    everyMinute.Next (1685663970 * Second) = 1685664000 * Second ∧
    Time.Sub (everyMinute.Next (1685663970 * Second)) (1685663970 * Second) = 30 * Second ∧
    everyMinute.NextN (1685663970 * Second)
      (wholeMinutes (Until (1685663970 * Second)
        (Time.Add (Time.lastSecondOfDay (1685663970 * Second)) (Second * 1)))).toNat = [] ∧
    setEcoMode parseSample mustParseSample (1685663970 * Second) (1685663970 * Second) freshStatus
        everyMinutePolicy [] = .panic := by
  decide

/-- An error branch leaves eco mode disabled and the cap at the default. -/
theorem disableOnError_done (now : Time) (requeueInterval : Int) (err : String)
    (configs : EcoModeOff) (st : EcoModeStatus) (cap : Option Int)
    (h : disableOnError now requeueInterval err configs = .done (st, cap)) :
    st.IsDisabled = true ∧ cap = some configs.MaxReplicas := by
  unfold disableOnError at h
  cases hd : getRequeueDuration now requeueInterval with
  | panic => simp [hd, Run.bind] at h
  | done d =>
    simp only [hd, Run.bind, Run.done.injEq, Prod.mk.injEq] at h
    obtain ⟨rfl, rfl⟩ := h
    exact ⟨rfl, rfl⟩

/-- The requeue duration for the default interval of five minutes is defined. -/
theorem getRequeueDuration_five (now : Time) :
    ∃ d, getRequeueDuration now 5 = .done d := by
  unfold getRequeueDuration
  exact ⟨_, if_neg (by decide)⟩

/-- What the `getMaxReplicas` block leaves when it ends with eco mode enabled:
the status it was given and the value `getMaxReplicas` returned, with a nil
error. -/
theorem maxReplicasStep_enabled (srt : List CarbonIntensityConfig → List CarbonIntensityConfig)
    (now : Time) (spec : CarbonAwareKedaScalerSpec) (cf : CarbonForecast)
    (requeueInterval : Int) (st : EcoModeStatus) (cap : Option Int)
    (st' : EcoModeStatus) (cap' : Option Int)
    (h : maxReplicasStep srt now spec cf requeueInterval st cap = .done (st', cap'))
    (hon : st'.IsDisabled = false) :
    st' = st ∧
      (getMaxReplicas srt (some cf) spec.MaxReplicasByCarbonIntensity).1 = .done (cap', none) := by
  unfold maxReplicasStep at h
  split at h
  · split at h
    · exact absurd h (by simp)
    · rename_i err _
      have := (disableOnError_done _ _ _ _ _ _ h).1
      rw [hon] at this
      exact Bool.noConfusion this
    · rename_i m hm
      simp only [Run.done.injEq, Prod.mk.injEq] at h
      obtain ⟨rfl, rfl⟩ := h
      exact ⟨rfl, hm⟩
  · rename_i hdis
    simp only [Run.done.injEq, Prod.mk.injEq] at h
    obtain ⟨rfl, rfl⟩ := h
    simp [hon] at hdis

/-- When the decision part of `Reconcile` ends with eco mode enabled, a sample
covers `now` and the cap is the value `getMaxReplicas` returned for it, with a
nil error. -/
theorem evaluate_enabled (srt : List CarbonIntensityConfig → List CarbonIntensityConfig)
    (parseTime : String → Except String Time) (mustParse : String → Option Expression)
    (now : Time) (spec : CarbonAwareKedaScalerSpec) (forecast : List CarbonForecast)
    (fetchErr : Option String) (st0 : EcoModeStatus) (l : Locals)
    (h : evaluate srt parseTime mustParse now spec forecast fetchErr st0 = .done l)
    (hon : l.ecoModeStatus.IsDisabled = false) :
    findCarbonForecast forecast now = some l.currentforecast ∧
      (getMaxReplicas srt (some l.currentforecast) spec.MaxReplicasByCarbonIntensity).1
        = .done (l.maxReplicaCount, none) := by
  unfold evaluate at h
  split at h
  · exact absurd h (by simp)
  · split at h
    · exact absurd h (by simp)
    · rename_i cf hfind
      simp only at h
      split at h
      · exact absurd h (by simp)
      · split at h
        · exact absurd h (by simp)
        · rename_i st2 cap2 hstep2
          simp only [Run.done.injEq] at h
          subst h
          exact ⟨hfind, (maxReplicasStep_enabled _ _ _ _ _ _ _ _ _ hstep2 hon).2⟩

/-- The status `Reconcile` starts from. -/
theorem Reconcile_of_evaluate (srt : List CarbonIntensityConfig → List CarbonIntensityConfig)
    (parseTime : String → Except String Time) (mustParse : String → Option Expression)
    (now : Time) (c : Cluster) (spec : CarbonAwareKedaScalerSpec) (initial : Duration)
    (l : Locals) (hscaler : c.scaler = .found spec)
    (hinit : getRequeueDuration now 5 = .done initial)
    (heval : evaluate srt parseTime mustParse now spec c.forecast c.fetchErr
      { IsDisabled := false, DisableReason := .empty, RequeueAfter := initial } = .done l) :
    Reconcile srt parseTime mustParse now c = scaleTarget now spec c l := by
  unfold Reconcile
  simp only [hinit, hscaler, heval]

/-- An Update of the target happens only after the custom resource was found
and the decision part ended without a panic. -/
theorem Reconcile_update_some (srt : List CarbonIntensityConfig → List CarbonIntensityConfig)
    (parseTime : String → Except String Time) (mustParse : String → Option Expression)
    (now : Time) (c : Cluster) (u : TargetUpdate)
    (hu : (Reconcile srt parseTime mustParse now c).update = some u) :
    ∃ spec initial l, c.scaler = .found spec ∧
      getRequeueDuration now 5 = .done initial ∧
      evaluate srt parseTime mustParse now spec c.forecast c.fetchErr
        { IsDisabled := false, DisableReason := .empty, RequeueAfter := initial } = .done l ∧
      Reconcile srt parseTime mustParse now c = scaleTarget now spec c l := by
  obtain ⟨initial, hinit⟩ := getRequeueDuration_five now
  cases hs : c.scaler with
  | notFound =>
    simp [Reconcile, hinit, hs, returnRequeue] at hu
  | failed =>
    exfalso
    unfold Reconcile at hu
    simp only [hinit, hs] at hu
    split at hu
    · simp at hu
    · rename_i l hl
      have h1 : stringsContains zeroSpec.KedaTarget "scaledobject" = false := by decide
      have h2 : stringsContains zeroSpec.KedaTarget "scaledjob" = false := by decide
      simp only [scaleTarget, h1, h2, Bool.false_eq_true, if_false, finish] at hu
      split at hu
      · simp at hu
      · simp [returnRequeue] at hu
  | found spec =>
    cases he : evaluate srt parseTime mustParse now spec c.forecast c.fetchErr
        { IsDisabled := false, DisableReason := .empty, RequeueAfter := initial } with
    | panic => simp [Reconcile, hinit, hs, he] at hu
    | done l =>
      exact ⟨spec, initial, l, rfl, hinit, he,
        Reconcile_of_evaluate srt parseTime mustParse now c spec initial l hs hinit he⟩

/-- The Update that `updateTarget` makes, when it makes one. -/
theorem updateTarget_update (now : Time) (c : Cluster) (requeueInterval : Int)
    (st : EcoModeStatus) (cap : Option Int) (u : TargetUpdate)
    (hu : (updateTarget now c requeueInterval st cap).update = some u) :
    u = { MaxReplicaCount := cap, ecoModeStatus := st, succeeded := c.updateOk } := by
  unfold updateTarget at hu
  split at hu
  · simp [returnRequeue] at hu
  · simp [returnRequeue] at hu
  · split at hu
    · unfold finish at hu
      split at hu
      · simpa using hu.symm
      · simpa [returnRequeue] using hu.symm
    · simpa [returnRequeue] using hu.symm

/-- When the second Get finds the target, `updateTarget` calls Update. -/
theorem updateTarget_found (now : Time) (c : Cluster) (requeueInterval : Int)
    (st : EcoModeStatus) (cap : Option Int) (hfresh : c.freshTarget = .found ()) :
    (updateTarget now c requeueInterval st cap).update
      = some { MaxReplicaCount := cap, ecoModeStatus := st, succeeded := c.updateOk } := by
  unfold updateTarget
  simp only [hfresh]
  split
  · unfold finish
    split <;> rfl
  · rfl

/-- After a successful Update, `updateTarget` ends without a panic only when
the cap is set. -/
theorem updateTarget_exit_done (now : Time) (c : Cluster) (requeueInterval : Int)
    (st : EcoModeStatus) (cap : Option Int) (u : TargetUpdate) (r : Duration × Bool)
    (hu : (updateTarget now c requeueInterval st cap).update = some u)
    (hok : c.updateOk = true)
    (hexit : (updateTarget now c requeueInterval st cap).exit = .done r) :
    ∃ m, cap = some m := by
  unfold updateTarget at hu hexit
  split at hu
  · simp [returnRequeue] at hu
  · simp [returnRequeue] at hu
  · rename_i a hfresh
    simp only [hfresh, hok, if_true] at hexit
    unfold finish at hexit
    cases cap with
    | none => simp at hexit
    | some m => exact ⟨m, rfl⟩

/-- The demand guard disables eco mode exactly when the cap is below the
desired replicas, and otherwise leaves the status as it was. -/
theorem demandGuard_some (st : EcoModeStatus) (m desired : Int) :
    (m < desired → demandGuard st (some m) desired
        = { st with IsDisabled := true, DisableReason := .hpaDesires m desired }) ∧
      (desired ≤ m → demandGuard st (some m) desired = st) := by
  unfold demandGuard
  constructor
  · intro h
    simp only [if_pos h]
  · intro h
    simp only [if_neg (not_lt.mpr h)]

/-- A status the demand guard leaves enabled is the status it was given. -/
theorem demandGuard_enabled (st : EcoModeStatus) (cap : Option Int) (desired : Int)
    (h : (demandGuard st cap desired).IsDisabled = false) :
    demandGuard st cap desired = st := by
  unfold demandGuard at h ⊢
  cases cap with
  | none => rfl
  | some m =>
    by_cases hlt : m < desired
    · simp [hlt] at h
    · simp [hlt]

/-- C8. In the scaled-object branch of `Reconcile`, when the decision part
ends with eco mode enabled and the band-derived cap `computedMax`, and the
target, its HPA (desiring `desired` replicas) and the fresh target are found:
the Update is made, eco mode is disabled in it exactly when
`computedMax < desired`; then the cap written is the default
`EcoModeOff.MaxReplicas` and the reason names both numbers; when
`desired ≤ computedMax` (equality included) the cap written is `computedMax`
and the status is unchanged. -/
theorem Reconcile_demand_guard
    (srt : List CarbonIntensityConfig → List CarbonIntensityConfig)
    (parseTime : String → Except String Time) (mustParse : String → Option Expression)
    (now : Time) (c : Cluster) (spec : CarbonAwareKedaScalerSpec) (initial : Duration)
    (l : Locals) (computedMax desired : Int)
    (hscaler : c.scaler = .found spec)
    (hkind : stringsContains spec.KedaTarget "scaledobject" = true)
    (hinit : getRequeueDuration now 5 = .done initial)
    (heval : evaluate srt parseTime mustParse now spec c.forecast c.fetchErr
      { IsDisabled := false, DisableReason := .empty, RequeueAfter := initial } = .done l)
    (hon : l.ecoModeStatus.IsDisabled = false)
    (hcap : l.maxReplicaCount = some computedMax)
    (htarget : c.target = .found ()) (hhpa : c.hpa = .found desired)
    (hfresh : c.freshTarget = .found ()) :
    ∃ u, (Reconcile srt parseTime mustParse now c).update = some u ∧
      (u.ecoModeStatus.IsDisabled = true ↔ computedMax < desired) ∧
      (computedMax < desired →
        u.MaxReplicaCount = some spec.EcoModeOff.MaxReplicas ∧
        u.ecoModeStatus.DisableReason = .hpaDesires computedMax desired) ∧
      (desired ≤ computedMax →
        u.MaxReplicaCount = some computedMax ∧ u.ecoModeStatus = l.ecoModeStatus) := by
  rw [Reconcile_of_evaluate srt parseTime mustParse now c spec initial l hscaler hinit heval]
  unfold scaleTarget scaledObjectCase
  simp only [hkind, if_true, htarget, hhpa, hcap]
  rw [updateTarget_found _ _ _ _ _ hfresh]
  refine ⟨_, rfl, ?_, ?_, ?_⟩
  · by_cases hlt : computedMax < desired
    · simp [(demandGuard_some l.ecoModeStatus computedMax desired).1 hlt, hlt]
    · simp [(demandGuard_some l.ecoModeStatus computedMax desired).2 (not_lt.mp hlt), hlt, hon]
  · intro hlt
    simp [(demandGuard_some l.ecoModeStatus computedMax desired).1 hlt, capForStatus]
  · intro hle
    simp [(demandGuard_some l.ecoModeStatus computedMax desired).2 hle, capForStatus, hon]

/-- C8, on the sample cluster, whose band gives the cap 9: with 12 desired
replicas the Update writes the default cap 100 with eco mode disabled; with 5
desired replicas it writes 9 with eco mode enabled. -/
theorem Reconcile_demand_guard_witness :
    (∃ u, (Reconcile insertionSortLessFunc parseSample mustParseSample (1685620800 * Second)
        (sampleCluster "scaledobjects.keda.sh" 12)).update = some u ∧
      (u.ecoModeStatus.IsDisabled = true ↔ (9 : Int) < 12) ∧
      ((9 : Int) < 12 →
        u.MaxReplicaCount = some (sampleSpec "scaledobjects.keda.sh").EcoModeOff.MaxReplicas ∧
        u.ecoModeStatus.DisableReason = .hpaDesires 9 12) ∧
      ((12 : Int) ≤ 9 →
        u.MaxReplicaCount = some 9 ∧ u.ecoModeStatus = sampleLocals.ecoModeStatus)) ∧
    (Reconcile insertionSortLessFunc parseSample mustParseSample (1685620800 * Second)
        (sampleCluster "scaledobjects.keda.sh" 12)).update
      = some { MaxReplicaCount := some 100
               ecoModeStatus := { IsDisabled := true, DisableReason := .hpaDesires 9 12,
                                  RequeueAfter := 5 * Minute }
               succeeded := true } ∧
    (Reconcile insertionSortLessFunc parseSample mustParseSample (1685620800 * Second)
        (sampleCluster "scaledobjects.keda.sh" 5)).update
      = some { MaxReplicaCount := some 9
               ecoModeStatus := { IsDisabled := false, DisableReason := .empty,
                                  RequeueAfter := 5 * Minute }
               succeeded := true } :=
  ⟨Reconcile_demand_guard insertionSortLessFunc parseSample mustParseSample
      (1685620800 * Second) (sampleCluster "scaledobjects.keda.sh" 12)
      (sampleSpec "scaledobjects.keda.sh") (5 * Minute) sampleLocals 9 12
      rfl (by decide) (by decide) (by decide) rfl rfl rfl rfl rfl,
    by decide, by decide⟩

/-- The Update made by the `switch`, when one is made: the status is the one
of the decision part, passed through the demand guard for a scaled object, and
the cap is the default when that status is disabled and the decided cap
otherwise. -/
theorem scaleTarget_update (now : Time) (spec : CarbonAwareKedaScalerSpec) (c : Cluster)
    (l : Locals) (u : TargetUpdate) (hu : (scaleTarget now spec c l).update = some u) :
    u.MaxReplicaCount = capForStatus u.ecoModeStatus l.maxReplicaCount spec.EcoModeOff ∧
      u.succeeded = c.updateOk ∧
      (u.ecoModeStatus = l.ecoModeStatus ∨
        (stringsContains spec.KedaTarget "scaledobject" = true ∧
          ∃ desired, c.hpa = .found desired ∧
            u.ecoModeStatus = demandGuard l.ecoModeStatus l.maxReplicaCount desired)) := by
  unfold scaleTarget at hu
  split at hu
  · rename_i hobj
    unfold scaledObjectCase at hu
    split at hu
    · simp [returnRequeue] at hu
    · simp [returnRequeue] at hu
    · split at hu
      · simp [returnRequeue] at hu
      · simp [returnRequeue] at hu
      · rename_i desired hhpa
        have := updateTarget_update _ _ _ _ _ _ hu
        subst this
        exact ⟨rfl, rfl, Or.inr ⟨hobj, desired, hhpa, rfl⟩⟩
  · split at hu
    · unfold scaledJobCase at hu
      split at hu
      · simp [returnRequeue] at hu
      · simp [returnRequeue] at hu
      · have := updateTarget_update _ _ _ _ _ _ hu
        subst this
        exact ⟨rfl, rfl, Or.inl rfl⟩
    · unfold finish at hu
      split at hu
      · simp at hu
      · simp [returnRequeue] at hu

/-- C10. Carbon policy never starves observed demand: when `Reconcile` on a
scaled-object target ends without a panic after a successful Update, the cap
written is set and is at least the replicas the HPA desires or equal to the
default `EcoModeOff.MaxReplicas`. -/
theorem Reconcile_never_starves_demand
    (srt : List CarbonIntensityConfig → List CarbonIntensityConfig)
    (parseTime : String → Except String Time) (mustParse : String → Option Expression)
    (now : Time) (c : Cluster) (spec : CarbonAwareKedaScalerSpec) (desired : Int)
    (u : TargetUpdate) (r : Duration × Bool)
    (hscaler : c.scaler = .found spec)
    (hkind : stringsContains spec.KedaTarget "scaledobject" = true)
    (hhpa : c.hpa = .found desired)
    (hu : (Reconcile srt parseTime mustParse now c).update = some u)
    (hok : u.succeeded = true)
    (hexit : (Reconcile srt parseTime mustParse now c).exit = .done r) :
    ∃ cap, u.MaxReplicaCount = some cap ∧
      (desired ≤ cap ∨ cap = spec.EcoModeOff.MaxReplicas) := by
  obtain ⟨spec', initial, l, hscaler', -, -, hrec⟩ :=
    Reconcile_update_some srt parseTime mustParse now c u hu
  have hspec : spec' = spec := by
    rw [hscaler] at hscaler'
    exact (GetResult.found.inj hscaler').symm
  subst hspec
  rw [hrec] at hu hexit
  unfold scaleTarget scaledObjectCase at hu hexit
  simp only [hkind, if_true, hhpa] at hu hexit
  split at hu
  · simp [returnRequeue] at hu
  · simp [returnRequeue] at hu
  · rename_i a htarget
    simp only [htarget] at hexit
    have hupd := updateTarget_update _ _ _ _ _ _ hu
    have hok' : c.updateOk = true := by
      rw [hupd] at hok
      exact hok
    obtain ⟨m, hm⟩ := updateTarget_exit_done _ _ _ _ _ _ r hu hok' hexit
    refine ⟨m, by rw [hupd]; exact hm, ?_⟩
    unfold capForStatus at hm
    split at hm
    · right
      exact (Option.some.inj hm).symm
    · rename_i hon
      left
      have hon' : (demandGuard l.ecoModeStatus l.maxReplicaCount desired).IsDisabled = false := by
        simpa using hon
      rw [hm] at hon'
      by_contra hlt
      rw [(demandGuard_some l.ecoModeStatus m desired).1 (not_le.mp hlt)] at hon'
      exact Bool.noConfusion hon'

/-- C10, on the sample cluster with 5 desired replicas: the run ends normally
after a successful Update, and the cap written, 9, is at least 5. -/
theorem Reconcile_never_starves_demand_witness :
    (Reconcile insertionSortLessFunc parseSample mustParseSample (1685620800 * Second)
        (sampleCluster "scaledobjects.keda.sh" 5)).exit = .done (5 * Minute, false) ∧
    ∃ cap, (some 9 : Option Int) = some cap ∧
      ((5 : Int) ≤ cap ∨ cap = (sampleSpec "scaledobjects.keda.sh").EcoModeOff.MaxReplicas) :=
  ⟨by decide,
    Reconcile_never_starves_demand insertionSortLessFunc parseSample mustParseSample
      (1685620800 * Second) (sampleCluster "scaledobjects.keda.sh" 5)
      (sampleSpec "scaledobjects.keda.sh") 5
      { MaxReplicaCount := some 9
        ecoModeStatus := { IsDisabled := false, DisableReason := .empty,
                           RequeueAfter := 5 * Minute }
        succeeded := true }
      (5 * Minute, false) rfl (by decide) rfl (by decide) rfl (by decide)⟩

/-! ## The wake scheduler `getRequeueDuration` -/

/-- The minute of the hour lies between 0 and 59. -/
theorem Time.Minute_range (t : Time) : 0 ≤ Time.Minute t ∧ Time.Minute t < 60 := by
  unfold Time.Minute
  constructor
  · exact Int.emod_nonneg _ (by decide)
  · exact Int.emod_lt_of_pos _ (by decide)

/-- Wrapping leaves a value of the `int32` range as it is. -/
theorem wrapInt32_eq_self (x : Int) (h1 : -(2 ^ 31) ≤ x) (h2 : x < 2 ^ 31) :
    wrapInt32 x = x := by
  unfold wrapInt32
  omega

/-- The difference of two instants that fits in a `Duration` is returned as it
is by `Sub`. -/
theorem Time.Sub_of_fits (t u : Time) (h1 : minDuration ≤ t - u) (h2 : t - u ≤ maxDuration) :
    Time.Sub t u = t - u := by
  unfold Time.Sub
  rw [if_neg (not_lt.mpr h2), if_neg (not_lt.mpr h1)]

/-- For a positive interval whose delay in minutes fits in a `time.Duration`,
`getRequeueDuration` returns the interval less the remainder of the minute of
the hour, in minutes. -/
theorem getRequeueDuration_of_fits (now : Time) (g : Int) (hg : 0 < g)
    (hfit : g - Time.Minute now % g ≤ maxWholeMinutes) :
    getRequeueDuration now g = .done ((g - Time.Minute now % g) * Minute) := by
  obtain ⟨hm0, -⟩ := Time.Minute_range now
  have hr0 : 0 ≤ Time.Minute now % g := Int.emod_nonneg _ (ne_of_gt hg)
  have hrg : Time.Minute now % g < g := Int.emod_lt_of_pos _ hg
  unfold maxWholeMinutes at hfit
  unfold getRequeueDuration
  rw [if_neg (ne_of_gt hg), Int.tmod_eq_emod hm0 (le_of_lt hg)]
  generalize Time.Minute now % g = r at hr0 hrg hfit
  have h32 : wrapInt32 (g - r) = g - r := wrapInt32_eq_self _ (by omega) (by omega)
  have h64 : wrapInt64 ((g - r) * Minute) = (g - r) * Minute := by
    apply wrapInt64_eq_self <;> unfold Minute <;> omega
  simp only [h32, h64, Time.Add]
  have hsub : now + (g - r) * Minute - now = (g - r) * Minute := by ring
  have hlo : minDuration ≤ now + (g - r) * Minute - now := by
    rw [hsub]
    show (-(2 ^ 63) : Int) ≤ (g - r) * (60000000000 : Int)
    omega
  have hhi : now + (g - r) * Minute - now ≤ maxDuration := by
    rw [hsub]
    show (g - r) * (60000000000 : Int) ≤ (2 ^ 63 - 1 : Int)
    omega
  rw [Time.Sub_of_fits _ _ hlo hhi, hsub]

/-- C11, counterexample. At 12:37 with the interval 307445735, the claimed
307445698 minutes do not fit in a `time.Duration`: the product with
`time.Minute` wraps and the function returns -2193.709551616 s. -/
theorem getRequeueDuration_exact_minutes_counterexample :
    Time.Minute (1609504620 * Second) = 37 ∧
    getRequeueDuration (1609504620 * Second) 307445735 = .done (-2193709551616) ∧
    getRequeueDuration (1609504620 * Second) 307445735
      ≠ .done ((307445735 - 37 % 307445735) * Minute) := by
  decide

/-- C11, as amended. For every instant `now` and every interval `g > 0` for
which `g - (minute of the hour mod g)` minutes fit in a `time.Duration` (at
most 153722867 minutes), `getRequeueDuration now g` returns exactly that many
minutes. -/
theorem getRequeueDuration_exact_minutes (now : Time) (g : Int) (hg : 0 < g)
    (hfit : g - Time.Minute now % g ≤ maxWholeMinutes) :
    getRequeueDuration now g = .done ((g - Time.Minute now % g) * Minute) :=
  getRequeueDuration_of_fits now g hg hfit

/-- C11 as amended, at 12:37:00 on 1 January 2021: 3 minutes for the interval
5, 23 minutes for 60 and 8 minutes for 15. -/
theorem getRequeueDuration_exact_minutes_witness :
    getRequeueDuration (1609504620 * Second) 5 = .done (3 * Minute) ∧
    getRequeueDuration (1609504620 * Second) 60 = .done (23 * Minute) ∧
    getRequeueDuration (1609504620 * Second) 15 = .done (8 * Minute) :=
  ⟨getRequeueDuration_exact_minutes (1609504620 * Second) 5 (by decide) (by decide),
    getRequeueDuration_exact_minutes (1609504620 * Second) 60 (by decide) (by decide),
    getRequeueDuration_exact_minutes (1609504620 * Second) 15 (by decide) (by decide)⟩

/-- Within the range where the delay fits in a `time.Duration`, the delay is
strictly positive, at most the interval, and the full interval when the minute
of the hour is a multiple of the interval. -/
theorem getRequeueDuration_bounds_of_fits (now : Time) (g : Int) (hg : 0 < g)
    (hfit : g - Time.Minute now % g ≤ maxWholeMinutes) :
    ∃ d, getRequeueDuration now g = .done d ∧ 0 < d ∧ d ≤ g * Minute ∧
      (g ∣ Time.Minute now → d = g * Minute) := by
  have hr0 : 0 ≤ Time.Minute now % g := Int.emod_nonneg _ (ne_of_gt hg)
  have hrg : Time.Minute now % g < g := Int.emod_lt_of_pos _ hg
  have hpos : (0 : Int) < g - Time.Minute now % g := by omega
  have hle : g - Time.Minute now % g ≤ g := by omega
  refine ⟨_, getRequeueDuration_of_fits now g hg hfit, ?_, ?_, ?_⟩
  · exact mul_pos hpos (by decide)
  · exact mul_le_mul_of_nonneg_right hle (by decide)
  · intro hdvd
    rw [Int.emod_eq_zero_of_dvd hdvd, sub_zero]

/-- For an interval that divides 60, the instant `now` plus the delay has a
minute of the hour that is a multiple of the interval, and the seconds and
nanoseconds of `now`. -/
theorem getRequeueDuration_lands_on_multiple (now : Time) (g : Int) (hg : 0 < g)
    (hdiv : g ∣ 60) :
    ∃ d, getRequeueDuration now g = .done d ∧ g ∣ Time.Minute (now + d) ∧
      (now + d) % Minute = now % Minute := by
  have hg60 : g ≤ 60 := Int.le_of_dvd (by decide) hdiv
  have hr0 : 0 ≤ Time.Minute now % g := Int.emod_nonneg _ (ne_of_gt hg)
  have hfit : g - Time.Minute now % g ≤ maxWholeMinutes := by
    unfold maxWholeMinutes
    omega
  refine ⟨_, getRequeueDuration_of_fits now g hg hfit, ?_, ?_⟩
  · have hq : (now + (g - Time.Minute now % g) * Minute) / Minute
        = now / Minute + (g - Time.Minute now % g) :=
      Int.add_mul_ediv_right _ _ (by decide)
    have hm : Time.Minute now % g = now / Minute % g := by
      unfold Time.Minute
      exact Int.emod_emod_of_dvd _ hdiv
    have hx : g ∣ now / Minute + (g - now / Minute % g) := by
      have := Int.emod_add_ediv (now / Minute) g
      exact ⟨now / Minute / g + 1, by linarith⟩
    unfold Time.Minute at hq ⊢
    rw [hq, ← Time.Minute, hm, Int.emod_def]
    exact dvd_sub hx (Dvd.dvd.mul_right hdiv _)
  · exact Int.add_mul_emod_self

/-- C12, counterexample. With the interval 200000000 at 12:00, the minute of
the hour is a multiple of the interval, the difference is 200000000 minutes,
which no `time.Duration` holds; the product with `time.Minute` wraps and the
function returns a negative delay of about 204 years. -/
theorem getRequeueDuration_positive_bounded_counterexample :
    Time.Minute (1685620800 * Second) % 200000000 = 0 ∧
    wrapInt64 (200000000 * Minute) = -6446744073709551616 ∧
    getRequeueDuration (1685620800 * Second) 200000000 = .done (-6446744073709551616) ∧
    ¬ (0 : Int) < -6446744073709551616 := by
  decide

/-- C12, as amended. For every instant `now` and every interval `g > 0` for
which `g - (minute of the hour mod g)` minutes fit in a `time.Duration`,
`getRequeueDuration now g` returns a delay that is strictly positive and at
most `g` minutes; when the minute of the hour is a multiple of `g` it is the
full `g` minutes, never zero. -/
theorem getRequeueDuration_positive_bounded (now : Time) (g : Int) (hg : 0 < g)
    (hfit : g - Time.Minute now % g ≤ maxWholeMinutes) :
    ∃ d, getRequeueDuration now g = .done d ∧ 0 < d ∧ d ≤ g * Minute ∧
      (g ∣ Time.Minute now → d = g * Minute) :=
  getRequeueDuration_bounds_of_fits now g hg hfit

/-- C12 as amended, at 12:35:00 on 1 January 2021 with the interval 5: the
minute is a multiple of 5 and the delay is the full five minutes. -/
theorem getRequeueDuration_positive_bounded_witness :
    Time.Minute (1609504500 * Second) = 35 ∧
    getRequeueDuration (1609504500 * Second) 5 = .done (5 * Minute) ∧
    ∃ d, getRequeueDuration (1609504500 * Second) 5 = .done d ∧ 0 < d ∧ d ≤ 5 * Minute ∧
      ((5 : Int) ∣ Time.Minute (1609504500 * Second) → d = 5 * Minute) :=
  ⟨by decide, by decide,
    getRequeueDuration_positive_bounded (1609504500 * Second) 5 (by decide) (by decide)⟩

/-- C13, counterexample. At 12:37:30 with the interval 5 the delay is three
whole minutes, so `now` plus the delay is 12:40:30: its minute is a multiple of
5 but its seconds are not zero; it lies thirty seconds after the boundary
12:40:00. -/
theorem getRequeueDuration_next_multiple_counterexample :
    getRequeueDuration (1609504650 * Second) 5 = .done (3 * Minute) ∧
    Time.Minute (1609504650 * Second + 3 * Minute) = 40 ∧
    (1609504650 * Second + 3 * Minute) % Minute = 30 * Second ∧
    (1609504650 * Second + 3 * Minute) % Minute ≠ 0 := by
  decide

/-- Among the integers after `q`, none before `q + (g - q mod g)` is a
multiple of `g` modulo 60, when `g` divides 60. -/
theorem no_multiple_between (q g k : Int) (hg : 0 < g) (hdiv : g ∣ 60)
    (hk : 0 < k) (hlt : k < g - q % g) : ¬ g ∣ (q + k) % 60 := by
  intro hdvd
  have hsum : g ∣ q + k := by
    have h60 := Int.emod_add_ediv (q + k) 60
    rw [← h60]
    exact dvd_add hdvd (Dvd.dvd.mul_right hdiv _)
  have hr0 : 0 ≤ q % g := Int.emod_nonneg _ (ne_of_gt hg)
  have hrk : g ∣ q % g + k := by
    have hdecomp := Int.emod_add_ediv q g
    have : q % g + k = (q + k) - g * (q / g) := by linarith
    rw [this]
    exact dvd_sub hsum (dvd_mul_right _ _)
  have hle := Int.le_of_dvd (by omega) hrk
  omega

/-- For an interval that divides 60, no whole number of minutes shorter than
the delay leads from `now` to a minute of the hour that is a multiple of the
interval. -/
theorem no_earlier_multiple (now : Time) (g k : Int) (hg : 0 < g) (hdiv : g ∣ 60)
    (hk : 0 < k) (hlt : k < g - Time.Minute now % g) :
    ¬ g ∣ Time.Minute (now + k * Minute) := by
  have hq : (now + k * Minute) / Minute = now / Minute + k :=
    Int.add_mul_ediv_right _ _ (by decide)
  have hm : Time.Minute now % g = now / Minute % g := by
    unfold Time.Minute
    exact Int.emod_emod_of_dvd _ hdiv
  unfold Time.Minute
  rw [hq]
  rw [hm] at hlt
  exact no_multiple_between (now / Minute) g k hg hdiv hk hlt

/-- An instant on a whole minute that lies after `now` and before the start of
the minute of `now` plus `k0` minutes is a positive number of whole minutes,
fewer than `k0`, after the start of the minute of `now`. -/
theorem whole_minutes_after (now t k0 : Int) (hnow : now < t)
    (ht0 : t % 60000000000 = 0)
    (hlt : t < now - now % 60000000000 + k0 * 60000000000) :
    0 < t / 60000000000 - now / 60000000000 ∧
      t / 60000000000 - now / 60000000000 < k0 ∧
      (now + (t / 60000000000 - now / 60000000000) * 60000000000) / 60000000000
        = t / 60000000000 := by
  omega

/-- An instant less its part after the whole minute lies on a whole minute. -/
theorem floor_minute_emod (n : Int) : (n - n % 60000000000) % 60000000000 = 0 := by
  omega

/-- Taking the seconds and nanoseconds off an instant does not change the
number of its minute. -/
theorem floor_minute_ediv (n d : Int) (h : (n + d) % 60000000000 = n % 60000000000) :
    (n + d - n % 60000000000) / 60000000000 = (n + d) / 60000000000 := by
  omega

/-- C13, as amended. For every instant `now`, with any seconds and sub-second
part, and every interval `g > 0` that divides 60, `getRequeueDuration now g`
returns a strictly positive delay of a whole number of minutes, at most `g`;
the instant `now` plus the delay has a minute of the hour that is a multiple
of `g`, no smaller positive number of whole minutes leads to such a minute,
and it has the seconds and nanoseconds of `now`: it is a boundary, with zero
seconds and nanoseconds, exactly when those of `now` are zero. The instant
less the seconds and nanoseconds of `now` is the next boundary: no instant
after `now` on a whole minute that is a multiple of `g` comes before it. -/
theorem getRequeueDuration_next_multiple (now : Time) (g : Int) (hg : 0 < g)
    (hdiv : g ∣ 60) :
    ∃ d, getRequeueDuration now g = .done d ∧
      0 < d ∧
      (∃ k : Int, 0 < k ∧ k ≤ g ∧ d = k * Minute) ∧
      g ∣ Time.Minute (now + d) ∧
      (∀ k : Int, 0 < k → k * Minute < d → ¬ g ∣ Time.Minute (now + k * Minute)) ∧
      (now + d) % Minute = now % Minute ∧
      ((now + d) % Minute = 0 ↔ now % Minute = 0) ∧
      (now + d - now % Minute) % Minute = 0 ∧
      g ∣ Time.Minute (now + d - now % Minute) ∧
      now < now + d - now % Minute ∧
      (∀ t : Time, now < t → t % Minute = 0 → g ∣ Time.Minute t →
        now + d - now % Minute ≤ t) := by
  obtain ⟨d, hd, hmult, hsec⟩ := getRequeueDuration_lands_on_multiple now g hg hdiv
  have hg60 : g ≤ 60 := Int.le_of_dvd (by decide) hdiv
  have hr0 : 0 ≤ Time.Minute now % g := Int.emod_nonneg _ (ne_of_gt hg)
  have hrg : Time.Minute now % g < g := Int.emod_lt_of_pos _ hg
  have hfit : g - Time.Minute now % g ≤ maxWholeMinutes := by
    unfold maxWholeMinutes
    omega
  have hd' := getRequeueDuration_of_fits now g hg hfit
  rw [hd] at hd'
  have hdeq : d = (g - Time.Minute now % g) * Minute := Run.done.inj hd'
  have hkpos : 0 < g - Time.Minute now % g := by omega
  have hM : (Minute : Int) = 60000000000 := rfl
  have hdpos : (0 : Int) < d := by
    rw [hdeq]
    exact Int.mul_pos hkpos (by decide)
  have hminimal : ∀ k : Int, 0 < k → k * Minute < d →
      ¬ g ∣ Time.Minute (now + k * Minute) := by
    intro k hk hkd
    apply no_earlier_multiple now g k hg hdiv hk
    rw [hdeq] at hkd
    exact lt_of_mul_lt_mul_right hkd (by decide)
  have hfloor : (now + d - now % Minute) % Minute = 0 := by
    have h1 : (now + d - now % Minute : Int) = (now - now % Minute) + (g - Time.Minute now % g) * Minute := by
      rw [hdeq]
      ring
    rw [h1, Int.add_mul_emod_self, hM]
    exact floor_minute_emod now
  have hfloorMin : Time.Minute (now + d - now % Minute) = Time.Minute (now + d) := by
    unfold Time.Minute
    have h2 : (now + d - now % Minute : Int) / Minute = (now + d) / Minute :=
      floor_minute_ediv now d hsec
    rw [h2]
  have hafter : (now : Int) < now + d - now % Minute := by
    have h6 : (now : Int) % Minute < Minute := Int.emod_lt_of_pos _ (by decide)
    have h7 : (Minute : Int) ≤ d := by
      rw [hdeq]
      have : (1 : Int) ≤ g - Time.Minute now % g := hkpos
      calc (Minute : Int) = 1 * Minute := (one_mul _).symm
        _ ≤ (g - Time.Minute now % g) * Minute :=
          Int.mul_le_mul_of_nonneg_right this (by decide)
    linarith
  refine ⟨d, hd, hdpos, ⟨g - Time.Minute now % g, hkpos, by omega, hdeq⟩, hmult, hminimal,
    hsec, by rw [hsec], hfloor, by rw [hfloorMin]; exact hmult, hafter, ?_⟩
  intro t hnow ht0 hdvd
  by_contra hlt
  have hlt' : (t : Int) < now - now % 60000000000 + (g - Time.Minute now % g) * 60000000000 := by
    have := not_le.mp hlt
    rw [hdeq, hM] at this
    linarith
  have ht0' : (t : Int) % 60000000000 = 0 := ht0
  obtain ⟨hk1, hk2, hk3⟩ := whole_minutes_after now t (g - Time.Minute now % g) hnow ht0' hlt'
  apply no_earlier_multiple now g (t / 60000000000 - now / 60000000000) hg hdiv hk1 hk2
  have hsame : Time.Minute (now + (t / 60000000000 - now / 60000000000) * Minute)
      = Time.Minute t := by
    unfold Time.Minute
    rw [hM, hk3]
  rw [hsame]
  exact hdvd

/-- C13 as amended, with the interval 5: at 12:37:00 the delay leads to
12:40:00, a boundary; the theorem applied at 12:37:30, where the delay of
three minutes leads to 12:40:30 and the next boundary is 12:40:00. -/
theorem getRequeueDuration_next_multiple_witness :
    (1609504620 * Second + 3 * Minute) % Minute = 0 ∧
    Time.Minute (1609504620 * Second + 3 * Minute) = 40 ∧
    getRequeueDuration (1609504650 * Second) 5 = .done (3 * Minute) ∧
    (1609504650 * Second + 3 * Minute - (1609504650 * Second) % Minute : Int)
      = 1609504800 * Second ∧
    ∃ d, getRequeueDuration (1609504650 * Second) 5 = .done d ∧
      0 < d ∧
      (∃ k : Int, 0 < k ∧ k ≤ 5 ∧ d = k * Minute) ∧
      (5 : Int) ∣ Time.Minute (1609504650 * Second + d) ∧
      (∀ k : Int, 0 < k → k * Minute < d →
        ¬ (5 : Int) ∣ Time.Minute (1609504650 * Second + k * Minute)) ∧
      (1609504650 * Second + d) % Minute = (1609504650 * Second) % Minute ∧
      ((1609504650 * Second + d) % Minute = 0 ↔ (1609504650 * Second) % Minute = 0) ∧
      (1609504650 * Second + d - (1609504650 * Second) % Minute) % Minute = 0 ∧
      (5 : Int) ∣ Time.Minute (1609504650 * Second + d - (1609504650 * Second) % Minute) ∧
      1609504650 * Second < 1609504650 * Second + d - (1609504650 * Second) % Minute ∧
      (∀ t : Time, 1609504650 * Second < t → t % Minute = 0 → (5 : Int) ∣ Time.Minute t →
        1609504650 * Second + d - (1609504650 * Second) % Minute ≤ t) :=
  ⟨by decide, by decide, by decide, by decide,
    getRequeueDuration_next_multiple (1609504650 * Second) 5 (by decide) (by decide)⟩

/-! ## The forecast lookup `findCarbonForecast` -/

/-- For a sample whose duration in minutes fits in a `time.Duration`, the test
of `findCarbonForecast` says that the window of the sample contains `t`. -/
theorem findCarbonForecast_test_iff (cf : CarbonForecast) (t : Time)
    (hlo : -maxWholeMinutes ≤ cf.Duration) (hhi : cf.Duration ≤ maxWholeMinutes) :
    ((Time.Equal t cf.Timestamp || Time.After t cf.Timestamp) &&
        Time.Before t (Time.Add cf.Timestamp (wrapInt64 (cf.Duration * Minute)))) = true ↔
      windowContains cf t := by
  unfold maxWholeMinutes at hlo hhi
  have hw : wrapInt64 (cf.Duration * Minute) = cf.Duration * Minute := by
    apply wrapInt64_eq_self <;> unfold Minute <;> omega
  simp only [hw, Time.Equal, Time.After, Time.Before, Time.Add, windowContains,
    Bool.and_eq_true, Bool.or_eq_true, decide_eq_true_eq]
  constructor
  · rintro ⟨h1 | h1, h2⟩
    · exact ⟨le_of_eq h1.symm, h2⟩
    · exact ⟨le_of_lt h1, h2⟩
  · rintro ⟨h1, h2⟩
    exact ⟨(eq_or_lt_of_le h1).imp Eq.symm id, h2⟩

/-- For a series whose durations in minutes all fit in a `time.Duration`,
`findCarbonForecast` returns the first sample, in series order, whose window
contains `t`, and nil exactly when no window contains `t`. -/
theorem findCarbonForecast_in_range (cfs : List CarbonForecast) (t : Time)
    (hfit : ∀ cf ∈ cfs, -maxWholeMinutes ≤ cf.Duration ∧ cf.Duration ≤ maxWholeMinutes) :
    (∀ cf, findCarbonForecast cfs t = some cf ↔
      ∃ before after, cfs = before ++ cf :: after ∧ windowContains cf t ∧
        ∀ b ∈ before, ¬ windowContains b t) ∧
    (findCarbonForecast cfs t = none ↔ ∀ cf ∈ cfs, ¬ windowContains cf t) := by
  unfold findCarbonForecast
  constructor
  · intro cf
    rw [List.find?_eq_some]
    constructor
    · rintro ⟨hcf, before, after, hl, hbefore⟩
      have hmem : cf ∈ cfs := by rw [hl]; simp
      refine ⟨before, after, hl,
        (findCarbonForecast_test_iff cf t (hfit cf hmem).1 (hfit cf hmem).2).mp hcf, ?_⟩
      intro b hb hwin
      have hbm : b ∈ cfs := by rw [hl]; simp [hb]
      have := (findCarbonForecast_test_iff b t (hfit b hbm).1 (hfit b hbm).2).mpr hwin
      have hnot := hbefore b hb
      rw [this] at hnot
      exact Bool.noConfusion hnot
    · rintro ⟨before, after, hl, hwin, hbefore⟩
      have hmem : cf ∈ cfs := by rw [hl]; simp
      refine ⟨(findCarbonForecast_test_iff cf t (hfit cf hmem).1 (hfit cf hmem).2).mpr hwin,
        before, after, hl, ?_⟩
      intro b hb
      have hbm : b ∈ cfs := by rw [hl]; simp [hb]
      have hiff := findCarbonForecast_test_iff b t (hfit b hbm).1 (hfit b hbm).2
      cases htest : ((Time.Equal t b.Timestamp || Time.After t b.Timestamp) &&
          Time.Before t (Time.Add b.Timestamp (wrapInt64 (b.Duration * Minute)))) with
      | false => rfl
      | true => exact absurd (hiff.mp htest) (hbefore b hb)
  · rw [List.find?_eq_none]
    constructor
    · intro h cf hcf hwin
      exact h cf hcf ((findCarbonForecast_test_iff cf t (hfit cf hcf).1 (hfit cf hcf).2).mpr hwin)
    · intro h cf hcf htest
      exact h cf hcf ((findCarbonForecast_test_iff cf t (hfit cf hcf).1 (hfit cf hcf).2).mp htest)

/-- On the series of the unit test the sample found for `now` is the fourth
one, of value 100; an instant equal to its timestamp is covered, the instant
at the end of its window belongs to the next sample. -/
theorem findCarbonForecast_testSeries :
    findCarbonForecast (testSeries (1685620800 * Second)) (1685620800 * Second)
      = some ⟨1685620800 * Second, 5, .finite 100⟩ ∧
    findCarbonForecast (testSeries (1685620800 * Second)) (1685620800 * Second + 5 * Minute)
      = some ⟨1685620800 * Second + 5 * Minute, 5, .finite 80⟩ ∧
    findCarbonForecast (testSeries (1685620800 * Second)) (1685620800 * Second + 20 * Minute)
      = none := by
  decide

/-- C14, failing input. A series of one sample of 200000000 minutes that starts
at noon of 1 June 2023: the window of the sample contains its own timestamp,
but the product of the duration with `time.Minute` wraps to a negative
`Duration`, the end of the window computed by `findCarbonForecast` lies before
its start, and the function returns nil. -/
theorem findCarbonForecast_misses_long_sample :
    windowContains ⟨1685620800 * Second, 200000000, .finite 80⟩ (1685620800 * Second) ∧
    wrapInt64 (200000000 * Minute) = -6446744073709551616 ∧
    findCarbonForecast [⟨1685620800 * Second, 200000000, .finite 80⟩] (1685620800 * Second)
      = none := by
  decide

/-! ## Wake delays and errors of `setEcoMode` -/

/-- C15, counterexample. (1) For the window from 10:00 on 1 June 2023 to the
end of the year 9999, at 10:30, with the clock standing still: the end plus one
microsecond less `now` is about 7977 years, which no `time.Duration` holds;
`time.Until` saturates and `RequeueAfter` is the largest `Duration`, about 292
years. (2) For the window 10:00 to 11:00, with `now` read one nanosecond before
11:00 and the clock read again by `time.Until` one microsecond after 11:00:
the window contains `now`, and `RequeueAfter` is zero: it is not strictly
positive and it is not the end plus one microsecond less `now`. -/
theorem setEcoMode_custom_window_requeue_counterexample :
    windowOf parseFarFuture ⟨"2023-06-01T10:00:00Z", "9999-12-31T23:59:59Z"⟩
      = some (1685613600 * Second, 253402300799 * Second) ∧
    setEcoMode parseFarFuture mustParseSample (1685615400 * Second) (1685615400 * Second)
        freshStatus openEndedPolicy []
      = .done ({ IsDisabled := true
                 DisableReason := .customSchedule (1685613600 * Second)
                   (253402300799 * Second)
                 RequeueAfter := 9223372036854775807 }, none) ∧
    (9223372036854775807 : Int)
      ≠ 253402300799 * Second + Microsecond - 1685615400 * Second ∧
    windowActive parseSample (1685617200 * Second - 1)
      ⟨"2023-06-01T10:00:00Z", "2023-06-01T11:00:00Z"⟩ = true ∧
    setEcoMode parseSample mustParseSample (1685617200 * Second - 1)
        (1685617200 * Second + Microsecond) freshStatus morningWindowPolicy []
      = .done ({ IsDisabled := true
                 DisableReason := .customSchedule (1685613600 * Second)
                   (1685617200 * Second)
                 RequeueAfter := 0 }, none) ∧
    (0 : Int) ≠ 1685617200 * Second + Microsecond - (1685617200 * Second - 1) := by
  decide

/-- The value of `t.Sub(u)` in terms of the exact difference: the difference
when it fits in a `Duration`, the nearest end of the range otherwise; its sign
is the sign of the difference. -/
theorem Time.Sub_cases (t u : Time) :
    (minDuration ≤ t - u → t - u ≤ maxDuration → Time.Sub t u = t - u) ∧
    (maxDuration < t - u → Time.Sub t u = maxDuration) ∧
    (t - u < minDuration → Time.Sub t u = minDuration) ∧
    (0 < Time.Sub t u ↔ u < t) := by
  have hmax : (0 : Int) < maxDuration := by decide
  have hmin : minDuration < (0 : Int) := by decide
  refine ⟨fun h1 h2 => Time.Sub_of_fits t u h1 h2, ?_, ?_, ?_⟩
  · intro h
    unfold Time.Sub
    rw [if_pos h]
  · intro h
    have h0 : ¬ (t - u > maxDuration) := by
      intro hgt
      have h3 : (t - u : Int) < 0 := lt_trans h hmin
      have h4 : (0 : Int) < t - u := lt_trans hmax hgt
      exact absurd h3 (not_lt.mpr (le_of_lt h4))
    unfold Time.Sub
    rw [if_neg h0, if_pos h]
  · unfold Time.Sub
    split
    · rename_i hgt
      constructor
      · intro _
        have h4 : (0 : Int) < t - u := lt_trans hmax hgt
        exact sub_pos.mp h4
      · intro _
        exact hmax
    · split
      · rename_i hlt
        constructor
        · intro h
          exact absurd h (not_lt.mpr (le_of_lt hmin))
        · intro h
          have h3 : (t - u : Int) < 0 := lt_trans hlt hmin
          exact absurd (sub_pos.mpr h) (not_lt.mpr (le_of_lt h3))
      · exact sub_pos

/-- C15, as amended. When `W` is the first custom window, in list order, with
`start < now < stop`, and the entries before it parse, `setEcoMode` returns a
nil error with eco mode disabled and the custom-schedule reason naming the
start and the end of `W`. `RequeueAfter` is `(stop + 1 microsecond) - later`,
where `later` is the reading of the clock that `time.Until` takes, whenever
that difference fits in a `time.Duration`, and the nearest end of the range of
`Duration` otherwise. It is strictly positive exactly when `later` is before
`stop + 1 microsecond`, so whenever `later` is still inside the window; it is
at most `(stop + 1 microsecond) - now` when `later` is not before `now`; and
when the clock stands still (`later = now`) it is strictly positive, equal to
`(stop + 1 microsecond) - now` when that fits in a `time.Duration` and to the
largest `Duration` otherwise. -/
theorem setEcoMode_custom_window_requeue
    (parseTime : String → Except String Time) (mustParse : String → Option Expression)
    (now later : Time) (ecoModeStatus : EcoModeStatus) (configs : EcoModeOff)
    (forecast : List CarbonForecast) (before : List Schedule) (entry : Schedule)
    (after : List Schedule) (start stop : Time)
    (hl : configs.CustomSchedule = before ++ entry :: after)
    (hbefore : ∀ e ∈ before, (windowOf parseTime e).isSome = true ∧
      windowActive parseTime now e = false)
    (hw : windowOf parseTime entry = some (start, stop))
    (h1 : start < now) (h2 : now < stop) :
    ∃ st, setEcoMode parseTime mustParse now later ecoModeStatus configs forecast
        = .done (st, none) ∧
      st.IsDisabled = true ∧
      st.DisableReason = .customSchedule start stop ∧
      (minDuration ≤ stop + Microsecond - later → stop + Microsecond - later ≤ maxDuration →
        st.RequeueAfter = stop + Microsecond - later) ∧
      (maxDuration < stop + Microsecond - later → st.RequeueAfter = maxDuration) ∧
      (stop + Microsecond - later < minDuration → st.RequeueAfter = minDuration) ∧
      (0 < st.RequeueAfter ↔ later < stop + Microsecond) ∧
      (later < stop → 0 < st.RequeueAfter) ∧
      (now ≤ later → st.RequeueAfter ≤ stop + Microsecond - now) ∧
      (later = now →
        0 < st.RequeueAfter ∧
        (stop + Microsecond - now ≤ maxDuration →
          st.RequeueAfter = stop + Microsecond - now) ∧
        (maxDuration < stop + Microsecond - now → st.RequeueAfter = maxDuration)) := by
  have hact := (windowActive_iff parseTime now entry).mpr ⟨start, stop, hw, h1, h2⟩
  have hloop := customScheduleLoop_first parseTime now later ecoModeStatus before entry after
    start stop (fun e he => (hbefore e he).1) (fun e he => (hbefore e he).2) hw hact
  obtain ⟨hfits, hbig, hsmall, hsign⟩ := Time.Sub_cases (stop + Microsecond) later
  have hreq : (customScheduleStatus later start stop).RequeueAfter
      = Time.Sub (stop + Microsecond) later := rfl
  have hmicro : (0 : Int) < Microsecond := by decide
  have hmax : (0 : Int) < maxDuration := by decide
  have hmin : minDuration < (0 : Int) := by decide
  have h2' : (now : Int) < stop := h2
  have hposnow : (0 : Int) < stop + Microsecond - now := by linarith
  have hinside : later < stop → 0 < (customScheduleStatus later start stop).RequeueAfter := by
    intro hlt
    rw [hreq]
    apply hsign.mpr
    have hlt' : (later : Int) < stop := hlt
    show (later : Int) < stop + Microsecond
    linarith
  refine ⟨customScheduleStatus later start stop, ?_, rfl, rfl, ?_, ?_, ?_, ?_, hinside, ?_, ?_⟩
  · simp only [setEcoMode, hl, hloop]
  · intro hlo hhi
    rw [hreq]
    exact hfits hlo hhi
  · intro h
    rw [hreq]
    exact hbig h
  · intro h
    rw [hreq]
    exact hsmall h
  · rw [hreq]
    exact hsign
  · intro hle
    rw [hreq]
    have hle' : (now : Int) ≤ later := hle
    by_cases hgt : maxDuration < stop + Microsecond - later
    · rw [hbig hgt]
      have hgt' : (maxDuration : Int) < stop + Microsecond - later := hgt
      show (maxDuration : Int) ≤ stop + Microsecond - now
      linarith
    · by_cases hlt : stop + Microsecond - later < minDuration
      · rw [hsmall hlt]
        show (minDuration : Int) ≤ stop + Microsecond - now
        linarith
      · rw [hfits (not_lt.mp hlt) (not_lt.mp hgt)]
        show (stop + Microsecond - later : Int) ≤ stop + Microsecond - now
        linarith
  · intro heq
    subst heq
    refine ⟨hinside h2, ?_, ?_⟩
    · intro hfit
      rw [hreq]
      exact hfits (le_of_lt (lt_trans hmin hposnow)) hfit
    · intro h
      rw [hreq]
      exact hbig h

/-- C15 as amended, on the policy with the single window 10:00 to 11:00, with
`now` read at 10:30 and the clock read again one millisecond later: the delay
is thirty minutes and one microsecond less that millisecond; with the clock
standing still it is thirty minutes and one microsecond. -/
theorem setEcoMode_custom_window_requeue_witness :
    setEcoMode parseSample mustParseSample (1685615400 * Second)
        (1685615400 * Second + 1000000) freshStatus morningWindowPolicy []
      = .done ({ IsDisabled := true
                 DisableReason := .customSchedule (1685613600 * Second)
                   (1685617200 * Second)
                 RequeueAfter := 30 * Minute + Microsecond - 1000000 }, none) ∧
    setEcoMode parseSample mustParseSample (1685615400 * Second) (1685615400 * Second)
        freshStatus morningWindowPolicy []
      = .done ({ IsDisabled := true
                 DisableReason := .customSchedule (1685613600 * Second)
                   (1685617200 * Second)
                 RequeueAfter := 30 * Minute + Microsecond }, none) ∧
    ∃ st, setEcoMode parseSample mustParseSample (1685615400 * Second)
        (1685615400 * Second + 1000000) freshStatus morningWindowPolicy []
        = .done (st, none) ∧
      st.IsDisabled = true ∧
      st.DisableReason = .customSchedule (1685613600 * Second) (1685617200 * Second) ∧
      (minDuration ≤ 1685617200 * Second + Microsecond - (1685615400 * Second + 1000000) →
        1685617200 * Second + Microsecond - (1685615400 * Second + 1000000) ≤ maxDuration →
        st.RequeueAfter
          = 1685617200 * Second + Microsecond - (1685615400 * Second + 1000000)) ∧
      (maxDuration < 1685617200 * Second + Microsecond - (1685615400 * Second + 1000000) →
        st.RequeueAfter = maxDuration) ∧
      (1685617200 * Second + Microsecond - (1685615400 * Second + 1000000) < minDuration →
        st.RequeueAfter = minDuration) ∧
      (0 < st.RequeueAfter ↔ 1685615400 * Second + 1000000 < 1685617200 * Second + Microsecond) ∧
      (1685615400 * Second + 1000000 < 1685617200 * Second → 0 < st.RequeueAfter) ∧
      (1685615400 * Second ≤ 1685615400 * Second + 1000000 →
        st.RequeueAfter ≤ 1685617200 * Second + Microsecond - 1685615400 * Second) ∧
      (1685615400 * Second + 1000000 = 1685615400 * Second →
        0 < st.RequeueAfter ∧
        (1685617200 * Second + Microsecond - 1685615400 * Second ≤ maxDuration →
          st.RequeueAfter = 1685617200 * Second + Microsecond - 1685615400 * Second) ∧
        (maxDuration < 1685617200 * Second + Microsecond - 1685615400 * Second →
          st.RequeueAfter = maxDuration)) :=
  ⟨by decide, by decide,
    setEcoMode_custom_window_requeue parseSample mustParseSample (1685615400 * Second)
      (1685615400 * Second + 1000000) freshStatus morningWindowPolicy [] [] _ [] _ _ rfl
      (by simp) (by decide) (by decide) (by decide)⟩

/-- C16, failing input. At 23:29:30 UTC on 1 June 2023 the rule `30 23 1 * *`
fires thirty seconds later; thirty whole minutes are left in the day, so
`NextN` returns thirty monthly firings, all on a first day of a month: the loop
that compares `Day()` discards none of them, the last one is 23:30 on 1
November 2025, and `RequeueAfter` is a little more than 884 days, far beyond
the time left in the day plus one minute and one nanosecond. -/
theorem setEcoMode_recurring_keeps_later_months :
    monthlyAt2330.Next (1685662170 * Second) = 1685662200 * Second ∧
    (firingsToday monthlyAt2330 (1685662170 * Second)).length = 30 ∧
    (firingsToday monthlyAt2330 (1685662170 * Second)).getLast? = some (1762039800 * Second) ∧
    Time.Day (1762039800 * Second) = Time.Day (1685662170 * Second) ∧
    setEcoMode parseSample mustParseMonthly (1685662170 * Second) (1685662170 * Second) freshStatus
        monthlyPolicy []
      = .done ({ IsDisabled := true
                 DisableReason := .recurringSchedule "30 23 1 * *"
                 RequeueAfter := 76377690000000001 }, none) ∧
    Until (1685662170 * Second) (Time.Add (Time.lastSecondOfDay (1685662170 * Second)) Second)
      + Minute + 1 < 76377690000000001 := by
  decide

/-- C19, counterexample. In the policy whose first entry is the window 10:00 to
11:00 and whose second entry is malformed, at 10:30 `setEcoMode` returns a nil
error and reports the override of the window: the malformed entry is never
parsed. -/
theorem setEcoMode_malformed_entry_counterexample :
    windowOf parseSample ⟨"yesterday", "tomorrow"⟩ = none ∧
    ⟨"yesterday", "tomorrow"⟩ ∈ malformedLastPolicy.CustomSchedule ∧
    setEcoMode parseSample mustParseSample (1685615400 * Second) (1685615400 * Second) freshStatus
        malformedLastPolicy []
      = .done (customScheduleStatus (1685615400 * Second) (1685613600 * Second)
          (1685617200 * Second), none) := by
  decide

/-- The custom-schedule loop returns an error and leaves the status as it was
when it reaches an entry that does not parse before any window that contains
`now`. -/
theorem customScheduleLoop_malformed (parseTime : String → Except String Time) (now later : Time)
    (ecoModeStatus : EcoModeStatus) (before : List Schedule) (entry : Schedule)
    (after : List Schedule)
    (hparse : ∀ e ∈ before, (windowOf parseTime e).isSome = true)
    (hno : ∀ e ∈ before, windowActive parseTime now e = false)
    (hbad : windowOf parseTime entry = none) :
    ∃ err, customScheduleLoop parseTime now later ecoModeStatus (before ++ entry :: after)
      = some (ecoModeStatus, some err) := by
  induction before with
  | nil =>
    unfold windowOf at hbad
    rw [List.nil_append, customScheduleLoop]
    cases hs : parseTime entry.StartTime with
    | error err => exact ⟨err, rfl⟩
    | ok start =>
      cases he : parseTime entry.EndTime with
      | error err => exact ⟨err, rfl⟩
      | ok stop => simp [hs, he] at hbad
  | cons b rest ih =>
    have hp := hparse b (List.mem_cons_self _ _)
    have hn := hno b (List.mem_cons_self _ _)
    obtain ⟨err, ih'⟩ := ih (fun e he => hparse e (List.mem_cons_of_mem _ he))
      (fun e he => hno e (List.mem_cons_of_mem _ he))
    unfold windowActive at hn
    unfold windowOf at hp hn
    refine ⟨err, ?_⟩
    rw [List.cons_append, customScheduleLoop]
    cases hs : parseTime b.StartTime with
    | error e => simp [hs] at hp
    | ok start' =>
      cases he : parseTime b.EndTime with
      | error e => simp [hs, he] at hp
      | ok stop' =>
        simp only [hs, he] at hn
        simp only [Time.After, Time.Before, hn, ih']
        simp

/-- C19, as amended. For every policy with a custom-schedule entry whose start
or end timestamp does not parse, such that every entry listed before it parses
and has no window that strictly contains `now`, `setEcoMode` returns an error
to the caller and reports no override: the status is left as it was. -/
theorem setEcoMode_malformed_entry
    (parseTime : String → Except String Time) (mustParse : String → Option Expression)
    (now later : Time) (ecoModeStatus : EcoModeStatus) (configs : EcoModeOff)
    (forecast : List CarbonForecast) (before : List Schedule) (entry : Schedule)
    (after : List Schedule)
    (hl : configs.CustomSchedule = before ++ entry :: after)
    (hbefore : ∀ e ∈ before, (windowOf parseTime e).isSome = true ∧
      windowActive parseTime now e = false)
    (hbad : windowOf parseTime entry = none) :
    ∃ err, setEcoMode parseTime mustParse now later ecoModeStatus configs forecast
      = .done (ecoModeStatus, some err) := by
  obtain ⟨err, hloop⟩ := customScheduleLoop_malformed parseTime now later ecoModeStatus before entry
    after (fun e he => (hbefore e he).1) (fun e he => (hbefore e he).2) hbad
  exact ⟨err, by simp only [setEcoMode, hl, hloop]⟩

/-- C19 as amended, on the policy whose first entry is malformed and whose
second is the window 10:00 to 11:00, at 10:30: the parse error is returned and
the status is left as it was. -/
theorem setEcoMode_malformed_entry_witness :
    ∃ err, setEcoMode parseSample mustParseSample (1685615400 * Second) (1685615400 * Second) freshStatus
        malformedFirstPolicy [] = .done (freshStatus, some err) :=
  setEcoMode_malformed_entry parseSample mustParseSample (1685615400 * Second) (1685615400 * Second) freshStatus
    malformedFirstPolicy [] [] ⟨"yesterday", "tomorrow"⟩
    [⟨"2023-06-01T10:00:00Z", "2023-06-01T11:00:00Z"⟩] rfl (by simp) (by decide)

/-- C20, failing input. With no custom schedule and a single malformed
recurrence string, `cronexpr.MustParse` panics: `setEcoMode` does not return
an error, it does not return. -/
theorem setEcoMode_malformed_recurrence_panics :
    (mustParseSample "every now and then").isSome = false ∧
    setEcoMode parseSample mustParseSample (1685620800 * Second) (1685620800 * Second) freshStatus
        malformedCronPolicy [] = .panic := by
  decide

/-! ## Wake delay and missing forecast in `Reconcile` -/

/-- C17, failing input. For a scaled object whose policy has the custom window
10:00 to 11:00, at 10:30 with a five-minute sample covering `now`:
`setEcoMode` reports the override of the window with the wake delay of thirty
minutes and one microsecond in `EcoModeStatus.RequeueAfter`, the Update writes
the default cap under that status, and `Reconcile` returns the `RequeueAfter`
of five minutes computed by `getRequeueDuration` from the duration of the
sample: the wake delay of the override is never read. -/
theorem Reconcile_ignores_override_delay :
    setEcoMode parseSample mustParseSample (1685615400 * Second) (1685615400 * Second)
        { IsDisabled := false, DisableReason := .empty, RequeueAfter := 5 * Minute }
        morningWindowPolicy windowCluster.forecast
      = .done (customScheduleStatus (1685615400 * Second) (1685613600 * Second)
          (1685617200 * Second), none) ∧
    (customScheduleStatus (1685615400 * Second) (1685613600 * Second)
        (1685617200 * Second)).RequeueAfter = 30 * Minute + Microsecond ∧
    (Reconcile insertionSortLessFunc parseSample mustParseSample (1685615400 * Second)
        windowCluster).update
      = some { MaxReplicaCount := some 100
               ecoModeStatus := customScheduleStatus (1685615400 * Second)
                 (1685613600 * Second) (1685617200 * Second)
               succeeded := true } ∧
    getRequeueDuration (1685615400 * Second) 5 = .done (5 * Minute) ∧
    (Reconcile insertionSortLessFunc parseSample mustParseSample (1685615400 * Second)
        windowCluster).exit = .done (5 * Minute, false) := by
  decide

/-- The decision part of `Reconcile` panics when no sample covers `now`, with
or without a fetch error. -/
theorem evaluate_panics_without_sample
    (srt : List CarbonIntensityConfig → List CarbonIntensityConfig)
    (parseTime : String → Except String Time) (mustParse : String → Option Expression)
    (now : Time) (spec : CarbonAwareKedaScalerSpec) (forecast : List CarbonForecast)
    (fetchErr : Option String) (st0 : EcoModeStatus)
    (hnone : findCarbonForecast forecast now = none) :
    evaluate srt parseTime mustParse now spec forecast fetchErr st0 = .panic := by
  unfold evaluate
  split
  · rfl
  · simp only [hnone]

/-- Whenever the custom resource is not reported missing and no sample covers
`now`, `Reconcile` panics before it updates the target. -/
theorem Reconcile_panics_without_sample
    (srt : List CarbonIntensityConfig → List CarbonIntensityConfig)
    (parseTime : String → Except String Time) (mustParse : String → Option Expression)
    (now : Time) (c : Cluster) (hscaler : c.scaler ≠ .notFound)
    (hnone : findCarbonForecast c.forecast now = none) :
    Reconcile srt parseTime mustParse now c = { update := none, exit := .panic } := by
  obtain ⟨initial, hinit⟩ := getRequeueDuration_five now
  unfold Reconcile
  simp only [hinit]
  cases hs : c.scaler with
  | notFound => exact absurd hs hscaler
  | failed =>
    simp only [evaluate_panics_without_sample srt parseTime mustParse now _ _ _ _ hnone]
  | found spec =>
    simp only [evaluate_panics_without_sample srt parseTime mustParse now _ _ _ _ hnone]

/-- C18, failing input. After a failed fetch (an error and no samples), and
also after a successful fetch of a series that does not cover `now`, no sample
covers `now`; `Reconcile` reads the `Duration` of the nil current forecast and
panics: no cap is written and no delay is returned. -/
theorem Reconcile_panics_on_missing_forecast :
    findCarbonForecast fetchFailedCluster.forecast (1685620800 * Second) = none ∧
    Reconcile insertionSortLessFunc parseSample mustParseSample (1685620800 * Second)
        fetchFailedCluster = { update := none, exit := .panic } ∧
    findCarbonForecast (sampleCluster "scaledobjects.keda.sh" 5).forecast
        (1685620800 * Second + 5 * Minute) = none ∧
    Reconcile insertionSortLessFunc parseSample mustParseSample
        (1685620800 * Second + 5 * Minute) (sampleCluster "scaledobjects.keda.sh" 5)
      = { update := none, exit := .panic } := by
  decide

/-! ## More on the band resolver `getMaxReplicas` -/

/-- With a non-nil sample the caller's slice after the call is the sorted one. -/
theorem getMaxReplicas_snd (srt : List CarbonIntensityConfig → List CarbonIntensityConfig)
    (f : CarbonForecast) (configs : List CarbonIntensityConfig) :
    (getMaxReplicas srt (some f) configs).2 = srt configs := by
  unfold getMaxReplicas
  simp only
  split
  · rfl
  · split <;> rfl

/-- A sort that meets the contract leaves the empty list empty. -/
theorem srt_nil (srt : List CarbonIntensityConfig → List CarbonIntensityConfig)
    (hs : SortSliceContract srt) : srt [] = [] :=
  List.perm_nil.mp (hs []).1

/-- With a non-nil sample and an empty band list `getMaxReplicas` panics,
whatever the sort does. -/
theorem getMaxReplicas_empty_panics
    (srt : List CarbonIntensityConfig → List CarbonIntensityConfig)
    (hs : SortSliceContract srt) (f : CarbonForecast) :
    (getMaxReplicas srt (some f) []).1 = .panic := by
  simp [getMaxReplicas, srt_nil srt hs, rangeConfigs]

/-- C21, failing input. With a non-nil sample and an empty band list the loop
does not run and `configs[len(configs)-1]` indexes position -1:
`getMaxReplicas` panics, it returns neither an error nor a cap. -/
theorem getMaxReplicas_empty_bands_panics :
    insertionSortLessFunc [] = [] ∧
    (getMaxReplicas insertionSortLessFunc (some (sampleOf 50)) []).1 = .panic ∧
    ∀ r, (getMaxReplicas insertionSortLessFunc (some (sampleOf 50)) []).1 ≠ .done r := by
  refine ⟨by decide, by decide, ?_⟩
  intro r h
  have hp : (getMaxReplicas insertionSortLessFunc (some (sampleOf 50)) []).1 = .panic := by
    decide
  rw [hp] at h
  exact Run.noConfusion h

/-- C22, counterexample. Called with the bands of the unit test, given as 100,
90, 40, and a sample of intensity 67, `getMaxReplicas` leaves the caller's
slice in the order 40, 90, 100: the sort is done on the caller's slice. -/
theorem getMaxReplicas_sorts_in_place_counterexample :
    (getMaxReplicas insertionSortLessFunc (some (sampleOf 67)) testConfigs).2
      = testConfigsAscending ∧
    testConfigsAscending ≠ testConfigs := by
  decide

/-- C22, as amended. With a nil sample `getMaxReplicas` leaves the caller's
band list as it was. With a non-nil sample the caller's band list after the
call is the list as sorted: the same bands, rearranged in ascending order of
threshold; it is unchanged when that rearrangement is the order it was given
in. -/
theorem getMaxReplicas_sorts_in_place
    (srt : List CarbonIntensityConfig → List CarbonIntensityConfig)
    (hs : SortSliceContract srt) (configs : List CarbonIntensityConfig) :
    (getMaxReplicas srt none configs).2 = configs ∧
    ∀ f : CarbonForecast,
      (getMaxReplicas srt (some f) configs).2 = srt configs ∧
      ((getMaxReplicas srt (some f) configs).2).Perm configs ∧
      ((getMaxReplicas srt (some f) configs).2).Sorted
        (fun a b => a.CarbonIntensityThreshold ≤ b.CarbonIntensityThreshold) ∧
      (srt configs = configs → (getMaxReplicas srt (some f) configs).2 = configs) := by
  refine ⟨rfl, ?_⟩
  intro f
  rw [getMaxReplicas_snd]
  exact ⟨rfl, (hs configs).1, (hs configs).2, id⟩

/-- C22 as amended, on the bands of the unit test: given in ascending order
they are left as they were; given as 100, 90, 40 they are left in ascending
order. -/
theorem getMaxReplicas_sorts_in_place_witness :
    (getMaxReplicas insertionSortLessFunc (some (sampleOf 67)) testConfigsAscending).2
      = testConfigsAscending ∧
    (getMaxReplicas insertionSortLessFunc none testConfigs).2 = testConfigs ∧
    ∀ f : CarbonForecast,
      (getMaxReplicas insertionSortLessFunc (some f) testConfigs).2
        = insertionSortLessFunc testConfigs ∧
      ((getMaxReplicas insertionSortLessFunc (some f) testConfigs).2).Perm testConfigs ∧
      ((getMaxReplicas insertionSortLessFunc (some f) testConfigs).2).Sorted
        (fun a b => a.CarbonIntensityThreshold ≤ b.CarbonIntensityThreshold) ∧
      (insertionSortLessFunc testConfigs = testConfigs →
        (getMaxReplicas insertionSortLessFunc (some f) testConfigs).2 = testConfigs) :=
  ⟨by decide,
    (getMaxReplicas_sorts_in_place insertionSortLessFunc insertionSortLessFunc_contract
      testConfigs).1,
    (getMaxReplicas_sorts_in_place insertionSortLessFunc insertionSortLessFunc_contract
      testConfigs).2⟩

/-- Two lists of bands with pairwise distinct thresholds that are
rearrangements of each other are sorted to the same list. -/
theorem srt_eq_of_perm (srt : List CarbonIntensityConfig → List CarbonIntensityConfig)
    (hs : SortSliceContract srt) (l₁ l₂ : List CarbonIntensityConfig)
    (hperm : l₁.Perm l₂) (hdist : DistinctThresholds l₁) : srt l₁ = srt l₂ := by
  obtain ⟨hp1, hs1⟩ := hs l₁
  obtain ⟨hp2, hs2⟩ := hs l₂
  have hsymm : ∀ {x y : CarbonIntensityConfig},
      x.CarbonIntensityThreshold ≠ y.CarbonIntensityThreshold →
      y.CarbonIntensityThreshold ≠ x.CarbonIntensityThreshold := fun h => Ne.symm h
  have hd1 : DistinctThresholds (srt l₁) := (List.Perm.pairwise_iff hsymm hp1).mpr hdist
  have hd2 : DistinctThresholds (srt l₂) :=
    (List.Perm.pairwise_iff hsymm (hp2.trans hperm.symm)).mpr hdist
  have hlt1 : (srt l₁).Sorted
      (fun a b => a.CarbonIntensityThreshold < b.CarbonIntensityThreshold) :=
    (List.Pairwise.and hs1 hd1).imp (fun h => lt_of_le_of_ne h.1 h.2)
  have hlt2 : (srt l₂).Sorted
      (fun a b => a.CarbonIntensityThreshold < b.CarbonIntensityThreshold) :=
    (List.Pairwise.and hs2 hd2).imp (fun h => lt_of_le_of_ne h.1 h.2)
  haveI : IsAntisymm CarbonIntensityConfig
      (fun a b => a.CarbonIntensityThreshold < b.CarbonIntensityThreshold) :=
    ⟨fun a b hab hba => absurd hab (not_lt.mpr (le_of_lt hba))⟩
  exact List.eq_of_perm_of_sorted (hp1.trans (hperm.trans hp2.symm)) hlt1 hlt2

/-- With a non-nil sample and a non-empty band list `getMaxReplicas` returns a
cap with a nil error. -/
theorem getMaxReplicas_done (srt : List CarbonIntensityConfig → List CarbonIntensityConfig)
    (hs : SortSliceContract srt) (f : CarbonForecast)
    (configs : List CarbonIntensityConfig) (hne : configs ≠ []) :
    ∃ cap, (getMaxReplicas srt (some f) configs).1 = .done (cap, none) := by
  have hne' : srt configs ≠ [] := fun h0 => hne (by simpa [h0] using (hs configs).1.symm)
  unfold getMaxReplicas
  simp only
  split
  · exact ⟨_, rfl⟩
  · split
    · exact ⟨_, rfl⟩
    · rename_i hlast
      exact absurd (List.getLast?_eq_none_iff.mp hlast) hne'

/-- C23. For every non-nil sample and every two non-empty band lists that are
rearrangements of each other and have pairwise distinct thresholds,
`getMaxReplicas` returns the same `maxReplicas`, with a nil error, for both:
the result does not depend on the order in which the bands are supplied. -/
theorem getMaxReplicas_order_independent
    (srt : List CarbonIntensityConfig → List CarbonIntensityConfig)
    (hs : SortSliceContract srt) (f : CarbonForecast)
    (l₁ l₂ : List CarbonIntensityConfig) (hne₁ : l₁ ≠ []) (_hne₂ : l₂ ≠ [])
    (hperm : l₁.Perm l₂) (hdist : DistinctThresholds l₁) :
    ∃ cap, (getMaxReplicas srt (some f) l₁).1 = .done (cap, none) ∧
      (getMaxReplicas srt (some f) l₂).1 = .done (cap, none) := by
  obtain ⟨cap, hcap⟩ := getMaxReplicas_done srt hs f l₁ hne₁
  refine ⟨cap, hcap, ?_⟩
  have heq := srt_eq_of_perm srt hs l₁ l₂ hperm hdist
  unfold getMaxReplicas at hcap ⊢
  simp only [← heq]
  exact hcap

/-- C23, on the bands of the unit test: supplied in descending order, as the
test does, or in ascending order, intensity 67 yields the cap 20. -/
theorem getMaxReplicas_order_independent_witness :
    (getMaxReplicas insertionSortLessFunc (some (sampleOf 67)) testConfigs).1
      = .done (some 20, none) ∧
    (getMaxReplicas insertionSortLessFunc (some (sampleOf 67)) testConfigsAscending).1
      = .done (some 20, none) ∧
    ∃ cap, (getMaxReplicas insertionSortLessFunc (some (sampleOf 67)) testConfigs).1
        = .done (cap, none) ∧
      (getMaxReplicas insertionSortLessFunc (some (sampleOf 67)) testConfigsAscending).1
        = .done (cap, none) :=
  ⟨by decide, by decide,
    getMaxReplicas_order_independent insertionSortLessFunc insertionSortLessFunc_contract
      (sampleOf 67) testConfigs testConfigsAscending (by decide) (by decide) (by decide)
      (by decide)⟩

/-- When the intensity selects no band, `getMaxReplicas` returns the cap of the
last band of the sorted list. -/
theorem getMaxReplicas_of_none_selected
    (srt : List CarbonIntensityConfig → List CarbonIntensityConfig) (f : CarbonForecast)
    (configs : List CarbonIntensityConfig) (last : CarbonIntensityConfig)
    (hno : ∀ i e, ¬ SelectsBand f.Value (srt configs) i e)
    (hlast : (srt configs).getLast? = some last) :
    (getMaxReplicas srt (some f) configs).1 = .done (last.MaxReplicas, none) := by
  have hloop : rangeConfigs f.Value (srt configs) 0 (srt configs) = none :=
    rangeConfigs_none f.Value (srt configs) (srt configs) 0 rfl (fun j e' _ => hno j e')
  simp only [getMaxReplicas, hloop, hlast]

/-- An intensity above every threshold selects no band. -/
theorem not_selectsBand_of_above
    (srt : List CarbonIntensityConfig → List CarbonIntensityConfig)
    (hs : SortSliceContract srt) (v : Float64) (configs : List CarbonIntensityConfig)
    (habove : ∀ c ∈ configs,
      Float64.gt v (Float64.ofInt32 c.CarbonIntensityThreshold) = true) :
    ∀ i e, ¬ SelectsBand v (srt configs) i e := by
  intro i e hsel
  have hmem : e ∈ configs := by
    obtain ⟨hi, hie⟩ := List.getElem?_eq_some.mp hsel.1
    exact (hs configs).1.mem_iff.mp (hie ▸ List.getElem_mem hi)
  have := Float64.le_eq_false_of_lt _ _ (habove e hmem)
  rw [hsel.2.2] at this
  exact Bool.noConfusion this

/-- A value at most zero is not above a non-negative bound. -/
theorem Float64.lt_eq_false_of_le_zero (v : Float64) (bound : Int) (hb : 0 ≤ bound)
    (hv : Float64.le v (Float64.ofInt32 0) = true) :
    Float64.lt (Float64.ofInt32 bound) v = false := by
  cases v with
  | nan => simp [Float64.le] at hv
  | negInf => simp [Float64.lt, Float64.ofInt32]
  | posInf => simp [Float64.le, Float64.ofInt32] at hv
  | finite q =>
    simp only [Float64.le, Float64.ofInt32, decide_eq_true_eq, Int.cast_zero] at hv
    simp only [Float64.lt, Float64.ofInt32, decide_eq_false_iff_not, not_lt]
    have : (0 : ℚ) ≤ (bound : ℚ) := by exact_mod_cast hb
    linarith

/-- The lower bound of every band of a list with non-negative thresholds is
non-negative. -/
theorem lowerThreshold_nonneg (bands : List CarbonIntensityConfig)
    (hthr : ∀ c ∈ bands, 0 ≤ c.CarbonIntensityThreshold) (i : Nat) :
    0 ≤ lowerThreshold bands i := by
  cases i with
  | zero => simp [lowerThreshold]
  | succ k =>
    cases hk : bands[k]? with
    | none => simp [lowerThreshold, hk]
    | some prev =>
      obtain ⟨hlt, hprev⟩ := List.getElem?_eq_some.mp hk
      have := hthr prev (hprev ▸ List.getElem_mem hlt)
      simpa [lowerThreshold, hk] using this

/-- C29. For every non-empty band list whose thresholds are all non-negative
and every non-nil sample whose intensity is at most zero, the intensity
selects no band (the lower bound 0 of the first band is exclusive), and
`getMaxReplicas` returns, with a nil error, the `MaxReplicas` of a band with
the highest threshold, the last band of the sorted list: the result it returns
for every intensity above every threshold. -/
theorem getMaxReplicas_nonpositive_intensity
    (srt : List CarbonIntensityConfig → List CarbonIntensityConfig)
    (hs : SortSliceContract srt) (f : CarbonForecast)
    (configs : List CarbonIntensityConfig) (hne : configs ≠ [])
    (hthr : ∀ c ∈ configs, 0 ≤ c.CarbonIntensityThreshold)
    (hv : Float64.le f.Value (Float64.ofInt32 0) = true) :
    (∀ i e, ¬ SelectsBand f.Value (srt configs) i e) ∧
    ∃ c ∈ configs,
      (∀ c' ∈ configs, c'.CarbonIntensityThreshold ≤ c.CarbonIntensityThreshold) ∧
      (srt configs).getLast? = some c ∧
      (getMaxReplicas srt (some f) configs).1 = .done (c.MaxReplicas, none) ∧
      ∀ f' : CarbonForecast,
        (∀ c' ∈ configs,
          Float64.gt f'.Value (Float64.ofInt32 c'.CarbonIntensityThreshold) = true) →
        (getMaxReplicas srt (some f') configs).1 = (getMaxReplicas srt (some f) configs).1 := by
  obtain ⟨hperm, -⟩ := hs configs
  have hno : ∀ i e, ¬ SelectsBand f.Value (srt configs) i e := by
    intro i e hsel
    have hthr' : ∀ c ∈ srt configs, 0 ≤ c.CarbonIntensityThreshold :=
      fun c hc => hthr c (hperm.mem_iff.mp hc)
    have := Float64.lt_eq_false_of_le_zero f.Value _
      (lowerThreshold_nonneg (srt configs) hthr' i) hv
    rw [hsel.2.1] at this
    exact Bool.noConfusion this
  have hne' : srt configs ≠ [] := fun h0 => hne (by simpa [h0] using hperm.symm)
  obtain ⟨last, hlast⟩ : ∃ last, (srt configs).getLast? = some last := by
    cases hl : (srt configs).getLast? with
    | none => exact absurd (List.getLast?_eq_none_iff.mp hl) hne'
    | some last => exact ⟨last, rfl⟩
  obtain ⟨hin, hmax⟩ := getLast?_sorted_max srt hs configs last hlast
  have hres := getMaxReplicas_of_none_selected srt f configs last hno hlast
  refine ⟨hno, last, hin, hmax, hlast, hres, ?_⟩
  intro f' habove
  rw [hres]
  exact getMaxReplicas_of_none_selected srt f' configs last
    (not_selectsBand_of_above srt hs f'.Value configs habove) hlast

/-- C29, on the bands of the unit test: intensities 0 and -5 yield the cap 10
of the band with threshold 100, as intensity 101 does. -/
theorem getMaxReplicas_nonpositive_intensity_witness :
    (getMaxReplicas insertionSortLessFunc (some (sampleOf 0)) testConfigs).1
      = .done (some 10, none) ∧
    (getMaxReplicas insertionSortLessFunc (some (sampleOf (-5))) testConfigs).1
      = .done (some 10, none) ∧
    (getMaxReplicas insertionSortLessFunc (some (sampleOf 101)) testConfigs).1
      = .done (some 10, none) ∧
    ((∀ i e, ¬ SelectsBand (sampleOf 0).Value (insertionSortLessFunc testConfigs) i e) ∧
    ∃ c ∈ testConfigs,
      (∀ c' ∈ testConfigs, c'.CarbonIntensityThreshold ≤ c.CarbonIntensityThreshold) ∧
      (insertionSortLessFunc testConfigs).getLast? = some c ∧
      (getMaxReplicas insertionSortLessFunc (some (sampleOf 0)) testConfigs).1
        = .done (c.MaxReplicas, none) ∧
      ∀ f' : CarbonForecast,
        (∀ c' ∈ testConfigs,
          Float64.gt f'.Value (Float64.ofInt32 c'.CarbonIntensityThreshold) = true) →
        (getMaxReplicas insertionSortLessFunc (some f') testConfigs).1
          = (getMaxReplicas insertionSortLessFunc (some (sampleOf 0)) testConfigs).1) :=
  ⟨by decide, by decide, by decide,
    getMaxReplicas_nonpositive_intensity insertionSortLessFunc insertionSortLessFunc_contract
      (sampleOf 0) testConfigs (by decide) (by decide) (by decide)⟩

/-! ## Frame and failure behaviour of `setEcoMode` -/

/-- The three ways the custom-schedule loop can end: it runs to its end, it
returns a parse error with the status as it was, or it returns the status of
a window with a nil error. -/
theorem customScheduleLoop_cases (parseTime : String → Except String Time) (now later : Time)
    (ecoModeStatus : EcoModeStatus) (entries : List Schedule) :
    customScheduleLoop parseTime now later ecoModeStatus entries = none ∨
    (∃ err, customScheduleLoop parseTime now later ecoModeStatus entries
      = some (ecoModeStatus, some err)) ∨
    (∃ start stop, customScheduleLoop parseTime now later ecoModeStatus entries
      = some (customScheduleStatus later start stop, none)) := by
  induction entries with
  | nil => exact Or.inl rfl
  | cons entry rest ih =>
    rw [customScheduleLoop]
    cases hs : parseTime entry.StartTime with
    | error err => exact Or.inr (Or.inl ⟨err, rfl⟩)
    | ok start =>
      cases he : parseTime entry.EndTime with
      | error err => exact Or.inr (Or.inl ⟨err, rfl⟩)
      | ok stop =>
        simp only
        split
        · exact Or.inr (Or.inr ⟨start, stop, by simp [customScheduleStatus]⟩)
        · exact ih

/-- The three ways the recurring-schedule loop can end: a panic, running to its
end, or the status of a recurring rule with a nil error. -/
theorem recurringScheduleLoop_cases (mustParse : String → Option Expression) (now : Time)
    (entries : List String) :
    recurringScheduleLoop mustParse now entries = .panic ∨
    recurringScheduleLoop mustParse now entries = .done none ∨
    (∃ entry last, recurringScheduleLoop mustParse now entries
      = .done (some (recurringScheduleStatus now entry last, none))) := by
  induction entries with
  | nil => exact Or.inr (Or.inl rfl)
  | cons entry rest ih =>
    rw [recurringScheduleLoop]
    cases hm : mustParse entry with
    | none => exact Or.inl rfl
    | some expr =>
      simp only
      split
      · split
        · exact Or.inl rfl
        · rename_i last _
          exact Or.inr (Or.inr ⟨entry, last, rfl⟩)
      · exact ih

/-- The intensity-duration block leaves the status as it was when the rule does
not fire, and sets `IsDisabled` and `DisableReason` only when it fires. -/
theorem carbonIntensityDurationBlock_eq (now : Time) (ecoModeStatus : EcoModeStatus)
    (configs : EcoModeOff) (forecast : List CarbonForecast) :
    carbonIntensityDurationBlock now ecoModeStatus configs forecast
      = if intensityRuleFires now configs forecast = true
        then carbonIntensityStatus ecoModeStatus configs else ecoModeStatus := by
  unfold intensityRuleFires carbonIntensityDurationBlock
  by_cases hD : configs.CarbonIntensityDuration.OverrideEcoAfterDurationInMins > 0
  · simp only [if_pos hD]
    split
    · simp [carbonIntensityStatus]
    · simp [freshStatus]
  · simp [if_neg hD, freshStatus]

/-- The ways `setEcoMode` can end: a panic; a parse error with the status as it
was; the status of a custom window; the status of a recurring rule; or the
status that the intensity-duration block leaves. -/
theorem setEcoMode_cases (parseTime : String → Except String Time)
    (mustParse : String → Option Expression) (now later : Time) (ecoModeStatus : EcoModeStatus)
    (configs : EcoModeOff) (forecast : List CarbonForecast) :
    setEcoMode parseTime mustParse now later ecoModeStatus configs forecast = .panic ∨
    (∃ err, setEcoMode parseTime mustParse now later ecoModeStatus configs forecast
      = .done (ecoModeStatus, some err)) ∨
    (∃ start stop, setEcoMode parseTime mustParse now later ecoModeStatus configs forecast
      = .done (customScheduleStatus later start stop, none)) ∨
    (∃ entry last, setEcoMode parseTime mustParse now later ecoModeStatus configs forecast
      = .done (recurringScheduleStatus now entry last, none)) ∨
    setEcoMode parseTime mustParse now later ecoModeStatus configs forecast
      = .done (carbonIntensityDurationBlock now ecoModeStatus configs forecast, none) := by
  unfold setEcoMode
  rcases customScheduleLoop_cases parseTime now later ecoModeStatus configs.CustomSchedule with
    h | ⟨err, h⟩ | ⟨start, stop, h⟩
  · rcases recurringScheduleLoop_cases mustParse now configs.RecurringSchedule with
      hr | hr | ⟨entry, last, hr⟩
    · exact Or.inl (by simp only [h, hr])
    · exact Or.inr (Or.inr (Or.inr (Or.inr (by simp only [h, hr]))))
    · exact Or.inr (Or.inr (Or.inr (Or.inl ⟨entry, last, by simp only [h, hr]⟩)))
  · exact Or.inr (Or.inl ⟨err, by simp only [h]⟩)
  · exact Or.inr (Or.inr (Or.inl ⟨start, stop, by simp only [h]⟩))

/-- C24. Whenever `setEcoMode` returns a status whose `DisableReason` is the
intensity-duration reason and was not that reason before the call, it returns
a nil error and the status it was given with `IsDisabled` set to true and
`DisableReason` set to that reason: `RequeueAfter` is exactly as the caller
passed it in. -/
theorem setEcoMode_intensity_keeps_requeue
    (parseTime : String → Except String Time) (mustParse : String → Option Expression)
    (now later : Time) (ecoModeStatus : EcoModeStatus) (configs : EcoModeOff)
    (forecast : List CarbonForecast) (st : EcoModeStatus) (err : Option String)
    (threshold : Int) (duration : Duration)
    (h : setEcoMode parseTime mustParse now later ecoModeStatus configs forecast = .done (st, err))
    (hreason : st.DisableReason = .carbonIntensity threshold duration)
    (hnew : ecoModeStatus.DisableReason ≠ .carbonIntensity threshold duration) :
    err = none ∧ st.IsDisabled = true ∧ st.RequeueAfter = ecoModeStatus.RequeueAfter ∧
      st = { ecoModeStatus with
             IsDisabled := true
             DisableReason := .carbonIntensity threshold duration } := by
  rcases setEcoMode_cases parseTime mustParse now later ecoModeStatus configs forecast with
    hc | ⟨e, hc⟩ | ⟨start, stop, hc⟩ | ⟨entry, last, hc⟩ | hc
  · rw [hc] at h
    exact Run.noConfusion h
  · rw [hc] at h
    obtain ⟨rfl, -⟩ := Prod.mk.inj (Run.done.inj h)
    exact absurd hreason hnew
  · rw [hc] at h
    obtain ⟨rfl, -⟩ := Prod.mk.inj (Run.done.inj h)
    simp [customScheduleStatus] at hreason
  · rw [hc] at h
    obtain ⟨rfl, -⟩ := Prod.mk.inj (Run.done.inj h)
    simp [recurringScheduleStatus] at hreason
  · rw [hc, carbonIntensityDurationBlock_eq] at h
    obtain ⟨hst, herr⟩ := Prod.mk.inj (Run.done.inj h)
    by_cases hf : intensityRuleFires now configs forecast = true
    · rw [if_pos hf] at hst
      subst hst
      simp only [carbonIntensityStatus, DisableReason.carbonIntensity.injEq] at hreason
      obtain ⟨rfl, rfl⟩ := hreason
      exact ⟨herr.symm, rfl, rfl, rfl⟩
    · rw [if_neg hf] at hst
      subst hst
      exact absurd hreason hnew

/-- C24, on a policy with threshold 50 over one minute and a forecast of value
90: called at noon with a status whose wake delay is five minutes, `setEcoMode`
disables eco mode with the intensity-duration reason and the wake delay is
still five minutes. -/
theorem setEcoMode_intensity_keeps_requeue_witness :
    setEcoMode parseSample mustParseSample (1685620800 * Second) (1685620800 * Second) defaultDelayStatus
        (intensityPolicy 1) highDayForecast
      = .done ({ IsDisabled := true
                 DisableReason := .carbonIntensity 50 (1 * Minute)
                 RequeueAfter := 5 * Minute }, none) ∧
    ((none : Option String) = none ∧
      (carbonIntensityStatus defaultDelayStatus (intensityPolicy 1)).IsDisabled = true ∧
      (carbonIntensityStatus defaultDelayStatus (intensityPolicy 1)).RequeueAfter
        = defaultDelayStatus.RequeueAfter ∧
      carbonIntensityStatus defaultDelayStatus (intensityPolicy 1)
        = { defaultDelayStatus with
            IsDisabled := true
            DisableReason := .carbonIntensity 50 (1 * Minute) }) :=
  ⟨by decide,
    setEcoMode_intensity_keeps_requeue parseSample mustParseSample (1685620800 * Second) (1685620800 * Second)
      defaultDelayStatus (intensityPolicy 1) highDayForecast
      (carbonIntensityStatus defaultDelayStatus (intensityPolicy 1)) none 50 (1 * Minute)
      (by decide) (by decide) (by decide)⟩

/-- C26, failing input. At 23:59:00 UTC the rule `* * * * *` fires next at
00:00:00, one minute away, so the rule is taken as active; one whole minute is
left in the day, `NextN` returns that single firing, which falls on the next
day and is cut off: the list of same-day firings is empty and taking its last
element panics. At 23:59:59 the list asked of `NextN` has length zero. -/
theorem setEcoMode_same_day_firings_empty :
    Time.Sub (everyMinute.Next (1685663940 * Second)) (1685663940 * Second) = Minute ∧
    everyMinute.NextN (1685663940 * Second) 1 = [1685664000 * Second] ∧
    firingsToday everyMinute (1685663940 * Second) = [] ∧
    setEcoMode parseSample mustParseSample (1685663940 * Second) (1685663940 * Second) freshStatus
        everyMinutePolicy [] = .panic ∧
    firingsToday everyMinute (1685663999 * Second) = [] ∧
    setEcoMode parseSample mustParseSample (1685663999 * Second) (1685663999 * Second) freshStatus
        everyMinutePolicy [] = .panic := by
  decide

/-- C27. For every input status, policy and forecast for which `setEcoMode`
returns an error, the status after the call is exactly the status passed in. -/
theorem setEcoMode_atomic_on_error
    (parseTime : String → Except String Time) (mustParse : String → Option Expression)
    (now later : Time) (ecoModeStatus : EcoModeStatus) (configs : EcoModeOff)
    (forecast : List CarbonForecast) (st : EcoModeStatus) (err : String)
    (h : setEcoMode parseTime mustParse now later ecoModeStatus configs forecast
      = .done (st, some err)) :
    st = ecoModeStatus := by
  rcases setEcoMode_cases parseTime mustParse now later ecoModeStatus configs forecast with
    hc | ⟨e, hc⟩ | ⟨start, stop, hc⟩ | ⟨entry, last, hc⟩ | hc
  · rw [hc] at h
    exact Run.noConfusion h
  · rw [hc] at h
    exact (Prod.mk.inj (Run.done.inj h)).1.symm
  · rw [hc] at h
    exact Option.noConfusion (Prod.mk.inj (Run.done.inj h)).2
  · rw [hc] at h
    exact Option.noConfusion (Prod.mk.inj (Run.done.inj h)).2
  · rw [hc] at h
    exact Option.noConfusion (Prod.mk.inj (Run.done.inj h)).2

/-- C27, on the policy whose first custom entry is malformed and whose second
is a window that contains 10:30, with a forecast on which the
intensity-duration rule would fire: the parse error is returned and the status
passed in, with its wake delay of five minutes, is returned as it was. -/
theorem setEcoMode_atomic_on_error_witness :
    setEcoMode parseSample mustParseSample (1685615400 * Second) (1685615400 * Second) defaultDelayStatus
        malformedFirstPolicy highDayForecast
      = .done (defaultDelayStatus, some "cannot parse yesterday") ∧
    defaultDelayStatus = defaultDelayStatus :=
  ⟨by decide,
    setEcoMode_atomic_on_error parseSample mustParseSample (1685615400 * Second) (1685615400 * Second)
      defaultDelayStatus malformedFirstPolicy highDayForecast defaultDelayStatus
      "cannot parse yesterday" (by decide)⟩

/-- A sample whose window test holds at some instant, and whose duration in
minutes converts to nanoseconds without overflow, has a positive duration. -/
theorem duration_pos_of_test (cf : CarbonForecast) (t : Time)
    (hfit : wrapInt64 (cf.Duration * Minute) = cf.Duration * Minute)
    (h : ((Time.Equal t cf.Timestamp || Time.After t cf.Timestamp) &&
        Time.Before t (Time.Add cf.Timestamp (wrapInt64 (cf.Duration * Minute)))) = true) :
    0 < cf.Duration := by
  simp only [hfit, Time.Equal, Time.After, Time.Before, Time.Add, Bool.and_eq_true,
    Bool.or_eq_true, decide_eq_true_eq] at h
  obtain ⟨h1, h2⟩ := h
  have hle : (cf.Timestamp : Int) ≤ t := by
    rcases h1 with h1 | h1
    · exact le_of_eq h1.symm
    · exact le_of_lt h1
  have hlt : (t : Int) < cf.Timestamp + cf.Duration * Minute := h2
  have hpos : (0 : Int) < cf.Duration * 60000000000 := by
    have : (Minute : Int) = 60000000000 := rfl
    rw [this] at hlt
    linarith
  by_contra hneg
  have : cf.Duration * 60000000000 ≤ 0 := by
    have h0 : cf.Duration ≤ 0 := not_lt.mp hneg
    nlinarith
  linarith

/-- What `evaluate` leaves in the locals when it gets to the `switch`: the
sample found for `now`, and as requeue interval 5 after a fetch error and the
duration of that sample otherwise. -/
theorem evaluate_requeueInterval (srt : List CarbonIntensityConfig → List CarbonIntensityConfig)
    (parseTime : String → Except String Time) (mustParse : String → Option Expression)
    (now : Time) (spec : CarbonAwareKedaScalerSpec) (forecast : List CarbonForecast)
    (fetchErr : Option String) (st0 : EcoModeStatus) (l : Locals)
    (h : evaluate srt parseTime mustParse now spec forecast fetchErr st0 = .done l) :
    findCarbonForecast forecast now = some l.currentforecast ∧
      l.requeueInterval = (if fetchErr.isSome then 5 else l.currentforecast.Duration) := by
  unfold evaluate at h
  split at h
  · exact absurd h (by simp)
  · split at h
    · exact absurd h (by simp)
    · rename_i cf hfind
      dsimp only at h
      split at h
      · exact absurd h (by simp)
      · split at h
        · exact absurd h (by simp)
        · cases h
          exact ⟨hfind, rfl⟩

/-- C25. A sample that `findCarbonForecast` returns, whose duration in minutes
converts to nanoseconds without overflow, has a strictly positive duration;
hence `getRequeueDuration` returns when it is called with that duration, and
whenever `Reconcile` gets past its decision part on that sample its requeue
interval is positive (5 after a fetch error, the duration of the sample
otherwise) and every return through `getRequeueDuration` ends normally. -/
theorem findCarbonForecast_positive_duration (forecast : List CarbonForecast) (now : Time)
    (cf : CarbonForecast) (hfind : findCarbonForecast forecast now = some cf)
    (hfit : wrapInt64 (cf.Duration * Minute) = cf.Duration * Minute) :
    0 < cf.Duration ∧
    (∀ t, ∃ d, getRequeueDuration t cf.Duration = .done d) ∧
    (∀ srt parseTime mustParse spec fetchErr st0 l,
      evaluate srt parseTime mustParse now spec forecast fetchErr st0 = .done l →
        l.currentforecast = cf ∧ 0 < l.requeueInterval ∧
        (fetchErr = none → l.requeueInterval = cf.Duration) ∧
        ∀ update failed, ∃ d,
          (returnRequeue now l.requeueInterval update failed).exit = .done (d, failed)) := by
  have hpos : 0 < cf.Duration := by
    unfold findCarbonForecast at hfind
    exact duration_pos_of_test cf now hfit (by simpa using List.find?_some hfind)
  have hret : ∀ (t : Time) (k : Int), 0 < k → ∃ d, getRequeueDuration t k = .done d := by
    intro t k hk
    unfold getRequeueDuration
    exact ⟨_, if_neg (ne_of_gt hk)⟩
  refine ⟨hpos, fun t => hret t _ hpos, ?_⟩
  intro srt parseTime mustParse spec fetchErr st0 l hl
  obtain ⟨hcf, hint⟩ := evaluate_requeueInterval srt parseTime mustParse now spec forecast
    fetchErr st0 l hl
  have hsame : l.currentforecast = cf := by
    rw [hfind] at hcf
    exact (Option.some.inj hcf).symm
  have hlpos : 0 < l.requeueInterval := by
    rw [hint, hsame]
    split
    · decide
    · exact hpos
  refine ⟨hsame, hlpos, ?_, ?_⟩
  · intro hnone
    rw [hint, hsame, hnone]
    rfl
  · intro update failed
    obtain ⟨d, hd⟩ := hret now _ hlpos
    exact ⟨d, by simp [returnRequeue, hd, Run.bind]⟩

/-- C25, on the cluster whose forecast is one five-minute sample starting at
noon: at 12:02 that sample is the one found, its duration 5 is positive, and
`getRequeueDuration` returns three minutes. -/
theorem findCarbonForecast_positive_duration_witness :
    findCarbonForecast (sampleCluster "scaledobject" 0).forecast (1685620920 * Second)
      = some ⟨1685620800 * Second, 5, .finite 50⟩ ∧
    getRequeueDuration (1685620920 * Second) 5 = .done (3 * Minute) ∧
    (0 : Int) < (⟨1685620800 * Second, 5, .finite 50⟩ : CarbonForecast).Duration :=
  ⟨by decide, by decide,
    (findCarbonForecast_positive_duration (sampleCluster "scaledobject" 0).forecast
      (1685620920 * Second) ⟨1685620800 * Second, 5, .finite 50⟩ (by decide) (by decide)).1⟩

/-! ## Monotonicity of the intensity-duration rule -/

/-- The comparison `v >= float64(T)` is kept when the threshold is lowered. -/
theorem Float64.ge_ofInt32_mono (v : Float64) (T T' : Int) (hT : T' ≤ T)
    (h : v.ge (Float64.ofInt32 T) = true) : v.ge (Float64.ofInt32 T') = true := by
  cases v with
  | nan => simp [Float64.ge, Float64.le, Float64.ofInt32] at h
  | negInf => simp [Float64.ge, Float64.le, Float64.ofInt32] at h
  | posInf => simp [Float64.ge, Float64.le, Float64.ofInt32]
  | finite q =>
    simp only [Float64.ge, Float64.le, Float64.ofInt32, decide_eq_true_eq] at h ⊢
    have : (T' : ℚ) ≤ (T : ℚ) := by exact_mod_cast hT
    linarith

/-- Within the range where a number of minutes fits in a `time.Duration`, the
intensity-duration rule is monotone: if it fires for threshold `T` over `D`
minutes, it fires for every lower threshold over every shorter positive
duration. -/
theorem intensityRuleFires_mono_in_range (now : Time) (configs configs' : EcoModeOff)
    (forecast : List CarbonForecast)
    (hT : configs'.CarbonIntensityDuration.CarbonIntensityThreshold
      ≤ configs.CarbonIntensityDuration.CarbonIntensityThreshold)
    (hpos : 0 < configs'.CarbonIntensityDuration.OverrideEcoAfterDurationInMins)
    (hD : configs'.CarbonIntensityDuration.OverrideEcoAfterDurationInMins
      ≤ configs.CarbonIntensityDuration.OverrideEcoAfterDurationInMins)
    (hmax : configs.CarbonIntensityDuration.OverrideEcoAfterDurationInMins ≤ maxWholeMinutes)
    (h : intensityRuleFires now configs forecast = true) :
    intensityRuleFires now configs' forecast = true := by
  unfold intensityRuleFires at h ⊢
  rw [carbonIntensityDurationBlock_fires_iff now freshStatus configs forecast rfl
    (lt_of_lt_of_le hpos hD) hmax] at h
  rw [carbonIntensityDurationBlock_fires_iff now freshStatus configs' forecast rfl hpos
    (le_trans hD hmax)]
  intro m hm
  obtain ⟨cf, hcf, hge⟩ := h m (lt_of_lt_of_le hm hD)
  exact ⟨cf, hcf, Float64.ge_ofInt32_mono _ _ _ hT hge⟩

/-- C30, failing input. At noon of 1 June 2023, with an empty forecast and the
threshold 50, the rule fires for the duration 307445735 minutes: the product
with `time.Minute` wraps to zero whole minutes and the count 0 equals it. For
the shorter duration 5 with the same threshold the rule does not fire, and
`setEcoMode` leaves eco mode enabled. -/
theorem setEcoMode_intensity_not_monotone :
    (0 : Int) < 5 ∧ (5 : Int) ≤ 307445735 ∧ (307445735 : Int) < 2 ^ 31 ∧
    wholeMinutes (wrapInt64 (307445735 * Minute)) = 0 ∧
    intensityRuleFires (1685620800 * Second) (intensityPolicy 307445735) [] = true ∧
    intensityRuleFires (1685620800 * Second) (intensityPolicy 5) [] = false ∧
    setEcoMode parseSample mustParseSample (1685620800 * Second) (1685620800 * Second) freshStatus
        (intensityPolicy 307445735) []
      = .done ({ IsDisabled := true
                 DisableReason := .carbonIntensity 50 26290448384
                 RequeueAfter := 0 }, none) ∧
    setEcoMode parseSample mustParseSample (1685620800 * Second) (1685620800 * Second) freshStatus
        (intensityPolicy 5) [] = .done (freshStatus, none) := by
  decide

/-! ## The cap that `Reconcile` writes, cause by cause -/

/-- A sample that `findCarbonForecast` returns has a non-zero duration, so
`getRequeueDuration` returns for it. -/
theorem found_duration_requeue (cfs : List CarbonForecast) (t now : Time) (cf : CarbonForecast)
    (hfind : findCarbonForecast cfs t = some cf) :
    cf.Duration ≠ 0 ∧ ∃ d, getRequeueDuration now cf.Duration = .done d := by
  have hne : cf.Duration ≠ 0 := by
    intro h0
    unfold findCarbonForecast at hfind
    have htest := List.find?_some hfind
    simp only [h0, Time.Equal, Time.After, Time.Before, Time.Add, Bool.and_eq_true,
      Bool.or_eq_true, decide_eq_true_eq] at htest
    obtain ⟨h1, h2⟩ := htest
    have hw : wrapInt64 (0 * Minute) = 0 := by decide
    rw [hw] at h2
    have h2' : (t : Int) < cf.Timestamp := by simpa using h2
    rcases h1 with h1 | h1
    · rw [h1] at h2'
      exact lt_irrefl _ h2'
    · exact lt_irrefl _ (lt_trans h1 h2')
  refine ⟨hne, ?_⟩
  unfold getRequeueDuration
  exact ⟨_, if_neg hne⟩

/-- With a non-nil sample `getMaxReplicas` returns no error. -/
theorem getMaxReplicas_some_no_error
    (srt : List CarbonIntensityConfig → List CarbonIntensityConfig) (cf : CarbonForecast)
    (configs : List CarbonIntensityConfig) (m : Option Int) (err : String) :
    (getMaxReplicas srt (some cf) configs).1 ≠ .done (m, some err) := by
  unfold getMaxReplicas
  simp only
  split
  · simp
  · split <;> simp

/-- The decision part of `Reconcile` after a fetch error, when the fetcher
still returned a sample that covers `now`: eco mode is disabled with the error
as reason, the cap is the default, and the requeue interval is 5. -/
theorem evaluate_fetch_error (srt : List CarbonIntensityConfig → List CarbonIntensityConfig)
    (parseTime : String → Except String Time) (mustParse : String → Option Expression)
    (now : Time) (spec : CarbonAwareKedaScalerSpec) (forecast : List CarbonForecast)
    (err : String) (st0 : EcoModeStatus) (cf : CarbonForecast) (initial : Duration)
    (hfind : findCarbonForecast forecast now = some cf)
    (hinit : getRequeueDuration now 5 = .done initial) :
    evaluate srt parseTime mustParse now spec forecast (some err) st0
      = .done { ecoModeStatus := errorStatus err initial
                maxReplicaCount := some spec.EcoModeOff.MaxReplicas
                requeueInterval := 5
                currentforecast := cf } := by
  simp [evaluate, fetchStep, disableOnError, hinit, Run.bind, hfind, ecoModeStep,
    maxReplicasStep, errorStatus]

/-- The decision part of `Reconcile` when `setEcoMode` returns an error: eco
mode is disabled with the error as reason and the cap is the default. -/
theorem evaluate_setEcoMode_error
    (srt : List CarbonIntensityConfig → List CarbonIntensityConfig)
    (parseTime : String → Except String Time) (mustParse : String → Option Expression)
    (now : Time) (spec : CarbonAwareKedaScalerSpec) (forecast : List CarbonForecast)
    (st0 st : EcoModeStatus) (err : String) (cf : CarbonForecast) (d : Duration)
    (hfind : findCarbonForecast forecast now = some cf)
    (hst0 : st0.IsDisabled = false)
    (hset : setEcoMode parseTime mustParse now now st0 spec.EcoModeOff forecast
      = .done (st, some err))
    (hd : getRequeueDuration now cf.Duration = .done d) :
    evaluate srt parseTime mustParse now spec forecast none st0
      = .done { ecoModeStatus := errorStatus err d
                maxReplicaCount := some spec.EcoModeOff.MaxReplicas
                requeueInterval := cf.Duration
                currentforecast := cf } := by
  simp [evaluate, fetchStep, disableOnError, hd, Run.bind, hfind, ecoModeStep, hst0, hset,
    maxReplicasStep, errorStatus]

/-- The decision part of `Reconcile` when `setEcoMode` disables eco mode
without an error: the status is the one `setEcoMode` left and the cap is not
set; `getMaxReplicas` is not called. -/
theorem evaluate_override
    (srt : List CarbonIntensityConfig → List CarbonIntensityConfig)
    (parseTime : String → Except String Time) (mustParse : String → Option Expression)
    (now : Time) (spec : CarbonAwareKedaScalerSpec) (forecast : List CarbonForecast)
    (st0 st : EcoModeStatus) (cf : CarbonForecast)
    (hfind : findCarbonForecast forecast now = some cf)
    (hst0 : st0.IsDisabled = false)
    (hset : setEcoMode parseTime mustParse now now st0 spec.EcoModeOff forecast
      = .done (st, none))
    (hdis : st.IsDisabled = true) :
    evaluate srt parseTime mustParse now spec forecast none st0
      = .done { ecoModeStatus := st
                maxReplicaCount := none
                requeueInterval := cf.Duration
                currentforecast := cf } := by
  simp [evaluate, fetchStep, hfind, ecoModeStep, hst0, hset, maxReplicasStep, hdis]

/-- The decision part of `Reconcile` when `setEcoMode` leaves eco mode enabled
and `getMaxReplicas` returns a cap: the status is the one `setEcoMode` left
and the cap is the value `getMaxReplicas` returned. -/
theorem evaluate_bands
    (srt : List CarbonIntensityConfig → List CarbonIntensityConfig)
    (parseTime : String → Except String Time) (mustParse : String → Option Expression)
    (now : Time) (spec : CarbonAwareKedaScalerSpec) (forecast : List CarbonForecast)
    (st0 st : EcoModeStatus) (cf : CarbonForecast) (m : Option Int)
    (hfind : findCarbonForecast forecast now = some cf)
    (hst0 : st0.IsDisabled = false)
    (hset : setEcoMode parseTime mustParse now now st0 spec.EcoModeOff forecast
      = .done (st, none))
    (hon : st.IsDisabled = false)
    (hget : (getMaxReplicas srt (some cf) spec.MaxReplicasByCarbonIntensity).1
      = .done (m, none)) :
    evaluate srt parseTime mustParse now spec forecast none st0
      = .done { ecoModeStatus := st
                maxReplicaCount := m
                requeueInterval := cf.Duration
                currentforecast := cf } := by
  simp [evaluate, fetchStep, hfind, ecoModeStep, hst0, hset, maxReplicasStep, hon, hget]

/-- The Update that the `switch` makes for a target of one of the two kinds
when the target, the HPA of a scaled object and the fresh target are found. -/
theorem scaleTarget_update_eq (now : Time) (spec : CarbonAwareKedaScalerSpec) (c : Cluster)
    (l : Locals) (desired : Int)
    (hkind : stringsContains spec.KedaTarget "scaledobject" = true ∧ c.hpa = .found desired ∨
      stringsContains spec.KedaTarget "scaledobject" = false ∧
        stringsContains spec.KedaTarget "scaledjob" = true)
    (htarget : c.target = .found ()) (hfresh : c.freshTarget = .found ()) :
    (scaleTarget now spec c l).update
      = some (if stringsContains spec.KedaTarget "scaledobject" = true then
          { MaxReplicaCount := capForStatus
              (demandGuard l.ecoModeStatus l.maxReplicaCount desired) l.maxReplicaCount
              spec.EcoModeOff
            ecoModeStatus := demandGuard l.ecoModeStatus l.maxReplicaCount desired
            succeeded := c.updateOk }
        else
          { MaxReplicaCount := capForStatus l.ecoModeStatus l.maxReplicaCount spec.EcoModeOff
            ecoModeStatus := l.ecoModeStatus
            succeeded := c.updateOk }) := by
  unfold scaleTarget
  rcases hkind with ⟨hobj, hhpa⟩ | ⟨hobj, hjob⟩
  · simp only [hobj, if_true, scaledObjectCase, htarget, hhpa]
    exact updateTarget_found _ _ _ _ _ hfresh
  · simp only [hobj, hjob, Bool.false_eq_true, if_false, if_true, scaledJobCase, htarget]
    exact updateTarget_found _ _ _ _ _ hfresh

/-- C9. For both kinds of target. (1) Every Update that `Reconcile` makes
writes the default cap `EcoModeOff.MaxReplicas` when it is made with eco mode
disabled, and the value that `getMaxReplicas` returned (with a nil error) for
the sample covering `now` when it is made with eco mode enabled. (2) The
Update is made whenever the custom resource is found, the decision part ends
without a panic, and the target, the HPA of a scaled object and the fresh
target are found. (3) Cause by cause, when a sample covers `now` and those
calls succeed: after an error of the forecast fetch, and after an error of
`setEcoMode`, the Update writes the default cap with eco mode disabled and the
error as reason (the demand guard of a scaled object puts its own reason when
the default cap is below the desired replicas); when `setEcoMode` disables eco
mode without an error, which it does by a custom window, a recurring rule or
the intensity-duration rule only, the Update writes the default cap with the
status `setEcoMode` left; when `setEcoMode` leaves eco mode enabled and
`getMaxReplicas` returns the cap `m`, the Update writes the default cap with
the reason of the demand guard for a scaled object with `m` below the desired
replicas, and writes `m` with eco mode enabled otherwise; and `getMaxReplicas`
returns no error for the sample found, so that cause does not arise. -/
theorem Reconcile_written_cap
    (srt : List CarbonIntensityConfig → List CarbonIntensityConfig)
    (parseTime : String → Except String Time) (mustParse : String → Option Expression)
    (now : Time) (c : Cluster) :
    (∀ u, (Reconcile srt parseTime mustParse now c).update = some u →
      ∃ spec, c.scaler = .found spec ∧
        (u.ecoModeStatus.IsDisabled = true →
          u.MaxReplicaCount = some spec.EcoModeOff.MaxReplicas) ∧
        (u.ecoModeStatus.IsDisabled = false →
          ∃ cf, findCarbonForecast c.forecast now = some cf ∧
            (getMaxReplicas srt (some cf) spec.MaxReplicasByCarbonIntensity).1
              = .done (u.MaxReplicaCount, none))) ∧
    (∀ spec initial l desired,
      c.scaler = .found spec →
      getRequeueDuration now 5 = .done initial →
      evaluate srt parseTime mustParse now spec c.forecast c.fetchErr
        { IsDisabled := false, DisableReason := .empty, RequeueAfter := initial } = .done l →
      (stringsContains spec.KedaTarget "scaledobject" = true ∧ c.hpa = .found desired ∨
        stringsContains spec.KedaTarget "scaledobject" = false ∧
          stringsContains spec.KedaTarget "scaledjob" = true) →
      c.target = .found () → c.freshTarget = .found () →
      ∃ u, (Reconcile srt parseTime mustParse now c).update = some u) ∧
    (∀ spec cf initial desired,
      c.scaler = .found spec →
      findCarbonForecast c.forecast now = some cf →
      getRequeueDuration now 5 = .done initial →
      (stringsContains spec.KedaTarget "scaledobject" = true ∧ c.hpa = .found desired ∨
        stringsContains spec.KedaTarget "scaledobject" = false ∧
          stringsContains spec.KedaTarget "scaledjob" = true) →
      c.target = .found () → c.freshTarget = .found () →
      (∀ err, c.fetchErr = some err →
        (Reconcile srt parseTime mustParse now c).update
          = some { MaxReplicaCount := some spec.EcoModeOff.MaxReplicas
                   ecoModeStatus :=
                     if stringsContains spec.KedaTarget "scaledobject" = true ∧
                         spec.EcoModeOff.MaxReplicas < desired then
                       hpaDesiresStatus (errorStatus err initial) spec.EcoModeOff.MaxReplicas
                         desired
                     else errorStatus err initial
                   succeeded := c.updateOk }) ∧
      (c.fetchErr = none →
        (∀ st err,
          setEcoMode parseTime mustParse now now
              { IsDisabled := false, DisableReason := .empty, RequeueAfter := initial }
              spec.EcoModeOff c.forecast = .done (st, some err) →
          ∃ d, getRequeueDuration now cf.Duration = .done d ∧
            (Reconcile srt parseTime mustParse now c).update
              = some { MaxReplicaCount := some spec.EcoModeOff.MaxReplicas
                       ecoModeStatus :=
                         if stringsContains spec.KedaTarget "scaledobject" = true ∧
                             spec.EcoModeOff.MaxReplicas < desired then
                           hpaDesiresStatus (errorStatus err d) spec.EcoModeOff.MaxReplicas
                             desired
                         else errorStatus err d
                       succeeded := c.updateOk }) ∧
        (∀ st,
          setEcoMode parseTime mustParse now now
              { IsDisabled := false, DisableReason := .empty, RequeueAfter := initial }
              spec.EcoModeOff c.forecast = .done (st, none) →
          st.IsDisabled = true →
          ((∃ start stop, st = customScheduleStatus now start stop) ∨
            (∃ entry last, st = recurringScheduleStatus now entry last) ∨
            st = carbonIntensityStatus
              { IsDisabled := false, DisableReason := .empty, RequeueAfter := initial }
              spec.EcoModeOff) ∧
          (Reconcile srt parseTime mustParse now c).update
            = some { MaxReplicaCount := some spec.EcoModeOff.MaxReplicas
                     ecoModeStatus := st
                     succeeded := c.updateOk }) ∧
        (∀ st m,
          setEcoMode parseTime mustParse now now
              { IsDisabled := false, DisableReason := .empty, RequeueAfter := initial }
              spec.EcoModeOff c.forecast = .done (st, none) →
          st.IsDisabled = false →
          (getMaxReplicas srt (some cf) spec.MaxReplicasByCarbonIntensity).1
            = .done (m, none) →
          (∀ k, m = some k → stringsContains spec.KedaTarget "scaledobject" = true →
            k < desired →
            (Reconcile srt parseTime mustParse now c).update
              = some { MaxReplicaCount := some spec.EcoModeOff.MaxReplicas
                       ecoModeStatus := hpaDesiresStatus st k desired
                       succeeded := c.updateOk }) ∧
          ((m = none ∨ stringsContains spec.KedaTarget "scaledobject" = false ∨
              ∃ k, m = some k ∧ desired ≤ k) →
            (Reconcile srt parseTime mustParse now c).update
              = some { MaxReplicaCount := m
                       ecoModeStatus := st
                       succeeded := c.updateOk }))) ∧
      (∀ m err, (getMaxReplicas srt (some cf) spec.MaxReplicasByCarbonIntensity).1
        ≠ .done (m, some err))) := by
  refine ⟨?_, ?_, ?_⟩
  · intro u hu
    obtain ⟨spec, initial, l, hscaler, -, heval, hrec⟩ :=
      Reconcile_update_some srt parseTime mustParse now c u hu
    rw [hrec] at hu
    obtain ⟨hcap, -, hstatus⟩ := scaleTarget_update now spec c l u hu
    refine ⟨spec, hscaler, ?_, ?_⟩
    · intro hdis
      rw [hcap, capForStatus, if_pos hdis]
    · intro hon
      have hl : u.ecoModeStatus = l.ecoModeStatus := by
        rcases hstatus with h | ⟨-, desired, -, h⟩
        · exact h
        · rw [h] at hon ⊢
          exact demandGuard_enabled _ _ _ hon
      have hon' : l.ecoModeStatus.IsDisabled = false := hl ▸ hon
      obtain ⟨hfind, hget⟩ := evaluate_enabled srt parseTime mustParse now spec c.forecast
        c.fetchErr _ l heval hon'
      refine ⟨l.currentforecast, hfind, ?_⟩
      rw [hcap, capForStatus, if_neg (by simp [hon])]
      exact hget
  · intro spec initial l desired hscaler hinit heval hkind htarget hfresh
    rw [Reconcile_of_evaluate srt parseTime mustParse now c spec initial l hscaler hinit heval]
    unfold scaleTarget
    rcases hkind with ⟨hobj, hhpa⟩ | ⟨hobj, hjob⟩
    · simp only [hobj, if_true, scaledObjectCase, htarget, hhpa]
      exact ⟨_, updateTarget_found _ _ _ _ _ hfresh⟩
    · simp only [hobj, hjob, Bool.false_eq_true, if_false, if_true, scaledJobCase, htarget]
      exact ⟨_, updateTarget_found _ _ _ _ _ hfresh⟩
  · intro spec cf initial desired hscaler hfind hinit hkind htarget hfresh
    have hrun : ∀ l, evaluate srt parseTime mustParse now spec c.forecast c.fetchErr
        { IsDisabled := false, DisableReason := .empty, RequeueAfter := initial } = .done l →
        (Reconcile srt parseTime mustParse now c).update
          = some (if stringsContains spec.KedaTarget "scaledobject" = true then
              { MaxReplicaCount := capForStatus
                  (demandGuard l.ecoModeStatus l.maxReplicaCount desired) l.maxReplicaCount
                  spec.EcoModeOff
                ecoModeStatus := demandGuard l.ecoModeStatus l.maxReplicaCount desired
                succeeded := c.updateOk }
            else
              { MaxReplicaCount := capForStatus l.ecoModeStatus l.maxReplicaCount
                  spec.EcoModeOff
                ecoModeStatus := l.ecoModeStatus
                succeeded := c.updateOk }) := by
      intro l heval
      rw [Reconcile_of_evaluate srt parseTime mustParse now c spec initial l hscaler hinit
        heval]
      exact scaleTarget_update_eq now spec c l desired hkind htarget hfresh
    refine ⟨?_, ?_, getMaxReplicas_some_no_error srt cf _⟩
    · intro err herr
      have heval := evaluate_fetch_error srt parseTime mustParse now spec c.forecast err
        { IsDisabled := false, DisableReason := .empty, RequeueAfter := initial } cf initial
        hfind hinit
      rw [← herr] at heval
      rw [hrun _ heval]
      by_cases hobj : stringsContains spec.KedaTarget "scaledobject" = true
      · by_cases hlt : spec.EcoModeOff.MaxReplicas < desired
        · simp [hobj, hlt, demandGuard, capForStatus, errorStatus, hpaDesiresStatus]
        · simp [hobj, hlt, demandGuard, capForStatus, errorStatus]
      · simp [hobj, capForStatus, errorStatus]
    · intro hnone
      refine ⟨?_, ?_, ?_⟩
      · intro st err hset
        obtain ⟨-, d, hd⟩ := found_duration_requeue c.forecast now now cf hfind
        refine ⟨d, hd, ?_⟩
        have heval := evaluate_setEcoMode_error srt parseTime mustParse now spec c.forecast
          { IsDisabled := false, DisableReason := .empty, RequeueAfter := initial } st err cf d
          hfind rfl hset hd
        rw [← hnone] at heval
        rw [hrun _ heval]
        by_cases hobj : stringsContains spec.KedaTarget "scaledobject" = true
        · by_cases hlt : spec.EcoModeOff.MaxReplicas < desired
          · simp [hobj, hlt, demandGuard, capForStatus, errorStatus, hpaDesiresStatus]
          · simp [hobj, hlt, demandGuard, capForStatus, errorStatus]
        · simp [hobj, capForStatus, errorStatus]
      · intro st hset hdis
        constructor
        · rcases setEcoMode_cases parseTime mustParse now now
              { IsDisabled := false, DisableReason := .empty, RequeueAfter := initial }
              spec.EcoModeOff c.forecast with
            hc | ⟨e, hc⟩ | ⟨start, stop, hc⟩ | ⟨entry, last, hc⟩ | hc
          · rw [hc] at hset
            exact Run.noConfusion hset
          · rw [hc] at hset
            exact Option.noConfusion (Prod.mk.inj (Run.done.inj hset)).2
          · rw [hc] at hset
            exact Or.inl ⟨start, stop, (Prod.mk.inj (Run.done.inj hset)).1.symm⟩
          · rw [hc] at hset
            exact Or.inr (Or.inl ⟨entry, last, (Prod.mk.inj (Run.done.inj hset)).1.symm⟩)
          · rw [hc, carbonIntensityDurationBlock_eq] at hset
            have hst := (Prod.mk.inj (Run.done.inj hset)).1
            by_cases hf : intensityRuleFires now spec.EcoModeOff c.forecast = true
            · rw [if_pos hf] at hst
              exact Or.inr (Or.inr hst.symm)
            · rw [if_neg hf] at hst
              rw [← hst] at hdis
              exact Bool.noConfusion hdis
        · have heval := evaluate_override srt parseTime mustParse now spec c.forecast
            { IsDisabled := false, DisableReason := .empty, RequeueAfter := initial } st cf
            hfind rfl hset hdis
          rw [← hnone] at heval
          rw [hrun _ heval]
          by_cases hobj : stringsContains spec.KedaTarget "scaledobject" = true
          · simp [hobj, demandGuard, capForStatus, hdis]
          · simp [hobj, capForStatus, hdis]
      · intro st m hset hon hget
        have heval := evaluate_bands srt parseTime mustParse now spec c.forecast
          { IsDisabled := false, DisableReason := .empty, RequeueAfter := initial } st cf m
          hfind rfl hset hon hget
        rw [← hnone] at heval
        rw [hrun _ heval]
        constructor
        · intro k hk hobj hlt
          subst hk
          simp [hobj, hlt, demandGuard, capForStatus, hpaDesiresStatus]
        · intro hcase
          by_cases hobj : stringsContains spec.KedaTarget "scaledobject" = true
          · rcases hcase with hm | hno | ⟨k, hk, hle⟩
            · subst hm
              simp [hobj, demandGuard, capForStatus, hon]
            · rw [hobj] at hno
              exact Bool.noConfusion hno
            · subst hk
              simp [hobj, not_lt.mpr hle, demandGuard, capForStatus, hon]
          · simp [hobj, capForStatus, hon]

/-- C9, cause by cause. A custom window (scaled object, 10:30 inside the window
10:00 to 11:00) and the intensity-duration rule (scaled job, threshold 50 over
one minute, intensity 90): the Update writes the default cap 100 with the
status `setEcoMode` left. A fetch error that comes with a sample covering noon
(scaled job) and a malformed custom-schedule entry (scaled object): the Update
writes the default cap 100 with the error as reason. With no rule configured
and the band cap 9: for a scaled object whose HPA desires 12 replicas the
Update writes 100 with the reason of the demand guard; for a scaled job it
writes 9 with eco mode enabled. -/
theorem Reconcile_written_cap_witness :
    (Reconcile insertionSortLessFunc parseSample mustParseSample (1685615400 * Second)
        windowCluster).update
      = some { MaxReplicaCount := some 100
               ecoModeStatus := customScheduleStatus (1685615400 * Second)
                 (1685613600 * Second) (1685617200 * Second)
               succeeded := true } ∧
    (Reconcile insertionSortLessFunc parseSample mustParseSample (1685620800 * Second)
        intensityCluster).update
      = some { MaxReplicaCount := some 100
               ecoModeStatus := { IsDisabled := true
                                  DisableReason := .carbonIntensity 50 (1 * Minute)
                                  RequeueAfter := 5 * Minute }
               succeeded := true } ∧
    (Reconcile insertionSortLessFunc parseSample mustParseSample (1685620800 * Second)
        partialFetchCluster).update
      = some { MaxReplicaCount := some 100
               ecoModeStatus := errorStatus "stale forecast" (5 * Minute)
               succeeded := true } ∧
    (∃ d, getRequeueDuration (1685620800 * Second) 5 = .done d ∧
      (Reconcile insertionSortLessFunc parseSample mustParseSample (1685620800 * Second)
          malformedCluster).update
        = some { MaxReplicaCount := some 100
                 ecoModeStatus := errorStatus "cannot parse yesterday" d
                 succeeded := true }) ∧
    (Reconcile insertionSortLessFunc parseSample mustParseSample (1685620800 * Second)
        (sampleCluster "scaledobjects.keda.sh" 12)).update
      = some { MaxReplicaCount := some 100
               ecoModeStatus := { IsDisabled := true, DisableReason := .hpaDesires 9 12,
                                  RequeueAfter := 5 * Minute }
               succeeded := true } ∧
    (Reconcile insertionSortLessFunc parseSample mustParseSample (1685620800 * Second)
        (sampleCluster "scaledjobs.keda.sh" 12)).update
      = some { MaxReplicaCount := some 9
               ecoModeStatus := { IsDisabled := false, DisableReason := .empty,
                                  RequeueAfter := 5 * Minute }
               succeeded := true } ∧
    (∃ spec, (sampleCluster "scaledobjects.keda.sh" 12).scaler = .found spec ∧
      (true = true → (some 100 : Option Int) = some spec.EcoModeOff.MaxReplicas) ∧
      (true = false →
        ∃ cf, findCarbonForecast (sampleCluster "scaledobjects.keda.sh" 12).forecast
            (1685620800 * Second) = some cf ∧
          (getMaxReplicas insertionSortLessFunc (some cf) spec.MaxReplicasByCarbonIntensity).1
            = .done (some 100, none))) ∧
    (∃ u, (Reconcile insertionSortLessFunc parseSample mustParseSample (1685620800 * Second)
        (sampleCluster "scaledjobs.keda.sh" 12)).update = some u) :=
  ⟨((((Reconcile_written_cap insertionSortLessFunc parseSample mustParseSample
        (1685615400 * Second) windowCluster).2.2
        { KedaTarget := "scaledobjects.keda.sh"
          MaxReplicasByCarbonIntensity := [⟨100, some 9⟩]
          EcoModeOff := morningWindowPolicy }
        ⟨1685615400 * Second, 5, .finite 50⟩ (5 * Minute) 5 rfl (by decide) (by decide)
        (Or.inl ⟨by decide, rfl⟩) rfl rfl).2.1 rfl).2.1
      (customScheduleStatus (1685615400 * Second) (1685613600 * Second)
        (1685617200 * Second)) (by decide) rfl).2,
    ((((Reconcile_written_cap insertionSortLessFunc parseSample mustParseSample
        (1685620800 * Second) intensityCluster).2.2
        { KedaTarget := "scaledjobs.keda.sh"
          MaxReplicasByCarbonIntensity := [⟨100, some 9⟩]
          EcoModeOff := intensityPolicy 1 }
        ⟨1685577600 * Second, 1440, .finite 90⟩ (5 * Minute) 0 rfl (by decide) (by decide)
        (Or.inr ⟨by decide, by decide⟩) rfl rfl).2.1 rfl).2.1
      { IsDisabled := true
        DisableReason := .carbonIntensity 50 (1 * Minute)
        RequeueAfter := 5 * Minute } (by decide) rfl).2,
    ((Reconcile_written_cap insertionSortLessFunc parseSample mustParseSample
        (1685620800 * Second) partialFetchCluster).2.2
        (sampleSpec "scaledjobs.keda.sh")
        ⟨1685620800 * Second, 5, .finite 50⟩ (5 * Minute) 0 rfl (by decide) (by decide)
        (Or.inr ⟨by decide, by decide⟩) rfl rfl).1 "stale forecast" rfl,
    ((((Reconcile_written_cap insertionSortLessFunc parseSample mustParseSample
        (1685620800 * Second) malformedCluster).2.2
        { KedaTarget := "scaledobjects.keda.sh"
          MaxReplicasByCarbonIntensity := [⟨100, some 9⟩]
          EcoModeOff := malformedOnlyPolicy }
        ⟨1685620800 * Second, 5, .finite 50⟩ (5 * Minute) 5 rfl (by decide) (by decide)
        (Or.inl ⟨by decide, rfl⟩) rfl rfl).2.1 rfl).1
      { IsDisabled := false, DisableReason := .empty, RequeueAfter := 5 * Minute }
      "cannot parse yesterday" (by decide)),
    (((((Reconcile_written_cap insertionSortLessFunc parseSample mustParseSample
        (1685620800 * Second) (sampleCluster "scaledobjects.keda.sh" 12)).2.2
        (sampleSpec "scaledobjects.keda.sh")
        ⟨1685620800 * Second, 5, .finite 50⟩ (5 * Minute) 12 rfl (by decide) (by decide)
        (Or.inl ⟨by decide, rfl⟩) rfl rfl).2.1 rfl).2.2
      { IsDisabled := false, DisableReason := .empty, RequeueAfter := 5 * Minute }
      (some 9) (by decide) rfl (by decide)).1 9 rfl (by decide) (by decide)),
    (((((Reconcile_written_cap insertionSortLessFunc parseSample mustParseSample
        (1685620800 * Second) (sampleCluster "scaledjobs.keda.sh" 12)).2.2
        (sampleSpec "scaledjobs.keda.sh")
        ⟨1685620800 * Second, 5, .finite 50⟩ (5 * Minute) 12 rfl (by decide) (by decide)
        (Or.inr ⟨by decide, by decide⟩) rfl rfl).2.1 rfl).2.2
      { IsDisabled := false, DisableReason := .empty, RequeueAfter := 5 * Minute }
      (some 9) (by decide) rfl (by decide)).2 (Or.inr (Or.inl (by decide)))),
    (Reconcile_written_cap insertionSortLessFunc parseSample mustParseSample
      (1685620800 * Second) (sampleCluster "scaledobjects.keda.sh" 12)).1
      { MaxReplicaCount := some 100
        ecoModeStatus := { IsDisabled := true, DisableReason := .hpaDesires 9 12,
                           RequeueAfter := 5 * Minute }
        succeeded := true } (by decide),
    (Reconcile_written_cap insertionSortLessFunc parseSample mustParseSample
      (1685620800 * Second) (sampleCluster "scaledjobs.keda.sh" 12)).2.1
      (sampleSpec "scaledjobs.keda.sh") (5 * Minute) sampleLocals 12 rfl (by decide)
      (by decide) (Or.inr ⟨by decide, by decide⟩) rfl rfl⟩

end CarbonAware
